import Mathlib

/-!
# Beat-synchronised ball game: frame update, paddle input and scene graph

A shallow embedding of `src/src/gamelogic.cpp`.

* Numbers of the game (`float`, `double`) are rationals. Three computations
  are rounded as the machine rounds them (IEEE 754 binary64 and binary32, to
  nearest, ties to even: `roundDouble`, `roundFloat`): the frame fraction
  `fractionFrameComplete`, the ball move `movedCoordinate`, and the paddle
  edges of the miss check in `updateFrameDouble`. All other arithmetic is
  exact, and `updateFrame` takes the paddle edges of the miss check exactly.
  Overflow, infinities and NaN are not part of this development; a quotient
  by zero is zero.
* The process-wide variables of `gamelogic.cpp` are the fields of `GameState`;
  `updateFrame` and `mouseCallback` are functions from state to state.
* `std::vector::at` is a lookup that can fail; a failed lookup makes the
  frame end in `Exn.out_of_range`.
* The beat table of `timestamps.h` and the window size of `window.hpp` are
  parameters; the node type of `sceneGraph.hpp` follows the field accesses of
  `gamelogic.cpp`; the cosine and sine inside `glm::rotate` are a parameter.
* The index type `unsigned int` is `Nat`; the one place where it can wrap,
  `currentKeyFrame + 1`, is taken modulo `2 ^ 32`.
-/

namespace GameLogic

/-! ## Data model -/

/-- Boundary kind of a keyframe, `enum KeyFrameAction { BOTTOM, TOP }`. -/
inductive KeyFrameAction where
  | BOTTOM
  | TOP
  deriving DecidableEq, Repr

/-- A `glm::vec3` with rational coordinates. -/
structure Vec3 where
  x : ℚ
  y : ℚ
  z : ℚ
  deriving DecidableEq, Repr

/-- The two configuration flags read by `updateFrame`. -/
structure CommandLineOptions where
  enableMusic : Bool
  enableAutoplay : Bool
  deriving DecidableEq, Repr

/-- Commands sent to the `sf::Sound` object, in the order they are issued. -/
inductive AudioCmd where
  | create
  | setBuffer
  | setPlayingOffset (seconds : ℚ)
  | play
  | pause
  | stop
  | destroy
  deriving DecidableEq, Repr

/-- The exception a failed `std::vector::at` raises. -/
inductive Exn where
  | out_of_range
  deriving DecidableEq, Repr

/-- Width of `unsigned int`. -/
def UINT_WIDTH : Nat := 32

/-- `const glm::vec3 boxDimensions(180, 90, 90)`. -/
def boxDimensions : Vec3 := ⟨180, 90, 90⟩

/-- `const glm::vec3 padDimensions(30, 3, 40)`. -/
def padDimensions : Vec3 := ⟨30, 3, 40⟩

/-- `double ballRadius = 3.0f` (never assigned after initialisation). -/
def ballRadius : ℚ := 3

/-- `const float debug_startTime = 0`. -/
def debug_startTime : ℚ := 0

/-- `const float cameraWallOffset = 30` of `updateFrame`. -/
def cameraWallOffset : ℚ := 30

/-- `const float ballSpeed = 60.0f` of `updateFrame`. -/
def ballSpeed : ℚ := 60

/-- The process-wide variables of `gamelogic.cpp`, together with the position
fields of the three scene nodes `updateFrame` reads and writes, and the
liveness of the heap-allocated `sound` object. -/
structure GameState where
  padPositionX : ℚ
  padPositionZ : ℚ
  currentKeyFrame : Nat
  previousKeyFrame : Nat
  ballPosition : Vec3
  ballDirection : Vec3
  hasStarted : Bool
  hasLost : Bool
  jumpedToNextFrame : Bool
  isPaused : Bool
  mouseLeftPressed : Bool
  mouseLeftReleased : Bool
  mouseRightPressed : Bool
  mouseRightReleased : Bool
  totalElapsedTime : ℚ
  gameElapsedTime : ℚ
  mouseSensitivity : ℚ
  lastMouseX : ℚ
  lastMouseY : ℚ
  boxNodePosition : Vec3
  ballNodePosition : Vec3
  ballNodeScale : Vec3
  ballNodeRotation : Vec3
  padNodePosition : Vec3
  soundAlive : Bool
  audioLog : List AudioCmd
  deriving DecidableEq, Repr

/-- What one call of `updateFrame` reads from outside: the time since the
previous call (`getTimeDeltaSeconds`) and the two raw button samples
(`glfwGetMouseButton`). -/
structure FrameInput where
  timeDelta : ℚ
  button1 : Bool
  button2 : Bool
  deriving DecidableEq, Repr

/-- What is fixed for a run: the options and the beat table of `timestamps.h`
(`keyFrameTimeStamps`, `keyFrameDirections`). -/
structure Config where
  options : CommandLineOptions
  keyFrameTimeStamps : List ℚ
  keyFrameDirections : List KeyFrameAction
  deriving DecidableEq, Repr

/-- The state before the first frame: the initialisers of the globals of
`gamelogic.cpp` (the `z` direction `0.2f` is the `float` `13421773 / 2 ^ 26`),
no sound object, and the three nodes as `createSceneNode` leaves them
(position and rotation zero, unit scale).
`windowWidth`, `windowHeight` are the globals of `window.hpp`. -/
def initialState (windowWidth windowHeight : Int) : GameState where
  padPositionX := 0
  padPositionZ := 0
  currentKeyFrame := 0
  previousKeyFrame := 0
  ballPosition := ⟨0, ballRadius + padDimensions.y, boxDimensions.z / 2⟩
  ballDirection := ⟨1, 1, 13421773 / 67108864⟩
  hasStarted := false
  hasLost := false
  jumpedToNextFrame := false
  isPaused := false
  mouseLeftPressed := false
  mouseLeftReleased := false
  mouseRightPressed := false
  mouseRightReleased := false
  totalElapsedTime := debug_startTime
  gameElapsedTime := debug_startTime
  mouseSensitivity := 1
  lastMouseX := (windowWidth : ℚ) / 2
  lastMouseY := (windowHeight : ℚ) / 2
  boxNodePosition := ⟨0, 0, 0⟩
  ballNodePosition := ⟨0, 0, 0⟩
  ballNodeScale := ⟨1, 1, 1⟩
  ballNodeRotation := ⟨0, 0, 0⟩
  padNodePosition := ⟨0, 0, 0⟩
  soundAlive := false
  audioLog := []

/-! ## Paddle input -/

/-- The body of `mouseCallback (window, x, y)`; `windowWidth`, `windowHeight`
are the values `glfwGetWindowSize` returns. -/
def mouseCallback (s : GameState) (x y : ℚ) (windowWidth windowHeight : Int) : GameState :=
  let deltaX := x - s.lastMouseX
  let deltaY := y - s.lastMouseY
  let px := s.padPositionX - s.mouseSensitivity * deltaX / (windowWidth : ℚ)
  let pz := s.padPositionZ - s.mouseSensitivity * deltaY / (windowHeight : ℚ)
  let px := if px > 1 then 1 else px
  let px := if px < 0 then 0 else px
  let pz := if pz > 1 then 1 else pz
  let pz := if pz < 0 then 0 else pz
  { s with padPositionX := px, padPositionZ := pz }

/-! ## Machine arithmetic -/

/-- Nearest integer to a rational, ties going to the even neighbour. -/
def roundHalfEven (y : ℚ) : ℤ :=
  if y - ⌊y⌋ < 1 / 2 then ⌊y⌋
  else if 1 / 2 < y - ⌊y⌋ then ⌊y⌋ + 1
  else if ⌊y⌋ % 2 = 0 then ⌊y⌋ else ⌊y⌋ + 1

/-- Exponent of the unit in the last place of `x` in a binary format with `p` significand bits
and least exponent `emin`. -/
def quantumExponent (p : ℕ) (emin : ℤ) (x : ℚ) : ℤ :=
  max (Int.log 2 |x| - ((p : ℤ) - 1)) emin

/-- IEEE-754 round-to-nearest-even into the binary format with `p` significand bits and least
exponent `emin`; overflow to infinity is not represented. -/
def roundBinary (p : ℕ) (emin : ℤ) (x : ℚ) : ℚ :=
  roundHalfEven (x / 2 ^ quantumExponent p emin x) * 2 ^ quantumExponent p emin x

/-- Rounding to `double` (binary64). -/
def roundDouble (x : ℚ) : ℚ := roundBinary 53 (-1074) x

/-- Rounding to `float` (binary32). -/
def roundFloat (x : ℚ) : ℚ := roundBinary 24 (-149) x

/-! ## Frame constants -/

/-- `ballBottomY` of `updateFrame`, from the box position at frame start. -/
def ballBottomY (box : Vec3) : ℚ := box.y - (boxDimensions.y / 2) + ballRadius + padDimensions.y

/-- `ballTopY` of `updateFrame`. -/
def ballTopY (box : Vec3) : ℚ := box.y + (boxDimensions.y / 2) - ballRadius

/-- `BallVerticalTravelDistance` of `updateFrame`. -/
def BallVerticalTravelDistance (box : Vec3) : ℚ := ballTopY box - ballBottomY box

/-- `ballMinX` of `updateFrame`. -/
def ballMinX (box : Vec3) : ℚ := box.x - (boxDimensions.x / 2) + ballRadius

/-- `ballMaxX` of `updateFrame`. -/
def ballMaxX (box : Vec3) : ℚ := box.x + (boxDimensions.x / 2) - ballRadius

/-- `ballMinZ` of `updateFrame`. -/
def ballMinZ (box : Vec3) : ℚ := box.z - (boxDimensions.z / 2) + ballRadius

/-- `ballMaxZ` of `updateFrame`. -/
def ballMaxZ (box : Vec3) : ℚ := box.z + (boxDimensions.z / 2) - ballRadius - cameraWallOffset

/-! ## Beat timeline -/

/-- The keyframe loop of `updateFrame`,
`for (unsigned int i = currentKeyFrame; i < keyFrameTimeStamps.size(); i++)`,
entered at counter `i` with `currentKeyFrame = ckf`: an entry later than the
game time is skipped (`continue`), every other one is stored. The counter
stays below the table size, so it does not wrap for a table of fewer than
`2 ^ 32` entries. -/
def scanKeyFrames (ts : List ℚ) (t : ℚ) (i ckf : Nat) : Nat :=
  if h : i < ts.length then
    if t < ts[i] then scanKeyFrames ts t (i + 1) ckf
    else scanKeyFrames ts t (i + 1) i
  else ckf
termination_by ts.length - i

/-- The index `currentKeyFrame + 1` in `unsigned int` arithmetic. -/
def nextKeyFrame (ckf : Nat) : Nat := (ckf + 1) % 2 ^ UINT_WIDTH

/-- The quotient `elapsedTimeInFrame / frameDuration` of `updateFrame`, for the
game time `t` and the two timestamps of the active interval: two `double`
subtractions and a `double` division, each rounded. -/
def fractionFrameComplete (t frameStart frameEnd : ℚ) : ℚ :=
  let elapsedTimeInFrame := roundDouble (t - frameStart)
  let frameDuration := roundDouble (frameEnd - frameStart)
  roundDouble (elapsedTimeInFrame / frameDuration)

/-- The vertical coordinate chosen from the boundary kinds of the active
interval (`ballYCoord`, initialised to `0.0`). -/
def ballYCoord (box : Vec3) (currentOrigin currentDestination : KeyFrameAction)
    (fractionFrameComplete : ℚ) : ℚ :=
  if currentOrigin = .BOTTOM ∧ currentDestination = .BOTTOM then
    ballBottomY box
  else if currentOrigin = .TOP ∧ currentDestination = .TOP then
    ballBottomY box + BallVerticalTravelDistance box
  else if currentDestination = .BOTTOM then
    ballBottomY box + BallVerticalTravelDistance box * (1 - fractionFrameComplete)
  else if currentDestination = .TOP then
    ballBottomY box + BallVerticalTravelDistance box * fractionFrameComplete
  else 0

/-! ## Ball and paddle simulation -/

/-- One axis of "make ball move", `ballPosition.x += timeDelta * ballSpeed *
ballDirection.x`: the `float` operands are widened, both products and the sum
are `double` operations, and the sum is stored back in the `float`
coordinate. -/
def movedCoordinate (position timeDelta direction : ℚ) : ℚ :=
  roundFloat (roundDouble
    (position + roundDouble (roundDouble (timeDelta * ballSpeed) * direction)))

/-- One axis of "make ball bounce": the moved coordinate `p` with direction
component `d` against the bounds `lo`, `hi`. -/
def bounce (lo hi p d : ℚ) : ℚ × ℚ :=
  if p < lo then (lo, d * (-1))
  else if p > hi then (hi, d * (-1))
  else (p, d)

/-- `padLeftX` of the miss check, its expression evaluated exactly
(`padLeftXDouble` is the value the machine computes). -/
def padLeftX (box : Vec3) (padPositionX : ℚ) : ℚ :=
  box.x - (boxDimensions.x / 2) + (1 - padPositionX) * (boxDimensions.x - padDimensions.x)

/-- `padRightX` of the miss check, evaluated exactly. -/
def padRightX (box : Vec3) (padPositionX : ℚ) : ℚ := padLeftX box padPositionX + padDimensions.x

/-- `padFrontZ` of the miss check, evaluated exactly. -/
def padFrontZ (box : Vec3) (padPositionZ : ℚ) : ℚ :=
  box.z - (boxDimensions.z / 2) + (1 - padPositionZ) * (boxDimensions.z - padDimensions.z)

/-- `padBackZ` of the miss check, evaluated exactly. -/
def padBackZ (box : Vec3) (padPositionZ : ℚ) : ℚ := padFrontZ box padPositionZ + padDimensions.z

/-- The condition of the inner `if` of the miss check on the exact edges: the
ball is outside the paddle's footprint. -/
def ballOutsidePad (box : Vec3) (ball : Vec3) (padPositionX padPositionZ : ℚ) : Bool :=
  decide (ball.x < padLeftX box padPositionX) || decide (ball.x > padRightX box padPositionX) ||
    decide (ball.z < padFrontZ box padPositionZ) || decide (ball.z > padBackZ box padPositionZ)

/-- The two button blocks at the top of `updateFrame`. -/
def sampleButtons (s : GameState) (inp : FrameInput) : GameState :=
  let s : GameState :=
    if inp.button1 then { s with mouseLeftPressed := true, mouseLeftReleased := false }
    else { s with mouseLeftReleased := s.mouseLeftPressed, mouseLeftPressed := false }
  if inp.button2 then { s with mouseRightPressed := true, mouseRightReleased := false }
  else { s with mouseRightReleased := s.mouseRightPressed, mouseRightPressed := false }

/-- The branch `if (!hasStarted)` of `updateFrame`. -/
def notStartedFrame (cfg : Config) (s : GameState) : GameState :=
  let box := s.boxNodePosition
  let s : GameState :=
    if s.mouseLeftPressed then
      let s : GameState :=
        if cfg.options.enableMusic then
          { s with
            soundAlive := true
            audioLog := s.audioLog ++
              [.create, .setBuffer, .setPlayingOffset debug_startTime, .play] }
        else s
      { s with
        totalElapsedTime := debug_startTime
        gameElapsedTime := debug_startTime
        hasStarted := true }
    else s
  { s with
    ballPosition :=
      ⟨ballMinX box + (1 - s.padPositionX) * (ballMaxX box - ballMinX box),
       ballBottomY box,
       ballMinZ box + (1 - s.padPositionZ) * ((ballMaxZ box + cameraWallOffset) - ballMinZ box)⟩ }

/-- The branch `if (hasLost)` of `updateFrame`. -/
def lostFrame (s : GameState) : GameState :=
  if s.mouseLeftReleased then
    { s with hasLost := false, hasStarted := false, currentKeyFrame := 0, previousKeyFrame := 0 }
  else s

/-- The branch `else if (isPaused)` of `updateFrame`. -/
def pausedFrame (cfg : Config) (s : GameState) : GameState :=
  if s.mouseRightReleased then
    let s : GameState := { s with isPaused := false }
    if cfg.options.enableMusic then { s with audioLog := s.audioLog ++ [.play] } else s
  else s

/-- The final `else` branch of `updateFrame` up to the keyframe loop: the game
clock advances and a secondary release sets the pause flag. -/
def playingClock (cfg : Config) (timeDelta : ℚ) (s : GameState) : GameState :=
  let s : GameState := { s with gameElapsedTime := s.gameElapsedTime + timeDelta }
  if s.mouseRightReleased then
    let s : GameState := { s with isPaused := true }
    if cfg.options.enableMusic then { s with audioLog := s.audioLog ++ [.pause] } else s
  else s

/-- The final `else` branch of `updateFrame` after the four table lookups have
returned `frameStart`, `frameEnd`, `currentOrigin`, `currentDestination`;
`s` is the state after `playingClock`, `ckf` the index the loop left. The
move is the stored `float` (`movedCoordinate`); the miss check is taken on the
exact edges (`playingBodyDouble` takes it on the computed ones). -/
def playingBody (cfg : Config) (timeDelta : ℚ) (s : GameState) (ckf : Nat)
    (frameStart frameEnd : ℚ) (currentOrigin currentDestination : KeyFrameAction) : GameState :=
  let box := s.boxNodePosition
  let jumped : Bool := ckf != s.previousKeyFrame
  let y := ballYCoord box currentOrigin currentDestination
    (fractionFrameComplete s.gameElapsedTime frameStart frameEnd)
  let bx := bounce (ballMinX box) (ballMaxX box)
    (movedCoordinate s.ballPosition.x timeDelta s.ballDirection.x) s.ballDirection.x
  let bz := bounce (ballMinZ box) (ballMaxZ box)
    (movedCoordinate s.ballPosition.z timeDelta s.ballDirection.z) s.ballDirection.z
  let ball : Vec3 := ⟨bx.1, y, bz.1⟩
  let s : GameState :=
    { s with
      currentKeyFrame := ckf
      jumpedToNextFrame := jumped
      previousKeyFrame := ckf
      ballPosition := ball
      ballDirection := ⟨bx.2, s.ballDirection.y, bz.2⟩ }
  let s : GameState :=
    if cfg.options.enableAutoplay then
      { s with
        padPositionX := 1 - (ball.x - ballMinX box) / (ballMaxX box - ballMinX box)
        padPositionZ :=
          1 - (ball.z - ballMinZ box) / ((ballMaxZ box + cameraWallOffset) - ballMinZ box) }
    else s
  if jumped && decide (currentOrigin = .BOTTOM) && decide (currentDestination = .TOP) then
    if ballOutsidePad box ball s.padPositionX s.padPositionZ then
      let s : GameState := { s with hasLost := true }
      if cfg.options.enableMusic then
        { s with soundAlive := false, audioLog := s.audioLog ++ [.stop, .destroy] }
      else s
    else s
  else s

/-- The keyframe loop run from the state's `currentKeyFrame` at the state's
game time: the value of `currentKeyFrame` after the loop. -/
def scannedKeyFrame (cfg : Config) (s : GameState) : Nat :=
  scanKeyFrames cfg.keyFrameTimeStamps s.gameElapsedTime s.currentKeyFrame s.currentKeyFrame

/-- The final `else` branch of `updateFrame` (lines "gameElapsedTime +=" to
the end of the miss check). The lookups `.at(currentKeyFrame)` and
`.at(currentKeyFrame + 1)` on both tables end the frame with `out_of_range`
when the index is not below the table size. -/
def playingFrame (cfg : Config) (timeDelta : ℚ) (s : GameState) : Except Exn GameState :=
  let s := playingClock cfg timeDelta s
  let ckf := scannedKeyFrame cfg s
  match cfg.keyFrameTimeStamps[ckf]? with
  | none => .error .out_of_range
  | some frameStart =>
    match cfg.keyFrameTimeStamps[nextKeyFrame ckf]? with
    | none => .error .out_of_range
    | some frameEnd =>
      match cfg.keyFrameDirections[ckf]? with
      | none => .error .out_of_range
      | some currentOrigin =>
        match cfg.keyFrameDirections[nextKeyFrame ckf]? with
        | none => .error .out_of_range
        | some currentDestination =>
          .ok (playingBody cfg timeDelta s ckf frameStart frameEnd currentOrigin
            currentDestination)

/-- The node updates at the end of `updateFrame` ("move and rotate various
SceneNodes"): the box is put at `(0, -10, -80)`, the ball node follows the
ball, the pad node follows the accumulators. -/
def moveNodes (s : GameState) : GameState :=
  let box : Vec3 := ⟨0, -10, -80⟩
  { s with
    boxNodePosition := box
    ballNodePosition := s.ballPosition
    ballNodeScale := ⟨ballRadius, ballRadius, ballRadius⟩
    ballNodeRotation := ⟨0, s.totalElapsedTime * 2, 0⟩
    padNodePosition :=
      ⟨box.x - (boxDimensions.x / 2) + (padDimensions.x / 2) +
         (1 - s.padPositionX) * (boxDimensions.x - padDimensions.x),
       box.y - (boxDimensions.y / 2) + (padDimensions.y / 2),
       box.z - (boxDimensions.z / 2) + (padDimensions.z / 2) +
         (1 - s.padPositionZ) * (boxDimensions.z - padDimensions.z)⟩ }

/-- The statement `totalElapsedTime += timeDelta` that opens the `else` branch
of `if (!hasStarted)`. -/
def advanceTotal (timeDelta : ℚ) (s : GameState) : GameState :=
  { s with totalElapsedTime := s.totalElapsedTime + timeDelta }

/-- The `else` branch of `if (!hasStarted)`: the total clock advances, then
`hasLost`, `isPaused` choose the branch. -/
def startedFrame (cfg : Config) (timeDelta : ℚ) (s : GameState) : Except Exn GameState :=
  let s := advanceTotal timeDelta s
  if s.hasLost then .ok (lostFrame s)
  else if s.isPaused then .ok (pausedFrame cfg s)
  else playingFrame cfg timeDelta s

/-- The game-state part of `updateFrame`: button sampling, the phase branch
and the node moves. The camera matrix and the uniform uploads that follow do
not touch the game state. -/
def updateFrame (cfg : Config) (inp : FrameInput) (s : GameState) : Except Exn GameState :=
  let s := sampleButtons s inp
  let r : Except Exn GameState :=
    if !s.hasStarted then .ok (notStartedFrame cfg s)
    else startedFrame cfg inp.timeDelta s
  match r with
  | .ok s => .ok (moveNodes s)
  | .error e => .error e

/-- The four phases of the game, read off the flags in the order `updateFrame`
tests them. -/
inductive Phase where
  | NotStarted
  | Playing
  | Paused
  | Lost
  deriving DecidableEq, Repr

/-- The phase of a state: `hasStarted` first, then `hasLost`, then `isPaused`. -/
def phase (s : GameState) : Phase :=
  if !s.hasStarted then .NotStarted
  else if s.hasLost then .Lost
  else if s.isPaused then .Paused
  else .Playing

/-- The state of a Playing frame when it reaches the keyframe loop: buttons
sampled, both clocks advanced, the pause flag set on a secondary release. -/
def playingEntry (cfg : Config) (inp : FrameInput) (s : GameState) : GameState :=
  playingClock cfg inp.timeDelta (advanceTotal inp.timeDelta (sampleButtons s inp))

/-- Both paddle accumulators lie in `[0, 1]`. -/
def padInUnit (s : GameState) : Prop :=
  (0 ≤ s.padPositionX ∧ s.padPositionX ≤ 1) ∧ (0 ≤ s.padPositionZ ∧ s.padPositionZ ≤ 1)

/-! ## Sample tables and states -/

/-- Timestamps of the four-entry table `(0, Bottom), (1, Top), (2, Bottom),
(1e9, Bottom)`. -/
def scenarioTimeStamps : List ℚ := [0, 1, 2, 1000000000]

/-- The table `0.3, 1, 1e9`, the first entry being the `double` nearest to
`0.3`, which is `5404319552844595 / 2 ^ 54`. -/
def tightTimeStamps : List ℚ := [5404319552844595 / 18014398509481984, 1, 1000000000]

/-- The greatest `double` below `1`, which is `1 - 2 ^ (-53)`. -/
def tightTime : ℚ := 1 - 1 / 9007199254740992

/-- Boundary kinds of the same table. -/
def scenarioDirections : List KeyFrameAction := [.BOTTOM, .TOP, .BOTTOM, .BOTTOM]

/-- The options with music and autoplay both off, and the small beat table. -/
def scenarioConfig : Config :=
  { options := ⟨false, false⟩
    keyFrameTimeStamps := scenarioTimeStamps
    keyFrameDirections := scenarioDirections }

/-- A state in phase Playing at game time `0`: the initial state of a
1366 x 768 window with `hasStarted` set and the box at `(0, -10, -80)`. -/
def scenarioPlaying : GameState :=
  { initialState 1366 768 with hasStarted := true, boxNodePosition := ⟨0, -10, -80⟩ }

/-- The beat table `(0, Top), (1, Bottom), (2, Top), (1e9, Bottom)`: the ball
reaches the bottom at time `1`. -/
def crossingConfig : Config :=
  { options := ⟨false, false⟩
    keyFrameTimeStamps := scenarioTimeStamps
    keyFrameDirections := [.TOP, .BOTTOM, .TOP, .BOTTOM] }

/-- The beat table of `crossingConfig` with autoplay switched on. -/
def autoplayConfig : Config := { crossingConfig with options := ⟨false, true⟩ }

/-- A Playing state at game time `3/4` in interval `0`, paddle accumulators
`0`, whose ball will be at `x = 55`, `z = -70` after a half-second move. -/
def crossingPlaying : GameState :=
  { scenarioPlaying with gameElapsedTime := 3 / 4, ballPosition := ⟨25, 0, -76⟩ }

/-! ## Runs of the game -/

/-- The states a run can be in: the initial state of a window of the given
size, closed under frame updates that return (any time delta, any button
samples) and under pointer callbacks (any pointer position, any window size
reported). -/
inductive Reachable (cfg : Config) (windowWidth windowHeight : Int) : GameState → Prop where
  | init : Reachable cfg windowWidth windowHeight (initialState windowWidth windowHeight)
  | frame (inp : FrameInput) (s s' : GameState) :
      Reachable cfg windowWidth windowHeight s → updateFrame cfg inp s = .ok s' →
      Reachable cfg windowWidth windowHeight s'
  | mouse (x y : ℚ) (w h : Int) (s : GameState) :
      Reachable cfg windowWidth windowHeight s →
      Reachable cfg windowWidth windowHeight (mouseCallback s x y w h)

/-- First frame of the trace: the primary button is held, the game starts. -/
def traceStarted : GameState :=
  moveNodes (notStartedFrame crossingConfig
    (sampleButtons (initialState 1366 768) ⟨0, true, false⟩))

/-- Second frame, half a second later: the secondary button is held. -/
def traceHeld : GameState :=
  moveNodes (playingBody crossingConfig (1 / 2)
    (playingEntry crossingConfig ⟨1 / 2, false, true⟩ traceStarted) 0 0 1 .TOP .BOTTOM)

/-- Third frame, at game time `5/4`: the secondary button is released while
the ball reaches the bottom away from the paddle. -/
def tracePausedAndLost : GameState :=
  moveNodes (playingBody crossingConfig (3 / 4)
    (playingEntry crossingConfig ⟨3 / 4, false, false⟩ traceHeld) 1 1 2 .BOTTOM .TOP)

/-- Fourth frame: the primary button is held again. -/
def traceLostHeld : GameState :=
  moveNodes (lostFrame (advanceTotal 0 (sampleButtons tracePausedAndLost ⟨0, true, false⟩)))

/-- Fifth frame: the primary button is released, the game returns to
NotStarted. -/
def traceRestart : GameState :=
  moveNodes (lostFrame (advanceTotal 0 (sampleButtons traceLostHeld ⟨0, false, false⟩)))

/-- The Playing state `scenarioPlaying` with the secondary button held at the
previous frame. -/
def scenarioSecondaryHeld : GameState := { scenarioPlaying with mouseRightPressed := true }

/-- The same state in phase Paused. -/
def scenarioPaused : GameState := { scenarioSecondaryHeld with isPaused := true }

/-! ## Scene graph -/

/-- A `glm::mat4` with exact entries; `M i j` is the entry in row `i`,
column `j` (glm's `m[j][i]`). -/
abbrev Mat4 := Matrix (Fin 4) (Fin 4) ℚ

/-- The cosine and sine that `glm::rotate` applies to an angle. They are
library functions on floating-point numbers; here they are a parameter. -/
structure Trig where
  cos : ℚ → ℚ
  sin : ℚ → ℚ

/-- `-v` on `glm::vec3`. -/
def Vec3.neg (v : Vec3) : Vec3 := ⟨-v.x, -v.y, -v.z⟩

/-- `glm::translate(v)`. -/
def translate (v : Vec3) : Mat4 :=
  !![1, 0, 0, v.x;
     0, 1, 0, v.y;
     0, 0, 1, v.z;
     0, 0, 0, 1]

/-- `glm::scale(v)`. -/
def scale (v : Vec3) : Mat4 :=
  !![v.x, 0, 0, 0;
     0, v.y, 0, 0;
     0, 0, v.z, 0;
     0, 0, 0, 1]

/-- `glm::rotate(angle, glm::vec3(1, 0, 0))`. -/
def rotateX (trig : Trig) (angle : ℚ) : Mat4 :=
  !![1, 0, 0, 0;
     0, trig.cos angle, -trig.sin angle, 0;
     0, trig.sin angle, trig.cos angle, 0;
     0, 0, 0, 1]

/-- `glm::rotate(angle, glm::vec3(0, 1, 0))`. -/
def rotateY (trig : Trig) (angle : ℚ) : Mat4 :=
  !![trig.cos angle, 0, trig.sin angle, 0;
     0, 1, 0, 0;
     -trig.sin angle, 0, trig.cos angle, 0;
     0, 0, 0, 1]

/-- `glm::rotate(angle, glm::vec3(0, 0, 1))`. -/
def rotateZ (trig : Trig) (angle : ℚ) : Mat4 :=
  !![trig.cos angle, -trig.sin angle, 0, 0;
     trig.sin angle, trig.cos angle, 0, 0;
     0, 0, 1, 0;
     0, 0, 0, 1]

/-- `glm::ortho(left, right, bottom, top)`. -/
def ortho (left right bottom top : ℚ) : Mat4 :=
  !![2 / (right - left), 0, 0, -(right + left) / (right - left);
     0, 2 / (top - bottom), 0, -(top + bottom) / (top - bottom);
     0, 0, -1, 0;
     0, 0, 0, 1]

/-- `enum SceneNodeType`, as the `switch` statements of `gamelogic.cpp` list
it. -/
inductive SceneNodeType where
  | GEOMETRY
  | POINT_LIGHT
  | SPOT_LIGHT
  | GEOMETRY_2D
  | GEOMETRY_NORMAL_MAP
  deriving DecidableEq, Repr

/-- Modelled from the spec: the fields of `struct SceneNode` of
`sceneGraph.hpp` other than its children (position, rotation, scale, reference
point, node kind, drawable handle with its index count, texture handles, the
two derived matrices), under the names `gamelogic.cpp` reads and writes them
by. -/
structure NodeData where
  position : Vec3
  rotation : Vec3
  scale : Vec3
  referencePoint : Vec3
  nodeType : SceneNodeType
  vertexArrayObjectID : Int
  VAOIndexCount : Nat
  texId : Nat
  normalMapTexId : Nat
  currentModelMatrix : Mat4
  currentMVPMatrix : Mat4

/-- Modelled from the spec: a `SceneNode` of `sceneGraph.hpp` with its ordered
list of children; each node has one parent, so the graph is a tree. -/
inductive SceneNode where
  | node (data : NodeData) (children : List SceneNode)

/-- The fields of a node. -/
def SceneNode.data : SceneNode → NodeData
  | .node d _ => d

/-- The children of a node. -/
def SceneNode.children : SceneNode → List SceneNode
  | .node _ cs => cs

/-- The local transform `transformationMatrix` of `updateNodeTransformations`. -/
def transformationMatrix (trig : Trig) (d : NodeData) : Mat4 :=
  translate d.position * translate d.referencePoint *
    rotateY trig d.rotation.y *
    rotateX trig d.rotation.x *
    rotateZ trig d.rotation.z * scale d.scale *
    translate d.referencePoint.neg

/-- The orthographic projection a `GEOMETRY_2D` node uses,
`glm::ortho(0.0f, float(windowWidth), 0.0f, float(windowHeight))`. -/
def windowOrtho (windowWidth windowHeight : Int) : Mat4 :=
  ortho 0 (windowWidth : ℚ) 0 (windowHeight : ℚ)

mutual
/-- The function `updateNodeTransformations (node, modelThusFar, mvpThusFar)`:
both matrices of the node are stored, a `GEOMETRY_2D` node replaces its MVP
matrix, then every child is visited with the node's stored matrices. -/
def updateNodeTransformations (trig : Trig) (windowWidth windowHeight : Int) :
    SceneNode → Mat4 → Mat4 → SceneNode
  | .node d cs, modelThusFar, mvpThusFar =>
    let transformationMatrix := transformationMatrix trig d
    let currentModelMatrix := modelThusFar * transformationMatrix
    let currentMVPMatrix := mvpThusFar * transformationMatrix
    let currentMVPMatrix :=
      match d.nodeType with
      | .GEOMETRY => currentMVPMatrix
      | .POINT_LIGHT => currentMVPMatrix
      | .SPOT_LIGHT => currentMVPMatrix
      | .GEOMETRY_2D => windowOrtho windowWidth windowHeight * transformationMatrix
      | .GEOMETRY_NORMAL_MAP => currentMVPMatrix
    .node { d with currentModelMatrix := currentModelMatrix, currentMVPMatrix := currentMVPMatrix }
      (updateChildren trig windowWidth windowHeight cs currentModelMatrix currentMVPMatrix)
/-- The loop `for (SceneNode *child : node->children)` of
`updateNodeTransformations`. -/
def updateChildren (trig : Trig) (windowWidth windowHeight : Int) :
    List SceneNode → Mat4 → Mat4 → List SceneNode
  | [], _, _ => []
  | c :: cs, modelThusFar, mvpThusFar =>
    updateNodeTransformations trig windowWidth windowHeight c modelThusFar mvpThusFar ::
      updateChildren trig windowWidth windowHeight cs modelThusFar mvpThusFar
end

/-- The node reached from `n` by following child indices. -/
def nodeAt : SceneNode → List Nat → Option SceneNode
  | n, [] => some n
  | n, i :: path =>
    match n.children[i]? with
    | none => none
    | some c => nodeAt c path

/-- The fields of the nodes on the path from `n` (first) to the node reached
by following child indices (last). -/
def pathData : SceneNode → List Nat → Option (List NodeData)
  | n, [] => some [n.data]
  | n, i :: path =>
    match n.children[i]? with
    | none => none
    | some c =>
      match pathData c path with
      | none => none
      | some ds => some (n.data :: ds)

/-- A fresh node of the given kind at the given position: no rotation, unit
scale, pivot at the origin, no drawable, identity matrices. -/
def freshNode (kind : SceneNodeType) (position : Vec3) : NodeData :=
  { position := position
    rotation := ⟨0, 0, 0⟩
    scale := ⟨1, 1, 1⟩
    referencePoint := ⟨0, 0, 0⟩
    nodeType := kind
    vertexArrayObjectID := -1
    VAOIndexCount := 0
    texId := 0
    normalMapTexId := 0
    currentModelMatrix := 1
    currentMVPMatrix := 1 }

/-- A small scene: a root with a normal-mapped box and a 2D text node, the
text node carrying one plain child. -/
def sampleScene : SceneNode :=
  .node (freshNode .GEOMETRY ⟨0, 0, 0⟩)
    [.node (freshNode .GEOMETRY_NORMAL_MAP ⟨0, -10, -80⟩) [],
     .node (freshNode .GEOMETRY_2D ⟨0, 729, 0⟩) [.node (freshNode .GEOMETRY ⟨5, 0, 0⟩) []]]

/-- Cosine and sine of the angle `0`, the only angle of `sampleScene`. -/
def zeroAngleTrig : Trig := ⟨fun _ => 1, fun _ => 0⟩

/-- The initial state of a 1366 x 768 window with both accumulators at `1/2`. -/
def midPaddle : GameState :=
  { initialState 1366 768 with padPositionX := 1 / 2, padPositionZ := 1 / 2 }

/-! ## Runs of frames -/

/-- A run of frame updates: `updateFrame` called once per input, in order; the
run ends with the first frame that raises. -/
def runFrames (cfg : Config) : List FrameInput → GameState → Except Exn GameState
  | [], s => .ok s
  | inp :: rest, s =>
    match updateFrame cfg inp s with
    | .ok s' => runFrames cfg rest s'
    | .error e => .error e

/-- The test of the first `if` pair of "make ball bounce" in a frame of length
`timeDelta` from state `s`: the moved `x` is below `ballMinX` or above
`ballMaxX`, the moved `x` being the `float` the move stored. -/
def xClamped (s : GameState) (timeDelta : ℚ) : Bool :=
  decide (movedCoordinate s.ballPosition.x timeDelta s.ballDirection.x
      < ballMinX s.boxNodePosition) ||
    decide (movedCoordinate s.ballPosition.x timeDelta s.ballDirection.x
      > ballMaxX s.boxNodePosition)

/-- The test of the second `if` pair of "make ball bounce": the moved `z` is
below `ballMinZ` or above `ballMaxZ`. -/
def zClamped (s : GameState) (timeDelta : ℚ) : Bool :=
  decide (movedCoordinate s.ballPosition.z timeDelta s.ballDirection.z
      < ballMinZ s.boxNodePosition) ||
    decide (movedCoordinate s.ballPosition.z timeDelta s.ballDirection.z
      > ballMaxZ s.boxNodePosition)

/-- The number of frames of a run that are Playing frames and clamp `x`. -/
def xClampCount (cfg : Config) : List FrameInput → GameState → Nat
  | [], _ => 0
  | inp :: rest, s =>
    match updateFrame cfg inp s with
    | .ok s' =>
      (if phase s = .Playing ∧ xClamped s inp.timeDelta = true then 1 else 0) +
        xClampCount cfg rest s'
    | .error _ => 0

/-- The number of frames of a run that are Playing frames and clamp `z`. -/
def zClampCount (cfg : Config) : List FrameInput → GameState → Nat
  | [], _ => 0
  | inp :: rest, s =>
    match updateFrame cfg inp s with
    | .ok s' =>
      (if phase s = .Playing ∧ zClamped s inp.timeDelta = true then 1 else 0) +
        zClampCount cfg rest s'
    | .error _ => 0

/-- The state `scenarioPlaying` after a frame of two seconds: the ball has hit
the right wall. -/
def bouncedOnce : GameState :=
  moveNodes (playingBody scenarioConfig 2
    (playingEntry scenarioConfig ⟨2, false, false⟩ scenarioPlaying) 2 2 1000000000
    .BOTTOM .BOTTOM)

/-- The state `bouncedOnce` after a frame of four seconds: the ball has hit the
left wall. -/
def bouncedTwice : GameState :=
  moveNodes (playingBody scenarioConfig 4
    (playingEntry scenarioConfig ⟨4, false, false⟩ bouncedOnce) 2 2 1000000000
    .BOTTOM .BOTTOM)

mutual
/-- The node with both derived matrices replaced by the identity, in the whole
subtree: what is left are the fields `updateNodeTransformations` only reads,
and the shape of the tree. -/
def eraseMatrices : SceneNode → SceneNode
  | .node d cs =>
    .node { d with currentModelMatrix := 1, currentMVPMatrix := 1 } (eraseMatricesList cs)
/-- The function `eraseMatrices` on a list of children. -/
def eraseMatricesList : List SceneNode → List SceneNode
  | [] => []
  | c :: cs => eraseMatrices c :: eraseMatricesList cs
end

/-! ## Rendering -/

/-- `ShaderFlags::None`. -/
def ShaderFlags.None : Nat := 0

/-- `ShaderFlags::PhongLighting = 1 << 0`. -/
def ShaderFlags.PhongLighting : Nat := 1 <<< 0

/-- `ShaderFlags::Text = 1 << 1`. -/
def ShaderFlags.Text : Nat := 1 <<< 1

/-- `ShaderFlags::DiffuseMap = 1 << 2`. -/
def ShaderFlags.DiffuseMap : Nat := 1 <<< 2

/-- `ShaderFlags::NormalMap = 1 << 3`. -/
def ShaderFlags.NormalMap : Nat := 1 <<< 3

/-- `operator|` on `ShaderFlags`: bitwise or of the underlying values. -/
def ShaderFlags.or (lhs rhs : Nat) : Nat := lhs ||| rhs

/-- The OpenGL calls `renderNode` makes, with the arguments that vary. -/
inductive GLCall where
  | uniformMatrix4fv (location : Nat) (value : Mat4)
  | uniformMatrix3fv (location : Nat) (value : Matrix (Fin 3) (Fin 3) ℚ)
  | uniform1ui (location : Nat) (value : Nat)
  | bindTextureUnit (unit : Nat) (texture : Nat)
  | bindVertexArray (array : Int)
  | drawElements (count : Nat)

/-- `glm::inverse` in exact arithmetic: the adjugate over the determinant. -/
def inverse (m : Mat4) : Mat4 := (m.det)⁻¹ • m.adjugate

/-- The matrix `normalTransform` of `renderNode`,
`glm::mat3(glm::transpose(glm::inverse(currentModelMatrix)))`: the upper left
3 x 3 block. -/
def normalTransform (m : Mat4) : Matrix (Fin 3) (Fin 3) ℚ :=
  Matrix.of fun i j => (inverse m).transpose (Fin.castSucc i) (Fin.castSucc j)

/-- The block `if (node->vertexArrayObjectID != -1) { glBindVertexArray;
glDrawElements }` that closes the three geometry cases of `renderNode`. -/
def drawIfPresent (d : NodeData) : List GLCall :=
  if d.vertexArrayObjectID ≠ -1 then
    [.bindVertexArray d.vertexArrayObjectID, .drawElements d.VAOIndexCount]
  else []

mutual
/-- The function `renderNode (node)` as the list of OpenGL calls it makes: the
three matrix uniforms, the calls of the node's kind, then the children in
order. -/
def renderNode : SceneNode → List GLCall
  | .node d cs =>
    [.uniformMatrix4fv 3 d.currentMVPMatrix,
     .uniformMatrix4fv 4 d.currentModelMatrix,
     .uniformMatrix3fv 5 (normalTransform d.currentModelMatrix)] ++
    (match d.nodeType with
      | .GEOMETRY =>
        [.uniform1ui 8 ShaderFlags.PhongLighting] ++ drawIfPresent d
      | .POINT_LIGHT => []
      | .SPOT_LIGHT => []
      | .GEOMETRY_2D =>
        [.bindTextureUnit 0 d.texId, .uniform1ui 8 ShaderFlags.Text] ++ drawIfPresent d
      | .GEOMETRY_NORMAL_MAP =>
        [.bindTextureUnit 0 d.texId, .bindTextureUnit 1 d.normalMapTexId,
         .uniform1ui 8
           (ShaderFlags.or (ShaderFlags.or ShaderFlags.PhongLighting ShaderFlags.DiffuseMap)
             ShaderFlags.NormalMap)] ++ drawIfPresent d) ++
    renderChildren cs
/-- The loop `for (SceneNode *child : node->children)` of `renderNode`. -/
def renderChildren : List SceneNode → List GLCall
  | [] => []
  | c :: cs => renderNode c ++ renderChildren cs
end

/-- What the draw calls depend on in the OpenGL state: the value of the
uniform at location 8 and the bound vertex array. -/
structure GLState where
  flags : Nat
  array : Int
  deriving DecidableEq, Repr

/-- One indexed draw as issued: the flag uniform and the vertex array in force,
and the index count. -/
structure DrawRecord where
  flags : Nat
  array : Int
  count : Nat
  deriving DecidableEq, Repr

/-- The effect of one call on the state the draws depend on. -/
def glStep (st : GLState) : GLCall → GLState
  | .uniform1ui 8 v => { st with flags := v }
  | .bindVertexArray a => { st with array := a }
  | _ => st

/-- The indexed draws a sequence of calls issues from a given state, in
order. -/
def issuedDraws : GLState → List GLCall → List DrawRecord
  | _, [] => []
  | st, .drawElements n :: cs => ⟨st.flags, st.array, n⟩ :: issuedDraws st cs
  | st, c :: cs => issuedDraws (glStep st c) cs

mutual
/-- The nodes of a tree in pre-order: the node, then its children's subtrees
in insertion order. -/
def preorder : SceneNode → List NodeData
  | .node d cs => d :: preorderList cs
/-- The pre-order of a list of sibling subtrees. -/
def preorderList : List SceneNode → List NodeData
  | [] => []
  | c :: cs => preorder c ++ preorderList cs
end

/-- A node that is drawn according to the render contract: it has a drawable
and is not a light. -/
def isDrawn (d : NodeData) : Bool :=
  decide (d.vertexArrayObjectID ≠ -1) &&
    decide (d.nodeType ≠ .POINT_LIGHT) && decide (d.nodeType ≠ .SPOT_LIGHT)

/-- The flag value the render contract gives each kind: lighting for plain
geometry, text for 2D geometry, lighting with both maps for normal-mapped
geometry. -/
def contractFlags : SceneNodeType → Nat
  | .GEOMETRY => 1
  | .GEOMETRY_2D => 2
  | .GEOMETRY_NORMAL_MAP => 13
  | .POINT_LIGHT => 0
  | .SPOT_LIGHT => 0

/-- The draw the render contract expects for a drawn node. -/
def contractDraw (d : NodeData) : DrawRecord :=
  ⟨contractFlags d.nodeType, d.vertexArrayObjectID, d.VAOIndexCount⟩

/-- The state after one idle frame from the initial state. -/
def idleOnce : GameState :=
  moveNodes (notStartedFrame scenarioConfig
    (sampleButtons (initialState 1366 768) ⟨0, false, false⟩))

/-! ## The sound object -/

/-- One command applied to the sound object, whose state is `some true`
(alive), `some false` (absent: not yet created, or deleted) or `none` (a
command has been issued on an absent object). `create` is `new sf::Sound ()`,
`destroy` is `delete sound`; every other command uses the object. -/
def audioStep : Option Bool → AudioCmd → Option Bool
  | none, _ => none
  | some _, .create => some true
  | some true, .destroy => some false
  | some false, .destroy => none
  | some true, _ => some true
  | some false, _ => none

/-- The state of the sound object after a sequence of commands issued from the
start of the program, when there is no object. -/
def replayAudio (log : List AudioCmd) : Option Bool := log.foldl audioStep (some false)

/-- The beat table of `crossingConfig` with music switched on. -/
def musicConfig : Config := { crossingConfig with options := ⟨true, false⟩ }

/-- The state after the first frame of a run with music, the primary button
held: the game is started and the sound object has been created and set
playing. -/
def musicStarted : GameState :=
  moveNodes (notStartedFrame musicConfig
    (sampleButtons (initialState 1366 768) ⟨0, true, false⟩))

/-- The scene `initGame` builds, with stand-in handles: the root (no drawable),
then the normal-mapped box, the pad, the ball, the 2D text and the point
light, in the order they are pushed. -/
def gameScene : SceneNode :=
  .node (freshNode .GEOMETRY ⟨0, 0, 0⟩)
    [.node { freshNode .GEOMETRY_NORMAL_MAP ⟨0, 0, 0⟩ with
        vertexArrayObjectID := 2, VAOIndexCount := 36, texId := 2, normalMapTexId := 3 } [],
     .node { freshNode .GEOMETRY ⟨0, 0, 0⟩ with
        vertexArrayObjectID := 3, VAOIndexCount := 36 } [],
     .node { freshNode .GEOMETRY ⟨0, 0, 0⟩ with
        vertexArrayObjectID := 1, VAOIndexCount := 9360 } [],
     .node { freshNode .GEOMETRY_2D ⟨0, 729, 0⟩ with
        vertexArrayObjectID := 4, VAOIndexCount := 258, texId := 1 } [],
     .node (freshNode .POINT_LIGHT ⟨0, -20, -75⟩) []]

/-- `double padLeftX` of the miss check with the arithmetic of its operand
types: `boxNode->position.x - (boxDimensions.x / 2)` and
`boxDimensions.x - padDimensions.x` are `float` operations, `1 - padPositionX`
is a `double` operation, and the product and the sum are `double`
operations. -/
def padLeftXDouble (box : Vec3) (padPositionX : ℚ) : ℚ :=
  roundDouble (roundFloat (box.x - roundFloat (boxDimensions.x / 2)) +
    roundDouble (roundDouble (1 - padPositionX) *
      roundFloat (boxDimensions.x - padDimensions.x)))

/-- `double padRightX = padLeftX + padDimensions.x`, a `double` addition. -/
def padRightXDouble (box : Vec3) (padPositionX : ℚ) : ℚ :=
  roundDouble (padLeftXDouble box padPositionX + padDimensions.x)

/-- `double padFrontZ` of the miss check with the arithmetic of its operand
types. -/
def padFrontZDouble (box : Vec3) (padPositionZ : ℚ) : ℚ :=
  roundDouble (roundFloat (box.z - roundFloat (boxDimensions.z / 2)) +
    roundDouble (roundDouble (1 - padPositionZ) *
      roundFloat (boxDimensions.z - padDimensions.z)))

/-- `double padBackZ = padFrontZ + padDimensions.z`, a `double` addition. -/
def padBackZDouble (box : Vec3) (padPositionZ : ℚ) : ℚ :=
  roundDouble (padFrontZDouble box padPositionZ + padDimensions.z)

/-- The condition of the inner `if` of the miss check on the computed
`double` edges; the comparisons widen the ball's `float` coordinates, which
changes no value. -/
def ballOutsidePadDouble (box : Vec3) (ball : Vec3) (padPositionX padPositionZ : ℚ) : Bool :=
  decide (ball.x < padLeftXDouble box padPositionX) ||
    decide (ball.x > padRightXDouble box padPositionX) ||
    decide (ball.z < padFrontZDouble box padPositionZ) ||
    decide (ball.z > padBackZDouble box padPositionZ)

/-- The frame body `playingBody` with the miss check taken on the computed
`double` edges (`ballOutsidePadDouble`) instead of the exact ones; every other
line is that of `playingBody`. -/
def playingBodyDouble (cfg : Config) (timeDelta : ℚ) (s : GameState) (ckf : Nat)
    (frameStart frameEnd : ℚ) (currentOrigin currentDestination : KeyFrameAction) : GameState :=
  let box := s.boxNodePosition
  let jumped : Bool := ckf != s.previousKeyFrame
  let y := ballYCoord box currentOrigin currentDestination
    (fractionFrameComplete s.gameElapsedTime frameStart frameEnd)
  let bx := bounce (ballMinX box) (ballMaxX box)
    (movedCoordinate s.ballPosition.x timeDelta s.ballDirection.x) s.ballDirection.x
  let bz := bounce (ballMinZ box) (ballMaxZ box)
    (movedCoordinate s.ballPosition.z timeDelta s.ballDirection.z) s.ballDirection.z
  let ball : Vec3 := ⟨bx.1, y, bz.1⟩
  let s : GameState :=
    { s with
      currentKeyFrame := ckf
      jumpedToNextFrame := jumped
      previousKeyFrame := ckf
      ballPosition := ball
      ballDirection := ⟨bx.2, s.ballDirection.y, bz.2⟩ }
  let s : GameState :=
    if cfg.options.enableAutoplay then
      { s with
        padPositionX := 1 - (ball.x - ballMinX box) / (ballMaxX box - ballMinX box)
        padPositionZ :=
          1 - (ball.z - ballMinZ box) / ((ballMaxZ box + cameraWallOffset) - ballMinZ box) }
    else s
  if jumped && decide (currentOrigin = .BOTTOM) && decide (currentDestination = .TOP) then
    if ballOutsidePadDouble box ball s.padPositionX s.padPositionZ then
      let s : GameState := { s with hasLost := true }
      if cfg.options.enableMusic then
        { s with soundAlive := false, audioLog := s.audioLog ++ [.stop, .destroy] }
      else s
    else s
  else s

/-- The final `else` branch of `updateFrame` as in `playingFrame`, with the
frame body `playingBodyDouble`. -/
def playingFrameDouble (cfg : Config) (timeDelta : ℚ) (s : GameState) : Except Exn GameState :=
  let s := playingClock cfg timeDelta s
  let ckf := scannedKeyFrame cfg s
  match cfg.keyFrameTimeStamps[ckf]? with
  | none => .error .out_of_range
  | some frameStart =>
    match cfg.keyFrameTimeStamps[nextKeyFrame ckf]? with
    | none => .error .out_of_range
    | some frameEnd =>
      match cfg.keyFrameDirections[ckf]? with
      | none => .error .out_of_range
      | some currentOrigin =>
        match cfg.keyFrameDirections[nextKeyFrame ckf]? with
        | none => .error .out_of_range
        | some currentDestination =>
          .ok (playingBodyDouble cfg timeDelta s ckf frameStart frameEnd currentOrigin
            currentDestination)

/-- The `else` branch of `if (!hasStarted)` as in `startedFrame`, with the
Playing branch `playingFrameDouble`. -/
def startedFrameDouble (cfg : Config) (timeDelta : ℚ) (s : GameState) :
    Except Exn GameState :=
  let s := advanceTotal timeDelta s
  if s.hasLost then .ok (lostFrame s)
  else if s.isPaused then .ok (pausedFrame cfg s)
  else playingFrameDouble cfg timeDelta s

/-- The game-state part of `updateFrame` as in `updateFrame`, with the miss
check of the Playing branch taken on the computed `double` edges. -/
def updateFrameDouble (cfg : Config) (inp : FrameInput) (s : GameState) :
    Except Exn GameState :=
  let s := sampleButtons s inp
  let r : Except Exn GameState :=
    if !s.hasStarted then .ok (notStartedFrame cfg s)
    else startedFrameDouble cfg inp.timeDelta s
  match r with
  | .ok s => .ok (moveNodes s)
  | .error e => .error e

/-- The `double` nearest to `0.38`, which is `3422735716801577 / 2 ^ 53`. -/
def padNearEdge : ℚ := 3422735716801577 / 9007199254740992

/-- A Playing state at game time `3/4` in interval `0` of `crossingConfig`
with the paddle accumulator `x` at the `double` `0.38`, whose ball will be at
`x = 33`, `z = -70` after a half-second move. -/
def grazingPlaying : GameState :=
  { scenarioPlaying with
    gameElapsedTime := 3 / 4, ballPosition := ⟨3, 0, -76⟩, padPositionX := padNearEdge }

/-- A frame time of `1/2 + 2 ^ (-53)` seconds, a `double`. -/
def wallDelta : ℚ := 1 / 2 + 1 / 9007199254740992

/-- The Playing state `scenarioPlaying` with the ball at `x = 57`, thirty units
from the right wall `ballMaxX = 87`. -/
def wallPlaying : GameState := { scenarioPlaying with ballPosition := ⟨57, 0, -76⟩ }

/-! # Theorems -/

/-! ## Rounding -/

theorem roundHalfEven_mono {y₁ y₂ : ℚ} (h : y₁ ≤ y₂) : roundHalfEven y₁ ≤ roundHalfEven y₂ := by
  have hf : ⌊y₁⌋ ≤ ⌊y₂⌋ := Int.floor_mono h
  have l1 := Int.floor_le y₁
  have l2 := Int.floor_le y₂
  have u1 := Int.lt_floor_add_one y₁
  have u2 := Int.lt_floor_add_one y₂
  rcases hf.lt_or_eq with hlt | heq
  · have h1 : roundHalfEven y₁ ≤ ⌊y₁⌋ + 1 := by
      unfold roundHalfEven; split_ifs <;> omega
    have h2 : ⌊y₂⌋ ≤ roundHalfEven y₂ := by
      unfold roundHalfEven; split_ifs <;> omega
    omega
  · unfold roundHalfEven
    rw [← heq]
    have hq : ((⌊y₂⌋ : ℤ) : ℚ) = ⌊y₁⌋ := by rw [heq]
    rw [hq] at l2 u2
    split_ifs <;> first | omega | (exfalso; linarith)

theorem roundHalfEven_intCast (n : ℤ) : roundHalfEven (n : ℚ) = n := by
  unfold roundHalfEven
  simp

theorem roundHalfEven_le_of_le {y : ℚ} {n : ℤ} (h : y ≤ n) : roundHalfEven y ≤ n := by
  have := roundHalfEven_mono h
  rwa [roundHalfEven_intCast] at this

theorem le_roundHalfEven_of_le {y : ℚ} {n : ℤ} (h : (n : ℚ) ≤ y) : n ≤ roundHalfEven y := by
  have := roundHalfEven_mono h
  rwa [roundHalfEven_intCast] at this

theorem two_zpow_pos (k : ℤ) : (0 : ℚ) < 2 ^ k := zpow_pos (by norm_num) k

/-- A multiple of a power of two at or above the quantum of `x` lies on the grid of `x`. -/
theorem grid_point (m : ℤ) {k q : ℤ} (hk : q ≤ k) :
    ∃ M : ℤ, (m : ℚ) * 2 ^ k = M * 2 ^ q := by
  obtain ⟨n, hn⟩ := Int.eq_ofNat_of_zero_le (sub_nonneg.mpr hk)
  refine ⟨m * 2 ^ n, ?_⟩
  have : k = q + n := by omega
  rw [this, zpow_add₀ (by norm_num : (2 : ℚ) ≠ 0)]
  push_cast
  rw [zpow_natCast]
  ring

theorem roundBinary_le_of_le_grid (p : ℕ) (emin : ℤ) {x : ℚ} (m : ℤ) {k : ℤ}
    (hk : quantumExponent p emin x ≤ k) (h : x ≤ m * 2 ^ k) :
    roundBinary p emin x ≤ m * 2 ^ k := by
  obtain ⟨M, hM⟩ := grid_point m hk
  rw [hM] at h ⊢
  unfold roundBinary
  have hq := two_zpow_pos (quantumExponent p emin x)
  have : roundHalfEven (x / 2 ^ quantumExponent p emin x) ≤ M :=
    roundHalfEven_le_of_le (by rw [div_le_iff₀ hq]; exact h)
  exact mul_le_mul_of_nonneg_right (by exact_mod_cast this) hq.le

theorem le_roundBinary_of_grid_le (p : ℕ) (emin : ℤ) {x : ℚ} (m : ℤ) {k : ℤ}
    (hk : quantumExponent p emin x ≤ k) (h : (m : ℚ) * 2 ^ k ≤ x) :
    (m : ℚ) * 2 ^ k ≤ roundBinary p emin x := by
  obtain ⟨M, hM⟩ := grid_point m hk
  rw [hM] at h ⊢
  unfold roundBinary
  have hq := two_zpow_pos (quantumExponent p emin x)
  have : M ≤ roundHalfEven (x / 2 ^ quantumExponent p emin x) :=
    le_roundHalfEven_of_le (by rw [le_div_iff₀ hq]; exact h)
  exact mul_le_mul_of_nonneg_right (by exact_mod_cast this) hq.le

theorem quantumExponent_le_log (p : ℕ) (hp : 1 ≤ p) (emin : ℤ) (x : ℚ) :
    quantumExponent p emin x ≤ max (Int.log 2 |x|) emin := by
  unfold quantumExponent
  apply max_le_max _ le_rfl
  have : (1 : ℤ) ≤ p := by exact_mod_cast hp
  omega

theorem roundBinary_zero (p : ℕ) (emin : ℤ) : roundBinary p emin 0 = 0 := by
  unfold roundBinary
  simp [roundHalfEven]

/-- A value `m * 2 ^ k` with `|m| < 2 ^ p` and `emin ≤ k` is representable: rounding keeps it. -/
theorem roundBinary_of_representable (p : ℕ) (emin : ℤ) (m k : ℤ) (hm : |m| < 2 ^ p)
    (hk : emin ≤ k) : roundBinary p emin (m * 2 ^ k) = m * 2 ^ k := by
  by_cases h0 : m = 0
  · subst h0; simp [roundBinary_zero]
  have hx : (0 : ℚ) < |(m : ℚ) * 2 ^ k| := by
    rw [abs_pos]
    exact mul_ne_zero (by exact_mod_cast h0) (two_zpow_pos k).ne.symm
  have hlt : |(m : ℚ) * 2 ^ k| < ((2 : ℕ) : ℚ) ^ ((p : ℤ) + k) := by
    rw [abs_mul, abs_of_pos (two_zpow_pos k), zpow_add₀ (by norm_num)]
    apply mul_lt_mul_of_pos_right _ (by exact_mod_cast two_zpow_pos k)
    rw [zpow_natCast]
    have : ((|m| : ℤ) : ℚ) < ((2 ^ p : ℤ) : ℚ) := by exact_mod_cast hm
    push_cast at this ⊢
    exact this
  have hlog : Int.log 2 |(m : ℚ) * 2 ^ k| < (p : ℤ) + k :=
    (Int.lt_zpow_iff_log_lt (by norm_num) hx).mp hlt
  have hq : quantumExponent p emin ((m : ℚ) * 2 ^ k) ≤ k := by
    unfold quantumExponent
    apply max_le _ hk
    omega
  apply le_antisymm
  · exact roundBinary_le_of_le_grid p emin m hq le_rfl
  · exact le_roundBinary_of_grid_le p emin m hq le_rfl

theorem roundBinary_mono (p : ℕ) (hp : 1 ≤ p) (emin : ℤ) {x y : ℚ} (h : x ≤ y) :
    roundBinary p emin x ≤ roundBinary p emin y := by
  have hp1 : (1 : ℤ) ≤ p := by exact_mod_cast hp
  by_cases hq : quantumExponent p emin x = quantumExponent p emin y
  · unfold roundBinary
    rw [hq]
    have hpos := two_zpow_pos (quantumExponent p emin y)
    have : roundHalfEven (x / 2 ^ quantumExponent p emin y)
        ≤ roundHalfEven (y / 2 ^ quantumExponent p emin y) :=
      roundHalfEven_mono (div_le_div_of_nonneg_right h hpos.le)
    exact mul_le_mul_of_nonneg_right (by exact_mod_cast this) hpos.le
  rcases le_or_lt x 0 with hx | hx
  · rcases le_or_lt 0 y with hy | hy
    · -- pivot 0
      have a := roundBinary_le_of_le_grid p emin (x := x) 0 (k := quantumExponent p emin x)
        le_rfl (by simpa using hx)
      have b := le_roundBinary_of_grid_le p emin (x := y) 0 (k := quantumExponent p emin y)
        le_rfl (by simpa using hy)
      simp only [Int.cast_zero, zero_mul] at a b
      exact a.trans b
    · -- both negative: pivot -2 ^ log |x|
      have hxn : x < 0 := lt_of_le_of_lt h hy
      have hax : (0 : ℚ) < |x| := abs_pos.mpr hxn.ne
      have hay : (0 : ℚ) < |y| := abs_pos.mpr hy.ne
      have hle : |y| ≤ |x| := by rw [abs_of_neg hy, abs_of_neg hxn]; linarith
      have hlog : Int.log 2 |y| ≤ Int.log 2 |x| := Int.log_mono_right hay hle
      have hlt : Int.log 2 |y| < Int.log 2 |x| := by
        rcases hlog.lt_or_eq with h1 | h1
        · exact h1
        · exact absurd (by unfold quantumExponent; rw [h1]) hq
      have hqx : quantumExponent p emin x ≤ Int.log 2 |x| := by
        unfold quantumExponent
        apply max_le (by omega)
        by_contra hc
        push_neg at hc
        apply hq
        unfold quantumExponent
        rw [max_eq_right (by omega), max_eq_right (by omega)]
      have hqy : quantumExponent p emin y ≤ Int.log 2 |x| := by
        have : quantumExponent p emin y ≤ quantumExponent p emin x := by
          unfold quantumExponent
          exact max_le_max (by omega) le_rfl
        omega
      have e1 : x ≤ ((-1 : ℤ) : ℚ) * 2 ^ Int.log 2 |x| := by
        have := Int.zpow_log_le_self (b := 2) (by norm_num) hax
        have hxe := abs_of_neg hxn
        push_cast at this ⊢
        linarith
      have e2 : ((-1 : ℤ) : ℚ) * 2 ^ Int.log 2 |x| ≤ y := by
        have := Int.lt_zpow_succ_log_self (b := 2) (by norm_num) |y|
        have hmono : ((2 : ℕ) : ℚ) ^ (Int.log 2 |y| + 1) ≤ ((2 : ℕ) : ℚ) ^ Int.log 2 |x| :=
          zpow_le_zpow_right₀ (by norm_num) (by omega)
        have hye := abs_of_neg hy
        push_cast at this hmono ⊢
        linarith
      exact (roundBinary_le_of_le_grid p emin (-1) hqx e1).trans
        (le_roundBinary_of_grid_le p emin (-1) hqy e2)
  · -- both positive: pivot 2 ^ log |y|
    have hy : 0 < y := lt_of_lt_of_le hx h
    have hax : (0 : ℚ) < |x| := abs_pos.mpr hx.ne.symm
    have hay : (0 : ℚ) < |y| := abs_pos.mpr hy.ne.symm
    have hle : |x| ≤ |y| := by rw [abs_of_pos hy, abs_of_pos hx]; exact h
    have hlog : Int.log 2 |x| ≤ Int.log 2 |y| := Int.log_mono_right hax hle
    have hlt : Int.log 2 |x| < Int.log 2 |y| := by
      rcases hlog.lt_or_eq with h1 | h1
      · exact h1
      · exact absurd (by unfold quantumExponent; rw [h1]) hq
    have hqy : quantumExponent p emin y ≤ Int.log 2 |y| := by
      unfold quantumExponent
      apply max_le (by omega)
      by_contra hc
      push_neg at hc
      apply hq
      unfold quantumExponent
      rw [max_eq_right (by omega), max_eq_right (by omega)]
    have hqx : quantumExponent p emin x ≤ Int.log 2 |y| := by
      have : quantumExponent p emin x ≤ quantumExponent p emin y := by
        unfold quantumExponent
        exact max_le_max (by omega) le_rfl
      omega
    have e1 : ((1 : ℤ) : ℚ) * 2 ^ Int.log 2 |y| ≤ y := by
      have := Int.zpow_log_le_self (b := 2) (by norm_num) hay
      have hye := abs_of_pos hy
      push_cast at this ⊢
      linarith
    have e2 : x ≤ ((1 : ℤ) : ℚ) * 2 ^ Int.log 2 |y| := by
      have := Int.lt_zpow_succ_log_self (b := 2) (by norm_num) |x|
      have hmono : ((2 : ℕ) : ℚ) ^ (Int.log 2 |x| + 1) ≤ ((2 : ℕ) : ℚ) ^ Int.log 2 |y| :=
        zpow_le_zpow_right₀ (by norm_num) (by omega)
      have hxe := abs_of_pos hx
      push_cast at this hmono ⊢
      linarith
    exact (roundBinary_le_of_le_grid p emin 1 hqx e2).trans
      (le_roundBinary_of_grid_le p emin 1 hqy e1)

theorem roundHalfEven_of_near {y : ℚ} (n : ℤ) (h1 : (n : ℚ) - 1 / 2 < y) (h2 : y < n + 1 / 2) :
    roundHalfEven y = n := by
  rcases le_or_lt (n : ℚ) y with h | h
  · have hf : ⌊y⌋ = n := Int.floor_eq_iff.mpr ⟨h, by linarith⟩
    unfold roundHalfEven
    rw [hf, if_pos (by linarith)]
  · have hf : ⌊y⌋ = n - 1 := Int.floor_eq_iff.mpr ⟨by push_cast; linarith, by push_cast; linarith⟩
    unfold roundHalfEven
    rw [hf, if_neg (by push_cast; linarith), if_pos (by push_cast; linarith)]
    ring

theorem roundHalfEven_of_tie {y : ℚ} (n : ℤ) (hn : n % 2 = 0)
    (h : y = n + 1 / 2 ∨ y = n - 1 / 2) : roundHalfEven y = n := by
  rcases h with h | h
  · have hf : ⌊y⌋ = n := Int.floor_eq_iff.mpr ⟨by linarith, by linarith⟩
    unfold roundHalfEven
    rw [hf, if_neg (by linarith), if_neg (by linarith), if_pos hn]
  · have hf : ⌊y⌋ = n - 1 := Int.floor_eq_iff.mpr ⟨by push_cast; linarith, by push_cast; linarith⟩
    unfold roundHalfEven
    rw [hf, if_neg (by push_cast; linarith), if_neg (by push_cast; linarith),
      if_neg (by omega)]
    ring

/-- Every rational is strictly nearer to its rounding than to any other integer, or lies midway
between it, an even integer, and a neighbour. -/
theorem roundHalfEven_spec (y : ℚ) :
    ((roundHalfEven y : ℚ) - 1 / 2 < y ∧ y < roundHalfEven y + 1 / 2) ∨
    (roundHalfEven y % 2 = 0 ∧
      (y = roundHalfEven y + 1 / 2 ∨ y = roundHalfEven y - 1 / 2)) := by
  have l := Int.floor_le y
  have u := Int.lt_floor_add_one y
  unfold roundHalfEven
  split_ifs with h1 h2 h3
  · left; constructor <;> linarith
  · left; constructor <;> push_cast <;> linarith
  · right; exact ⟨h3, Or.inl (by linarith)⟩
  · right; refine ⟨by omega, Or.inr ?_⟩
    push_cast; linarith

theorem roundHalfEven_neg (y : ℚ) : roundHalfEven (-y) = -roundHalfEven y := by
  rcases roundHalfEven_spec y with ⟨h1, h2⟩ | ⟨hn, h | h⟩
  · exact roundHalfEven_of_near _ (by push_cast; linarith) (by push_cast; linarith)
  · exact roundHalfEven_of_tie _ (by omega) (Or.inr (by push_cast; linarith))
  · exact roundHalfEven_of_tie _ (by omega) (Or.inl (by push_cast; linarith))

theorem roundBinary_neg (p : ℕ) (emin : ℤ) (x : ℚ) :
    roundBinary p emin (-x) = -roundBinary p emin x := by
  unfold roundBinary quantumExponent
  rw [abs_neg, neg_div, roundHalfEven_neg]
  push_cast
  ring

theorem quantumExponent_of_pos (p : ℕ) (emin : ℤ) {x : ℚ} (e : ℤ) (h1 : (2 : ℚ) ^ e ≤ x)
    (h2 : x < 2 ^ (e + 1)) : quantumExponent p emin x = max (e - ((p : ℤ) - 1)) emin := by
  have hx : 0 < x := lt_of_lt_of_le (two_zpow_pos e) h1
  have hlog : Int.log 2 |x| = e := by
    rw [abs_of_pos hx]
    apply le_antisymm
    · have : Int.log 2 x < e + 1 :=
        (Int.lt_zpow_iff_log_lt (by norm_num) hx).mp (by exact_mod_cast h2)
      omega
    · exact (Int.zpow_le_iff_le_log (by norm_num) hx).mp (by exact_mod_cast h1)
  unfold quantumExponent
  rw [hlog]

/-- Rounding of a positive value in the binade `[2 ^ e, 2 ^ (e + 1))`, given the nearest
multiple `n` of the quantum `2 ^ q`. -/
theorem roundBinary_of_near (p : ℕ) (emin : ℤ) {x : ℚ} (e q n : ℤ) (h1 : (2 : ℚ) ^ e ≤ x)
    (h2 : x < 2 ^ (e + 1)) (hq : max (e - ((p : ℤ) - 1)) emin = q)
    (hlo : ((n : ℚ) - 1 / 2) * 2 ^ q < x) (hhi : x < (n + 1 / 2) * 2 ^ q) :
    roundBinary p emin x = n * 2 ^ q := by
  unfold roundBinary
  rw [quantumExponent_of_pos p emin e h1 h2, hq]
  have hp := two_zpow_pos q
  rw [roundHalfEven_of_near n (by rw [lt_div_iff₀ hp]; exact hlo)
    (by rw [div_lt_iff₀ hp]; exact hhi)]

/-- Rounding of a positive value in the binade `[2 ^ e, 2 ^ (e + 1))` that lies midway between
two multiples of the quantum `2 ^ q`: the even multiple `n` is taken. -/
theorem roundBinary_of_tie (p : ℕ) (emin : ℤ) {x : ℚ} (e q n : ℤ) (h1 : (2 : ℚ) ^ e ≤ x)
    (h2 : x < 2 ^ (e + 1)) (hq : max (e - ((p : ℤ) - 1)) emin = q) (hn : n % 2 = 0)
    (h : x = (n + 1 / 2) * 2 ^ q ∨ x = (n - 1 / 2) * 2 ^ q) :
    roundBinary p emin x = n * 2 ^ q := by
  unfold roundBinary
  rw [quantumExponent_of_pos p emin e h1 h2, hq]
  have hp := two_zpow_pos q
  rw [roundHalfEven_of_tie n hn (by
    rcases h with h | h
    · left; rw [h]; field_simp; ring
    · right; rw [h]; field_simp; ring)]

theorem roundDouble_mono {x y : ℚ} (h : x ≤ y) : roundDouble x ≤ roundDouble y :=
  roundBinary_mono 53 (by norm_num) _ h

theorem roundFloat_mono {x y : ℚ} (h : x ≤ y) : roundFloat x ≤ roundFloat y :=
  roundBinary_mono 24 (by norm_num) _ h

@[simp] theorem roundDouble_zero : roundDouble 0 = 0 := roundBinary_zero _ _

@[simp] theorem roundFloat_zero : roundFloat 0 = 0 := roundBinary_zero _ _

@[simp] theorem roundDouble_neg (x : ℚ) : roundDouble (-x) = -roundDouble x :=
  roundBinary_neg _ _ x

@[simp] theorem roundFloat_neg (x : ℚ) : roundFloat (-x) = -roundFloat x :=
  roundBinary_neg _ _ x

theorem roundDouble_intCast (n : ℤ) (h : |n| < 2 ^ 53) : roundDouble (n : ℚ) = n := by
  have := roundBinary_of_representable 53 (-1074) n 0 h (by norm_num)
  simpa [roundDouble] using this

theorem roundFloat_intCast (n : ℤ) (h : |n| < 2 ^ 24) : roundFloat (n : ℚ) = n := by
  have := roundBinary_of_representable 24 (-149) n 0 h (by norm_num)
  simpa [roundFloat] using this

@[simp] theorem roundDouble_one : roundDouble 1 = 1 := by
  simpa using roundDouble_intCast 1 (by norm_num)

@[simp] theorem roundFloat_one : roundFloat 1 = 1 := by
  simpa using roundFloat_intCast 1 (by norm_num)

@[simp] theorem roundDouble_ofNat (n : ℕ) [n.AtLeastTwo] (h : n < 2 ^ 53) :
    roundDouble (no_index (OfNat.ofNat n : ℚ)) = OfNat.ofNat n := by
  have := roundDouble_intCast (n : ℤ) (by rw [abs_of_nonneg (by positivity)]; exact_mod_cast h)
  simpa using this

@[simp] theorem roundFloat_ofNat (n : ℕ) [n.AtLeastTwo] (h : n < 2 ^ 24) :
    roundFloat (no_index (OfNat.ofNat n : ℚ)) = OfNat.ofNat n := by
  have := roundFloat_intCast (n : ℤ) (by rw [abs_of_nonneg (by positivity)]; exact_mod_cast h)
  simpa using this

@[simp] theorem roundDouble_half : roundDouble (1 / 2) = 1 / 2 := by
  have := roundBinary_of_representable 53 (-1074) 1 (-1) (by norm_num) (by norm_num)
  rw [roundDouble]
  norm_num at this ⊢
  exact this

/-- Every value of the format is a multiple of its least quantum. -/
theorem roundBinary_mem_grid (p : ℕ) (emin : ℤ) (x : ℚ) :
    ∃ n : ℤ, roundBinary p emin x = n * 2 ^ emin := by
  unfold roundBinary
  exact grid_point _ (le_max_right _ _)

/-- The computed difference of two distinct `double` values is not zero: it is
at least the least positive `double`. -/
theorem roundDouble_sub_pos {a b : ℚ} (ha : roundDouble a = a) (hb : roundDouble b = b)
    (h : a < b) : 0 < roundDouble (b - a) := by
  obtain ⟨m, hm⟩ := roundBinary_mem_grid 53 (-1074) a
  obtain ⟨n, hn⟩ := roundBinary_mem_grid 53 (-1074) b
  rw [← roundDouble, ha] at hm
  rw [← roundDouble, hb] at hn
  have hq := two_zpow_pos (-1074)
  have hmn : m < n := by
    have : (m : ℚ) * 2 ^ (-1074 : ℤ) < n * 2 ^ (-1074 : ℤ) := by rw [← hm, ← hn]; exact h
    exact_mod_cast lt_of_mul_lt_mul_right this hq.le
  have hle : ((1 : ℤ) : ℚ) * 2 ^ (-1074 : ℤ) ≤ b - a := by
    rw [hm, hn, ← sub_mul]
    apply mul_le_mul_of_nonneg_right _ hq.le
    have : (1 : ℤ) ≤ n - m := by omega
    exact_mod_cast this
  have h1 := roundDouble_mono hle
  have h2 : roundDouble (((1 : ℤ) : ℚ) * 2 ^ (-1074 : ℤ)) = ((1 : ℤ) : ℚ) * 2 ^ (-1074 : ℤ) :=
    roundBinary_of_representable 53 (-1074) 1 (-1074) (by norm_num) le_rfl
  rw [h2] at h1
  exact lt_of_lt_of_le (by simpa using hq) h1

theorem roundDouble_nonneg {x : ℚ} (h : 0 ≤ x) : 0 ≤ roundDouble x := by
  have := roundDouble_mono h
  rwa [roundDouble_zero] at this

/-- A double of the form `m / 2 ^ k` with `|m| < 2 ^ 53` and `k ≤ 1074` is kept by rounding. -/
theorem roundDouble_of_representable (m : ℤ) (k : ℕ) (hm : |m| < 2 ^ 53) (hk : k ≤ 1074) :
    roundDouble ((m : ℚ) / 2 ^ k) = m / 2 ^ k := by
  have := roundBinary_of_representable 53 (-1074) m (-(k : ℤ)) hm (by omega)
  rw [zpow_neg, zpow_natCast] at this
  exact this

/-! ## The keyframe loop -/

theorem scanKeyFrames_spec (ts : List ℚ) (t : ℚ) (i c : Nat) (hci : c ≤ i) (hc : c < ts.length)
    (hskip : ∀ j (hj : j < ts.length), c < j → j < i → t < ts[j]) :
    c ≤ scanKeyFrames ts t i c ∧
    ∃ hr : scanKeyFrames ts t i c < ts.length,
      (scanKeyFrames ts t i c = c ∨ ts[scanKeyFrames ts t i c] ≤ t) ∧
      ∀ j (hj : j < ts.length), scanKeyFrames ts t i c < j → t < ts[j] := by
  induction i, c using scanKeyFrames.induct ts t with
  | case1 i c hi hlt ih =>
    rw [scanKeyFrames, dif_pos hi, if_pos hlt]
    apply ih (by omega) hc
    intro j hj hcj hji
    rcases Nat.lt_succ_iff_lt_or_eq.mp hji with h | h
    · exact hskip j hj hcj h
    · subst h; exact hlt
  | case2 i c hi hge ih =>
    rw [scanKeyFrames, dif_pos hi, if_neg hge]
    have := ih (by omega) hi (by intro j hj h1 h2; omega)
    obtain ⟨h1, hr, h2, h3⟩ := this
    refine ⟨by omega, hr, ?_, h3⟩
    rcases h2 with h2 | h2
    · right; simp only [h2]; exact not_lt.mp hge
    · right; exact h2
  | case3 i c hi =>
    rw [scanKeyFrames, dif_neg hi]
    refine ⟨le_refl _, hc, Or.inl rfl, ?_⟩
    intro j hj hcj
    exact hskip j hj hcj (by omega)

theorem sorted_get_lt (ts : List ℚ) (hinc : ts.Sorted (· < ·)) (i j : Nat)
    (hi : i < ts.length) (hj : j < ts.length) (hij : i < j) : ts[i] < ts[j] := by
  have h := List.pairwise_iff_get.mp hinc ⟨i, hi⟩ ⟨j, hj⟩ (by simpa using hij)
  simpa using h

/-! ## Shape of a Playing frame -/

theorem playingFrame_eq_ok_iff (cfg : Config) (dt : ℚ) (s s' : GameState) :
    playingFrame cfg dt s = .ok s' ↔
      ∃ a b o d,
        cfg.keyFrameTimeStamps[scannedKeyFrame cfg (playingClock cfg dt s)]? = some a ∧
        cfg.keyFrameTimeStamps[nextKeyFrame (scannedKeyFrame cfg (playingClock cfg dt s))]?
          = some b ∧
        cfg.keyFrameDirections[scannedKeyFrame cfg (playingClock cfg dt s)]? = some o ∧
        cfg.keyFrameDirections[nextKeyFrame (scannedKeyFrame cfg (playingClock cfg dt s))]?
          = some d ∧
        s' = playingBody cfg dt (playingClock cfg dt s)
          (scannedKeyFrame cfg (playingClock cfg dt s)) a b o d := by
  unfold playingFrame
  simp only
  cases h1 : cfg.keyFrameTimeStamps[scannedKeyFrame cfg (playingClock cfg dt s)]? with
  | none => simp
  | some a =>
    cases h2 : cfg.keyFrameTimeStamps[nextKeyFrame
        (scannedKeyFrame cfg (playingClock cfg dt s))]? with
    | none => simp
    | some b =>
      cases h3 : cfg.keyFrameDirections[scannedKeyFrame cfg (playingClock cfg dt s)]? with
      | none => simp
      | some o =>
        cases h4 : cfg.keyFrameDirections[nextKeyFrame
            (scannedKeyFrame cfg (playingClock cfg dt s))]? with
        | none => simp
        | some d =>
          simp only [Except.ok.injEq, Option.some.injEq]
          constructor
          · intro h; exact ⟨a, b, o, d, rfl, rfl, rfl, rfl, h.symm⟩
          · rintro ⟨a', b', o', d', rfl, rfl, rfl, rfl, h⟩; exact h.symm

theorem playingClock_gameElapsedTime (cfg : Config) (dt : ℚ) (s : GameState) :
    (playingClock cfg dt s).gameElapsedTime = s.gameElapsedTime + dt := by
  unfold playingClock; simp only; split_ifs <;> rfl

theorem playingClock_currentKeyFrame (cfg : Config) (dt : ℚ) (s : GameState) :
    (playingClock cfg dt s).currentKeyFrame = s.currentKeyFrame := by
  unfold playingClock; simp only; split_ifs <;> rfl

theorem playingBody_currentKeyFrame (cfg : Config) (dt : ℚ) (s : GameState) (ckf : Nat)
    (a b : ℚ) (o d : KeyFrameAction) :
    (playingBody cfg dt s ckf a b o d).currentKeyFrame = ckf ∧
      (playingBody cfg dt s ckf a b o d).previousKeyFrame = ckf := by
  unfold playingBody; simp only; split_ifs <;> exact ⟨rfl, rfl⟩

/-! ## C1: the keyframe scan -/

theorem sampleButtons_eq (s : GameState) (inp : FrameInput) :
    sampleButtons s inp =
      { s with
        mouseLeftPressed := inp.button1
        mouseLeftReleased := !inp.button1 && s.mouseLeftPressed
        mouseRightPressed := inp.button2
        mouseRightReleased := !inp.button2 && s.mouseRightPressed } := by
  unfold sampleButtons
  cases h1 : inp.button1 <;> cases h2 : inp.button2 <;> simp

theorem playingClock_eq (cfg : Config) (dt : ℚ) (s : GameState) :
    playingClock cfg dt s =
      { s with
        gameElapsedTime := s.gameElapsedTime + dt
        isPaused := s.isPaused || s.mouseRightReleased
        audioLog :=
          if s.mouseRightReleased && cfg.options.enableMusic then s.audioLog ++ [.pause]
          else s.audioLog } := by
  unfold playingClock
  cases h1 : s.mouseRightReleased <;> cases h2 : cfg.options.enableMusic <;> simp [h1]

/-- The state a Playing frame works on: buttons sampled, both clocks advanced. -/
theorem updateFrame_playing (cfg : Config) (inp : FrameInput) (s : GameState)
    (hphase : phase s = .Playing) :
    updateFrame cfg inp s =
      match playingFrame cfg inp.timeDelta (advanceTotal inp.timeDelta (sampleButtons s inp)) with
      | .ok s1 => .ok (moveNodes s1)
      | .error e => .error e := by
  have h : s.hasStarted = true ∧ s.hasLost = false ∧ s.isPaused = false := by
    unfold phase at hphase
    cases h1 : s.hasStarted <;> cases h2 : s.hasLost <;> cases h3 : s.isPaused <;>
      simp [h1, h2, h3] at hphase ⊢
  unfold updateFrame startedFrame
  simp [sampleButtons_eq, advanceTotal, h.1, h.2.1, h.2.2]

theorem updateFrame_playing_ok_iff (cfg : Config) (inp : FrameInput) (s s' : GameState)
    (hphase : phase s = .Playing) :
    updateFrame cfg inp s = .ok s' ↔
      ∃ s1, playingFrame cfg inp.timeDelta (advanceTotal inp.timeDelta (sampleButtons s inp))
          = .ok s1 ∧ s' = moveNodes s1 := by
  rw [updateFrame_playing cfg inp s hphase]
  cases h : playingFrame cfg inp.timeDelta (advanceTotal inp.timeDelta (sampleButtons s inp)) with
  | error e => simp
  | ok s1 =>
    simp only [Except.ok.injEq, exists_eq_left']
    exact eq_comm

theorem playingEntry_eq (cfg : Config) (inp : FrameInput) (s : GameState) :
    playingEntry cfg inp s =
      { s with
        mouseLeftPressed := inp.button1
        mouseLeftReleased := !inp.button1 && s.mouseLeftPressed
        mouseRightPressed := inp.button2
        mouseRightReleased := !inp.button2 && s.mouseRightPressed
        totalElapsedTime := s.totalElapsedTime + inp.timeDelta
        gameElapsedTime := s.gameElapsedTime + inp.timeDelta
        isPaused := s.isPaused || (!inp.button2 && s.mouseRightPressed)
        audioLog :=
          if (!inp.button2 && s.mouseRightPressed) && cfg.options.enableMusic then
            s.audioLog ++ [.pause]
          else s.audioLog } := by
  unfold playingEntry
  rw [playingClock_eq, sampleButtons_eq]
  simp [advanceTotal]

/-- A Playing frame returns exactly when its four table lookups succeed, and
then the new state is the frame body followed by the node moves. -/
theorem updateFrame_playing_eq_ok (cfg : Config) (inp : FrameInput) (s s' : GameState)
    (hphase : phase s = .Playing) :
    updateFrame cfg inp s = .ok s' ↔
      ∃ a b o d,
        cfg.keyFrameTimeStamps[scannedKeyFrame cfg (playingEntry cfg inp s)]? = some a ∧
        cfg.keyFrameTimeStamps[nextKeyFrame (scannedKeyFrame cfg (playingEntry cfg inp s))]?
          = some b ∧
        cfg.keyFrameDirections[scannedKeyFrame cfg (playingEntry cfg inp s)]? = some o ∧
        cfg.keyFrameDirections[nextKeyFrame (scannedKeyFrame cfg (playingEntry cfg inp s))]?
          = some d ∧
        s' = moveNodes (playingBody cfg inp.timeDelta (playingEntry cfg inp s)
          (scannedKeyFrame cfg (playingEntry cfg inp s)) a b o d) := by
  rw [updateFrame_playing_ok_iff cfg inp s s' hphase]
  constructor
  · rintro ⟨s1, h1, rfl⟩
    obtain ⟨a, b, o, d, ha, hb, ho, hd, rfl⟩ := (playingFrame_eq_ok_iff _ _ _ _).mp h1
    exact ⟨a, b, o, d, ha, hb, ho, hd, rfl⟩
  · rintro ⟨a, b, o, d, ha, hb, ho, hd, rfl⟩
    exact ⟨_, (playingFrame_eq_ok_iff _ _ _ _).mpr ⟨a, b, o, d, ha, hb, ho, hd, rfl⟩, rfl⟩

theorem bounce_fst_mem (lo hi p d : ℚ) (h : lo ≤ hi) :
    lo ≤ (bounce lo hi p d).1 ∧ (bounce lo hi p d).1 ≤ hi := by
  unfold bounce
  split_ifs with h1 h2
  · exact ⟨le_refl _, h⟩
  · exact ⟨h, le_refl _⟩
  · exact ⟨not_lt.mp h1, not_lt.mp h2⟩

theorem playingBody_ballPosition (cfg : Config) (dt : ℚ) (s : GameState) (ckf : Nat)
    (a b : ℚ) (o d : KeyFrameAction) :
    (playingBody cfg dt s ckf a b o d).ballPosition =
      ⟨(bounce (ballMinX s.boxNodePosition) (ballMaxX s.boxNodePosition)
          (movedCoordinate s.ballPosition.x dt s.ballDirection.x) s.ballDirection.x).1,
       ballYCoord s.boxNodePosition o d (fractionFrameComplete s.gameElapsedTime a b),
       (bounce (ballMinZ s.boxNodePosition) (ballMaxZ s.boxNodePosition)
          (movedCoordinate s.ballPosition.z dt s.ballDirection.z) s.ballDirection.z).1⟩ := by
  unfold playingBody; simp only; split_ifs <;> rfl

theorem playingBody_ballPosition_x (cfg : Config) (dt : ℚ) (s : GameState) (ckf : Nat)
    (a b : ℚ) (o d : KeyFrameAction) :
    (playingBody cfg dt s ckf a b o d).ballPosition.x =
      (bounce (ballMinX s.boxNodePosition) (ballMaxX s.boxNodePosition)
          (movedCoordinate s.ballPosition.x dt s.ballDirection.x) s.ballDirection.x).1 := by
  rw [playingBody_ballPosition]

theorem playingBody_ballPosition_z (cfg : Config) (dt : ℚ) (s : GameState) (ckf : Nat)
    (a b : ℚ) (o d : KeyFrameAction) :
    (playingBody cfg dt s ckf a b o d).ballPosition.z =
      (bounce (ballMinZ s.boxNodePosition) (ballMaxZ s.boxNodePosition)
          (movedCoordinate s.ballPosition.z dt s.ballDirection.z) s.ballDirection.z).1 := by
  rw [playingBody_ballPosition]

theorem playingEntry_ball_x (cfg : Config) (inp : FrameInput) (s : GameState) :
    (playingEntry cfg inp s).ballPosition.x = s.ballPosition.x ∧
    (playingEntry cfg inp s).ballPosition.z = s.ballPosition.z ∧
    (playingEntry cfg inp s).ballDirection.x = s.ballDirection.x ∧
    (playingEntry cfg inp s).ballDirection.z = s.ballDirection.z := by
  rw [playingEntry_eq]; exact ⟨rfl, rfl, rfl, rfl⟩

theorem ballMinX_le_ballMaxX (box : Vec3) : ballMinX box ≤ ballMaxX box := by
  unfold ballMinX ballMaxX boxDimensions ballRadius; norm_num; linarith

theorem ballMinZ_le_ballMaxZ (box : Vec3) : ballMinZ box ≤ ballMaxZ box := by
  unfold ballMinZ ballMaxZ boxDimensions ballRadius cameraWallOffset; norm_num; linarith

theorem playingBody_ball_bounds (cfg : Config) (dt : ℚ) (s : GameState) (ckf : Nat)
    (a b : ℚ) (o d : KeyFrameAction) :
    ballMinX s.boxNodePosition ≤ (playingBody cfg dt s ckf a b o d).ballPosition.x ∧
    (playingBody cfg dt s ckf a b o d).ballPosition.x ≤ ballMaxX s.boxNodePosition ∧
    ballMinZ s.boxNodePosition ≤ (playingBody cfg dt s ckf a b o d).ballPosition.z ∧
    (playingBody cfg dt s ckf a b o d).ballPosition.z ≤ ballMaxZ s.boxNodePosition := by
  rw [playingBody_ballPosition]
  exact ⟨(bounce_fst_mem _ _ _ _ (ballMinX_le_ballMaxX _)).1,
    (bounce_fst_mem _ _ _ _ (ballMinX_le_ballMaxX _)).2,
    (bounce_fst_mem _ _ _ _ (ballMinZ_le_ballMaxZ _)).1,
    (bounce_fst_mem _ _ _ _ (ballMinZ_le_ballMaxZ _)).2⟩

theorem playingEntry_boxNodePosition (cfg : Config) (inp : FrameInput) (s : GameState) :
    (playingEntry cfg inp s).boxNodePosition = s.boxNodePosition := by
  rw [playingEntry_eq]

theorem moveNodes_ballPosition (s : GameState) : (moveNodes s).ballPosition = s.ballPosition :=
  rfl

/-! ## C2: ball bounds -/

/-- C2: after a Playing frame of `updateFrame`, for any box position, prior
ball position and direction and any time delta, the ball's `x` lies in
`[box.x - 90 + 3, box.x + 90 - 3]` and its `z` in
`[box.z - 45 + 3, box.z + 45 - 3 - 30]`, `box` being the box position the frame
read; these are the frame's `ballMinX`, `ballMaxX`, `ballMinZ`, `ballMaxZ`. -/
theorem ball_within_bounds_after_playing_frame (cfg : Config) (inp : FrameInput)
    (s s' : GameState) (hphase : phase s = .Playing) (hok : updateFrame cfg inp s = .ok s') :
    (s.boxNodePosition.x - 90 + 3 ≤ s'.ballPosition.x ∧
      s'.ballPosition.x ≤ s.boxNodePosition.x + 90 - 3 ∧
      s.boxNodePosition.z - 45 + 3 ≤ s'.ballPosition.z ∧
      s'.ballPosition.z ≤ s.boxNodePosition.z + 45 - 3 - 30) ∧
    ballMinX s.boxNodePosition = s.boxNodePosition.x - 90 + 3 ∧
    ballMaxX s.boxNodePosition = s.boxNodePosition.x + 90 - 3 ∧
    ballMinZ s.boxNodePosition = s.boxNodePosition.z - 45 + 3 ∧
    ballMaxZ s.boxNodePosition = s.boxNodePosition.z + 45 - 3 - 30 := by
  obtain ⟨a, b, o, d, -, -, -, -, rfl⟩ := (updateFrame_playing_eq_ok cfg inp s s' hphase).mp hok
  have h := playingBody_ball_bounds cfg inp.timeDelta (playingEntry cfg inp s)
    (scannedKeyFrame cfg (playingEntry cfg inp s)) a b o d
  rw [playingEntry_boxNodePosition] at h
  have e1 : ballMinX s.boxNodePosition = s.boxNodePosition.x - 90 + 3 := by
    unfold ballMinX boxDimensions ballRadius; norm_num
  have e2 : ballMaxX s.boxNodePosition = s.boxNodePosition.x + 90 - 3 := by
    unfold ballMaxX boxDimensions ballRadius; norm_num
  have e3 : ballMinZ s.boxNodePosition = s.boxNodePosition.z - 45 + 3 := by
    unfold ballMinZ boxDimensions ballRadius; norm_num
  have e4 : ballMaxZ s.boxNodePosition = s.boxNodePosition.z + 45 - 3 - 30 := by
    unfold ballMaxZ boxDimensions ballRadius cameraWallOffset; norm_num
  rw [e1, e2, e3, e4] at h
  exact ⟨h, e1, e2, e3, e4⟩

theorem scenario_scan_half :
    scannedKeyFrame scenarioConfig (playingEntry scenarioConfig ⟨1 / 2, false, false⟩
      scenarioPlaying) = 0 := by
  rw [playingEntry_eq]
  norm_num [scannedKeyFrame, scenarioConfig, scenarioPlaying, initialState, scenarioTimeStamps,
    debug_startTime]
  repeat (rw [scanKeyFrames]; norm_num)

theorem scenario_frame_half :
    updateFrame scenarioConfig ⟨1 / 2, false, false⟩ scenarioPlaying =
      .ok (moveNodes (playingBody scenarioConfig (1 / 2)
        (playingEntry scenarioConfig ⟨1 / 2, false, false⟩ scenarioPlaying) 0 0 1
        .BOTTOM .TOP)) := by
  refine (updateFrame_playing_eq_ok scenarioConfig ⟨1 / 2, false, false⟩ scenarioPlaying _
    rfl).mpr ⟨0, 1, .BOTTOM, .TOP, ?_, ?_, ?_, ?_, ?_⟩
  · rw [scenario_scan_half]; rfl
  · rw [scenario_scan_half]; rfl
  · rw [scenario_scan_half]; rfl
  · rw [scenario_scan_half]; rfl
  · rw [scenario_scan_half]

/-- C2 at the state `scenarioPlaying` and a half-second frame: the frame
returns and the ball is inside the four bounds of the box at `(0, -10, -80)`. -/
theorem ball_within_bounds_after_playing_frame_witness :
    ∃ s', updateFrame scenarioConfig ⟨1 / 2, false, false⟩ scenarioPlaying = .ok s' ∧
      (0 : ℚ) - 90 + 3 ≤ s'.ballPosition.x ∧ s'.ballPosition.x ≤ 0 + 90 - 3 ∧
      (-80 : ℚ) - 45 + 3 ≤ s'.ballPosition.z ∧ s'.ballPosition.z ≤ -80 + 45 - 3 - 30 :=
  ⟨_, scenario_frame_half,
    (ball_within_bounds_after_playing_frame scenarioConfig ⟨1 / 2, false, false⟩
      scenarioPlaying _ rfl scenario_frame_half).1⟩

/-! ## Shape of the other phases -/

theorem phase_notStarted_iff (s : GameState) : phase s = .NotStarted ↔ s.hasStarted = false := by
  unfold phase
  cases s.hasStarted <;> cases s.hasLost <;> cases s.isPaused <;> simp

theorem phase_lost_iff (s : GameState) :
    phase s = .Lost ↔ s.hasStarted = true ∧ s.hasLost = true := by
  unfold phase
  cases s.hasStarted <;> cases s.hasLost <;> cases s.isPaused <;> simp

theorem phase_paused_iff (s : GameState) :
    phase s = .Paused ↔ s.hasStarted = true ∧ s.hasLost = false ∧ s.isPaused = true := by
  unfold phase
  cases s.hasStarted <;> cases s.hasLost <;> cases s.isPaused <;> simp

theorem phase_playing_iff (s : GameState) :
    phase s = .Playing ↔ s.hasStarted = true ∧ s.hasLost = false ∧ s.isPaused = false := by
  unfold phase
  cases s.hasStarted <;> cases s.hasLost <;> cases s.isPaused <;> simp

theorem updateFrame_notStarted (cfg : Config) (inp : FrameInput) (s : GameState)
    (hphase : phase s = .NotStarted) :
    updateFrame cfg inp s = .ok (moveNodes (notStartedFrame cfg (sampleButtons s inp))) := by
  have h := (phase_notStarted_iff s).mp hphase
  unfold updateFrame
  simp [sampleButtons_eq, h]

theorem updateFrame_lost (cfg : Config) (inp : FrameInput) (s : GameState)
    (hphase : phase s = .Lost) :
    updateFrame cfg inp s =
      .ok (moveNodes (lostFrame (advanceTotal inp.timeDelta (sampleButtons s inp)))) := by
  have h := (phase_lost_iff s).mp hphase
  unfold updateFrame startedFrame
  simp [sampleButtons_eq, advanceTotal, h.1, h.2]

theorem updateFrame_paused (cfg : Config) (inp : FrameInput) (s : GameState)
    (hphase : phase s = .Paused) :
    updateFrame cfg inp s =
      .ok (moveNodes (pausedFrame cfg (advanceTotal inp.timeDelta (sampleButtons s inp)))) := by
  have h := (phase_paused_iff s).mp hphase
  unfold updateFrame startedFrame
  simp [sampleButtons_eq, advanceTotal, h.1, h.2.1, h.2.2]

/-! ## Paddle accumulators -/

theorem mouseCallback_padInUnit (s : GameState) (x y : ℚ) (w h : Int) :
    padInUnit (mouseCallback s x y w h) := by
  unfold padInUnit mouseCallback
  simp only
  refine ⟨⟨?_, ?_⟩, ⟨?_, ?_⟩⟩ <;> split_ifs <;> linarith

theorem sampleButtons_pad (s : GameState) (inp : FrameInput) :
    (sampleButtons s inp).padPositionX = s.padPositionX ∧
      (sampleButtons s inp).padPositionZ = s.padPositionZ := by
  rw [sampleButtons_eq]; exact ⟨rfl, rfl⟩

theorem notStartedFrame_pad (cfg : Config) (s : GameState) :
    (notStartedFrame cfg s).padPositionX = s.padPositionX ∧
      (notStartedFrame cfg s).padPositionZ = s.padPositionZ := by
  unfold notStartedFrame; simp only; split_ifs <;> exact ⟨rfl, rfl⟩

theorem lostFrame_pad (s : GameState) :
    (lostFrame s).padPositionX = s.padPositionX ∧
      (lostFrame s).padPositionZ = s.padPositionZ := by
  unfold lostFrame; split_ifs <;> exact ⟨rfl, rfl⟩

theorem pausedFrame_pad (cfg : Config) (s : GameState) :
    (pausedFrame cfg s).padPositionX = s.padPositionX ∧
      (pausedFrame cfg s).padPositionZ = s.padPositionZ := by
  unfold pausedFrame; simp only; split_ifs <;> exact ⟨rfl, rfl⟩

theorem playingEntry_pad (cfg : Config) (inp : FrameInput) (s : GameState) :
    (playingEntry cfg inp s).padPositionX = s.padPositionX ∧
      (playingEntry cfg inp s).padPositionZ = s.padPositionZ := by
  rw [playingEntry_eq]; exact ⟨rfl, rfl⟩

/-- The accumulators after the frame body: recomputed from the new ball
position under autoplay, untouched otherwise. -/
theorem playingBody_pad (cfg : Config) (dt : ℚ) (s : GameState) (ckf : Nat)
    (a b : ℚ) (o d : KeyFrameAction) :
    (playingBody cfg dt s ckf a b o d).padPositionX =
      (if cfg.options.enableAutoplay then
        1 - ((playingBody cfg dt s ckf a b o d).ballPosition.x - ballMinX s.boxNodePosition) /
          (ballMaxX s.boxNodePosition - ballMinX s.boxNodePosition)
      else s.padPositionX) ∧
    (playingBody cfg dt s ckf a b o d).padPositionZ =
      (if cfg.options.enableAutoplay then
        1 - ((playingBody cfg dt s ckf a b o d).ballPosition.z - ballMinZ s.boxNodePosition) /
          ((ballMaxZ s.boxNodePosition + cameraWallOffset) - ballMinZ s.boxNodePosition)
      else s.padPositionZ) := by
  unfold playingBody; simp only; split_ifs <;> exact ⟨rfl, rfl⟩

theorem autoplay_pad_in_unit (box : Vec3) (x z : ℚ)
    (hx : ballMinX box ≤ x ∧ x ≤ ballMaxX box) (hz : ballMinZ box ≤ z ∧ z ≤ ballMaxZ box) :
    (0 ≤ 1 - (x - ballMinX box) / (ballMaxX box - ballMinX box) ∧
      1 - (x - ballMinX box) / (ballMaxX box - ballMinX box) ≤ 1) ∧
    (0 ≤ 1 - (z - ballMinZ box) / ((ballMaxZ box + cameraWallOffset) - ballMinZ box) ∧
      1 - (z - ballMinZ box) / ((ballMaxZ box + cameraWallOffset) - ballMinZ box) ≤ 1) := by
  obtain ⟨hx1, hx2⟩ := hx
  obtain ⟨hz1, hz2⟩ := hz
  have dx : ballMaxX box - ballMinX box = 174 := by
    unfold ballMaxX ballMinX boxDimensions ballRadius; ring
  have dz : (ballMaxZ box + cameraWallOffset) - ballMinZ box = 84 := by
    unfold ballMaxZ ballMinZ boxDimensions ballRadius cameraWallOffset; ring
  have dz2 : ballMaxZ box - ballMinZ box = 54 := by
    unfold ballMaxZ ballMinZ boxDimensions ballRadius cameraWallOffset; ring
  rw [dx, dz]
  have h1 : 0 ≤ (x - ballMinX box) / 174 := div_nonneg (by linarith) (by norm_num)
  have h2 : (x - ballMinX box) / 174 ≤ 1 := by
    rw [div_le_one (by norm_num)]; linarith
  have h3 : 0 ≤ (z - ballMinZ box) / 84 := div_nonneg (by linarith) (by norm_num)
  have h4 : (z - ballMinZ box) / 84 ≤ 1 := by
    rw [div_le_one (by norm_num)]; linarith
  exact ⟨⟨by linarith, by linarith⟩, ⟨by linarith, by linarith⟩⟩

theorem advanceTotal_sampleButtons_pad (dt : ℚ) (s : GameState) (inp : FrameInput) :
    (advanceTotal dt (sampleButtons s inp)).padPositionX = s.padPositionX ∧
      (advanceTotal dt (sampleButtons s inp)).padPositionZ = s.padPositionZ := by
  rw [sampleButtons_eq]; exact ⟨rfl, rfl⟩

theorem moveNodes_pad (s : GameState) :
    (moveNodes s).padPositionX = s.padPositionX ∧ (moveNodes s).padPositionZ = s.padPositionZ :=
  ⟨rfl, rfl⟩

theorem phase_cases (s : GameState) :
    phase s = .NotStarted ∨ phase s = .Lost ∨ phase s = .Paused ∨ phase s = .Playing := by
  cases h : phase s <;> simp

theorem updateFrame_padInUnit (cfg : Config) (inp : FrameInput) (s s' : GameState)
    (hin : padInUnit s) (hok : updateFrame cfg inp s = .ok s') : padInUnit s' := by
  rcases phase_cases s with hp | hp | hp | hp
  · rw [updateFrame_notStarted cfg inp s hp] at hok
    injection hok with hok
    subst hok
    unfold padInUnit
    rw [(moveNodes_pad _).1, (moveNodes_pad _).2, (notStartedFrame_pad _ _).1,
      (notStartedFrame_pad _ _).2, (sampleButtons_pad _ _).1, (sampleButtons_pad _ _).2]
    exact hin
  · rw [updateFrame_lost cfg inp s hp] at hok
    injection hok with hok
    subst hok
    unfold padInUnit
    rw [(moveNodes_pad _).1, (moveNodes_pad _).2, (lostFrame_pad _).1, (lostFrame_pad _).2,
      (advanceTotal_sampleButtons_pad _ _ _).1, (advanceTotal_sampleButtons_pad _ _ _).2]
    exact hin
  · rw [updateFrame_paused cfg inp s hp] at hok
    injection hok with hok
    subst hok
    unfold padInUnit
    rw [(moveNodes_pad _).1, (moveNodes_pad _).2, (pausedFrame_pad _ _).1,
      (pausedFrame_pad _ _).2, (advanceTotal_sampleButtons_pad _ _ _).1,
      (advanceTotal_sampleButtons_pad _ _ _).2]
    exact hin
  · obtain ⟨a, b, o, d, -, -, -, -, rfl⟩ := (updateFrame_playing_eq_ok cfg inp s s' hp).mp hok
    unfold padInUnit
    rw [(moveNodes_pad _).1, (moveNodes_pad _).2, (playingBody_pad _ _ _ _ _ _ _ _).1,
      (playingBody_pad _ _ _ _ _ _ _ _).2]
    have hb := playingBody_ball_bounds cfg inp.timeDelta (playingEntry cfg inp s)
      (scannedKeyFrame cfg (playingEntry cfg inp s)) a b o d
    split_ifs
    · exact autoplay_pad_in_unit _ _ _ ⟨hb.1, hb.2.1⟩ ⟨hb.2.2.1, hb.2.2.2⟩
    · rw [(playingEntry_pad _ _ _).1, (playingEntry_pad _ _ _).2]
      exact hin

/-! ## C3: the accumulators stay in the unit interval -/

/-- C3: after `mouseCallback`, for any previous accumulators, any pointer
coordinates and any positive window width and height, `padPositionX` and
`padPositionZ` lie in `[0, 1]`; and every `updateFrame` step that starts with
both in `[0, 1]` ends with both in `[0, 1]`, whatever the phase, the options
and the beat table. -/
theorem paddle_accumulators_stay_in_unit_interval :
    (∀ (s : GameState) (x y : ℚ) (windowWidth windowHeight : Int),
      0 < windowWidth → 0 < windowHeight →
      padInUnit (mouseCallback s x y windowWidth windowHeight)) ∧
    (∀ (cfg : Config) (inp : FrameInput) (s s' : GameState),
      padInUnit s → updateFrame cfg inp s = .ok s' → padInUnit s') :=
  ⟨fun s x y w h _ _ => mouseCallback_padInUnit s x y w h, updateFrame_padInUnit⟩

/-- C3 at a far-away pointer in a 1366 x 768 window and at a half-second
Playing frame from `scenarioPlaying`. -/
theorem paddle_accumulators_stay_in_unit_interval_witness :
    padInUnit (mouseCallback (initialState 1366 768) 1000000 (-1000000) 1366 768) ∧
    ∃ s', updateFrame scenarioConfig ⟨1 / 2, false, false⟩ scenarioPlaying = .ok s' ∧
      padInUnit s' :=
  ⟨paddle_accumulators_stay_in_unit_interval.1 (initialState 1366 768) 1000000 (-1000000)
      1366 768 (by decide) (by decide),
    _, scenario_frame_half,
    paddle_accumulators_stay_in_unit_interval.2 scenarioConfig ⟨1 / 2, false, false⟩
      scenarioPlaying _
      (by simp [padInUnit, scenarioPlaying, initialState])
      scenario_frame_half⟩

/-! ## The active interval of a Playing frame -/

theorem scannedKeyFrame_playingEntry (cfg : Config) (inp : FrameInput) (s : GameState) :
    scannedKeyFrame cfg (playingEntry cfg inp s) =
      scanKeyFrames cfg.keyFrameTimeStamps (s.gameElapsedTime + inp.timeDelta)
        s.currentKeyFrame s.currentKeyFrame := by
  rw [playingEntry_eq]; rfl

theorem playingEntry_gameElapsedTime (cfg : Config) (inp : FrameInput) (s : GameState) :
    (playingEntry cfg inp s).gameElapsedTime = s.gameElapsedTime + inp.timeDelta := by
  rw [playingEntry_eq]

theorem moveNodes_currentKeyFrame (s : GameState) :
    (moveNodes s).currentKeyFrame = s.currentKeyFrame := rfl

theorem ballYCoord_cases (box : Vec3) (o d : KeyFrameAction) (f : ℚ) :
    (o = .BOTTOM → d = .BOTTOM → ballYCoord box o d f = ballBottomY box) ∧
    (o = .TOP → d = .TOP → ballYCoord box o d f = ballTopY box) ∧
    (o = .TOP → d = .BOTTOM →
      ballYCoord box o d f = ballBottomY box + BallVerticalTravelDistance box * (1 - f)) ∧
    (o = .BOTTOM → d = .TOP →
      ballYCoord box o d f = ballBottomY box + BallVerticalTravelDistance box * f) := by
  refine ⟨?_, ?_, ?_, ?_⟩
  · rintro rfl rfl; simp [ballYCoord]
  · rintro rfl rfl; simp [ballYCoord, BallVerticalTravelDistance]
  · rintro rfl rfl; simp [ballYCoord]
  · rintro rfl rfl; simp [ballYCoord]

/-- The ball height a Playing frame stores, as a function of the box position,
the game time reached and the table entries of the active interval. -/
theorem playing_frame_height (cfg : Config) (inp : FrameInput) (s s' : GameState)
    (hphase : phase s = .Playing) (hok : updateFrame cfg inp s = .ok s') :
    ∃ a b o d,
      cfg.keyFrameTimeStamps[s'.currentKeyFrame]? = some a ∧
      cfg.keyFrameTimeStamps[nextKeyFrame s'.currentKeyFrame]? = some b ∧
      cfg.keyFrameDirections[s'.currentKeyFrame]? = some o ∧
      cfg.keyFrameDirections[nextKeyFrame s'.currentKeyFrame]? = some d ∧
      s'.currentKeyFrame = scanKeyFrames cfg.keyFrameTimeStamps
        (s.gameElapsedTime + inp.timeDelta) s.currentKeyFrame s.currentKeyFrame ∧
      s'.ballPosition.y = ballYCoord s.boxNodePosition o d
        (fractionFrameComplete (s.gameElapsedTime + inp.timeDelta) a b) := by
  obtain ⟨a, b, o, d, ha, hb, ho, hd, rfl⟩ :=
    (updateFrame_playing_eq_ok cfg inp s s' hphase).mp hok
  refine ⟨a, b, o, d, ?_, ?_, ?_, ?_, ?_, ?_⟩
  · rw [moveNodes_currentKeyFrame, (playingBody_currentKeyFrame _ _ _ _ _ _ _ _).1]; exact ha
  · rw [moveNodes_currentKeyFrame, (playingBody_currentKeyFrame _ _ _ _ _ _ _ _).1]; exact hb
  · rw [moveNodes_currentKeyFrame, (playingBody_currentKeyFrame _ _ _ _ _ _ _ _).1]; exact ho
  · rw [moveNodes_currentKeyFrame, (playingBody_currentKeyFrame _ _ _ _ _ _ _ _).1]; exact hd
  · rw [moveNodes_currentKeyFrame, (playingBody_currentKeyFrame _ _ _ _ _ _ _ _).1,
      scannedKeyFrame_playingEntry]
  · rw [moveNodes_ballPosition, playingBody_ballPosition, playingEntry_boxNodePosition,
      playingEntry_gameElapsedTime]

/-! ## C4: ball height -/

theorem ballOutsidePad_iff (box ball : Vec3) (px pz : ℚ) :
    ballOutsidePad box ball px pz = true ↔
      (ball.x < padLeftX box px ∨ ball.x > padRightX box px ∨
        ball.z < padFrontZ box pz ∨ ball.z > padBackZ box pz) := by
  unfold ballOutsidePad
  simp [or_assoc]

theorem pad_footprint_eq (box : Vec3) (px pz : ℚ) :
    padLeftX box px = box.x - 90 + (1 - px) * 150 ∧
    padRightX box px = box.x - 90 + (1 - px) * 150 + 30 ∧
    padFrontZ box pz = box.z - 45 + (1 - pz) * 50 ∧
    padBackZ box pz = box.z - 45 + (1 - pz) * 50 + 40 := by
  unfold padRightX padBackZ padLeftX padFrontZ boxDimensions padDimensions
  norm_num

/-- The lost flag after the frame body. -/
theorem playingBody_hasLost (cfg : Config) (dt : ℚ) (s : GameState) (ckf : Nat)
    (a b : ℚ) (o d : KeyFrameAction) :
    (playingBody cfg dt s ckf a b o d).hasLost =
      (s.hasLost ||
        ((ckf != s.previousKeyFrame) && decide (o = .BOTTOM) && decide (d = .TOP) &&
          ballOutsidePad s.boxNodePosition (playingBody cfg dt s ckf a b o d).ballPosition
            (playingBody cfg dt s ckf a b o d).padPositionX
            (playingBody cfg dt s ckf a b o d).padPositionZ)) := by
  rw [playingBody_ballPosition, (playingBody_pad _ _ _ _ _ _ _ _).1,
    (playingBody_pad _ _ _ _ _ _ _ _).2, playingBody_ballPosition]
  unfold playingBody
  simp only
  split_ifs <;> simp_all

theorem playingEntry_flags (cfg : Config) (inp : FrameInput) (s : GameState) :
    (playingEntry cfg inp s).hasLost = s.hasLost ∧
    (playingEntry cfg inp s).hasStarted = s.hasStarted ∧
    (playingEntry cfg inp s).previousKeyFrame = s.previousKeyFrame ∧
    (playingEntry cfg inp s).isPaused = (s.isPaused || (!inp.button2 && s.mouseRightPressed)) := by
  rw [playingEntry_eq]; exact ⟨rfl, rfl, rfl, rfl⟩

theorem moveNodes_flags (s : GameState) :
    (moveNodes s).hasLost = s.hasLost ∧ (moveNodes s).hasStarted = s.hasStarted ∧
      (moveNodes s).isPaused = s.isPaused := ⟨rfl, rfl, rfl⟩

/-! ## A frame that crosses into a Bottom-to-Top interval -/

theorem crossing_scan :
    scannedKeyFrame crossingConfig (playingEntry crossingConfig ⟨1 / 2, false, false⟩
      crossingPlaying) = 1 := by
  rw [playingEntry_eq]
  norm_num [scannedKeyFrame, crossingConfig, crossingPlaying, scenarioPlaying, initialState,
    scenarioTimeStamps]
  repeat (rw [scanKeyFrames]; norm_num)

/-! ## A run that pauses and loses in one frame -/

theorem traceStarted_facts :
    traceStarted.hasStarted = true ∧ traceStarted.hasLost = false ∧
    traceStarted.isPaused = false ∧ traceStarted.gameElapsedTime = 0 ∧
    traceStarted.currentKeyFrame = 0 ∧ traceStarted.previousKeyFrame = 0 ∧
    traceStarted.mouseRightPressed = false ∧ traceStarted.padPositionX = 0 ∧
    traceStarted.ballPosition.x = 87 ∧ traceStarted.ballDirection.x = 1 ∧
    traceStarted.boxNodePosition = ⟨0, -10, -80⟩ := by
  simp [traceStarted, moveNodes, notStartedFrame, sampleButtons, initialState, crossingConfig,
    debug_startTime, ballMinX, ballMaxX, boxDimensions, ballRadius]
  norm_num

theorem traceStarted_frame :
    updateFrame crossingConfig ⟨0, true, false⟩ (initialState 1366 768) = .ok traceStarted :=
  updateFrame_notStarted _ _ _ rfl

theorem playingBody_unchanged (cfg : Config) (dt : ℚ) (s : GameState) (ckf : Nat)
    (a b : ℚ) (o d : KeyFrameAction) :
    (playingBody cfg dt s ckf a b o d).hasStarted = s.hasStarted ∧
    (playingBody cfg dt s ckf a b o d).isPaused = s.isPaused ∧
    (playingBody cfg dt s ckf a b o d).gameElapsedTime = s.gameElapsedTime ∧
    (playingBody cfg dt s ckf a b o d).totalElapsedTime = s.totalElapsedTime ∧
    (playingBody cfg dt s ckf a b o d).mouseLeftPressed = s.mouseLeftPressed ∧
    (playingBody cfg dt s ckf a b o d).mouseRightPressed = s.mouseRightPressed ∧
    (playingBody cfg dt s ckf a b o d).boxNodePosition = s.boxNodePosition := by
  unfold playingBody; simp only; split_ifs <;> exact ⟨rfl, rfl, rfl, rfl, rfl, rfl, rfl⟩

theorem playingBody_ballDirection (cfg : Config) (dt : ℚ) (s : GameState) (ckf : Nat)
    (a b : ℚ) (o d : KeyFrameAction) :
    (playingBody cfg dt s ckf a b o d).ballDirection =
      ⟨(bounce (ballMinX s.boxNodePosition) (ballMaxX s.boxNodePosition)
          (movedCoordinate s.ballPosition.x dt s.ballDirection.x) s.ballDirection.x).2,
       s.ballDirection.y,
       (bounce (ballMinZ s.boxNodePosition) (ballMaxZ s.boxNodePosition)
          (movedCoordinate s.ballPosition.z dt s.ballDirection.z) s.ballDirection.z).2⟩ := by
  unfold playingBody; simp only; split_ifs <;> rfl

theorem playingBody_ballDirection_x (cfg : Config) (dt : ℚ) (s : GameState) (ckf : Nat)
    (a b : ℚ) (o d : KeyFrameAction) :
    (playingBody cfg dt s ckf a b o d).ballDirection.x =
      (bounce (ballMinX s.boxNodePosition) (ballMaxX s.boxNodePosition)
          (movedCoordinate s.ballPosition.x dt s.ballDirection.x) s.ballDirection.x).2 := by
  rw [playingBody_ballDirection]

theorem traceHeld_scan :
    scannedKeyFrame crossingConfig (playingEntry crossingConfig ⟨1 / 2, false, true⟩
      traceStarted) = 0 := by
  obtain ⟨-, -, -, h4, h5, -⟩ := traceStarted_facts
  rw [scannedKeyFrame_playingEntry, h4, h5]
  norm_num [crossingConfig, scenarioTimeStamps]
  repeat (rw [scanKeyFrames]; norm_num)

theorem traceHeld_frame :
    updateFrame crossingConfig ⟨1 / 2, false, true⟩ traceStarted = .ok traceHeld := by
  obtain ⟨h1, h2, h3, -⟩ := traceStarted_facts
  refine (updateFrame_playing_eq_ok crossingConfig ⟨1 / 2, false, true⟩ traceStarted _
    ((phase_playing_iff _).mpr ⟨h1, h2, h3⟩)).mpr ⟨0, 1, .TOP, .BOTTOM, ?_, ?_, ?_, ?_, ?_⟩
  · rw [traceHeld_scan]; rfl
  · rw [traceHeld_scan]; rfl
  · rw [traceHeld_scan]; rfl
  · rw [traceHeld_scan]; rfl
  · rw [traceHeld_scan]; rfl

theorem moveNodes_unchanged (s : GameState) :
    (moveNodes s).gameElapsedTime = s.gameElapsedTime ∧
    (moveNodes s).totalElapsedTime = s.totalElapsedTime ∧
    (moveNodes s).previousKeyFrame = s.previousKeyFrame ∧
    (moveNodes s).mouseLeftPressed = s.mouseLeftPressed ∧
    (moveNodes s).mouseRightPressed = s.mouseRightPressed ∧
    (moveNodes s).ballDirection = s.ballDirection ∧
    (moveNodes s).boxNodePosition = ⟨0, -10, -80⟩ := ⟨rfl, rfl, rfl, rfl, rfl, rfl, rfl⟩

theorem traceHeld_facts :
    traceHeld.hasStarted = true ∧ traceHeld.hasLost = false ∧
    traceHeld.isPaused = false ∧ traceHeld.gameElapsedTime = 1 / 2 ∧
    traceHeld.currentKeyFrame = 0 ∧ traceHeld.previousKeyFrame = 0 ∧
    traceHeld.mouseRightPressed = true ∧ traceHeld.padPositionX = 0 ∧
    traceHeld.ballPosition.x = 87 ∧ traceHeld.ballDirection.x = -1 ∧
    traceHeld.boxNodePosition = ⟨0, -10, -80⟩ := by
  obtain ⟨h1, h2, h3, h4, h5, h6, h7, h8, h9, h10, h11⟩ := traceStarted_facts
  have hu := playingBody_unchanged crossingConfig (1 / 2)
    (playingEntry crossingConfig ⟨1 / 2, false, true⟩ traceStarted) 0 0 1 .TOP .BOTTOM
  have hf := playingEntry_flags crossingConfig ⟨1 / 2, false, true⟩ traceStarted
  have hk := playingBody_currentKeyFrame crossingConfig (1 / 2)
    (playingEntry crossingConfig ⟨1 / 2, false, true⟩ traceStarted) 0 0 1 .TOP .BOTTOM
  unfold traceHeld
  rw [(moveNodes_flags _).1, (moveNodes_flags _).2.1, (moveNodes_flags _).2.2,
    (moveNodes_unchanged _).1, moveNodes_currentKeyFrame, (moveNodes_unchanged _).2.2.1,
    (moveNodes_unchanged _).2.2.2.2.1, (moveNodes_pad _).1, moveNodes_ballPosition,
    (moveNodes_unchanged _).2.2.2.2.2.1, (moveNodes_unchanged _).2.2.2.2.2.2]
  refine ⟨?_, ?_, ?_, ?_, hk.1, hk.2, ?_, ?_, ?_, ?_, rfl⟩
  · rw [hu.1, hf.2.1, h1]
  · rw [playingBody_hasLost, hf.1, h2]
    simp
  · rw [hu.2.1, hf.2.2.2, h3, h7]
    rfl
  · rw [hu.2.2.1, playingEntry_gameElapsedTime, h4]
    norm_num
  · rw [hu.2.2.2.2.2.1, playingEntry_eq]
  · rw [(playingBody_pad _ _ _ _ _ _ _ _).1, (playingEntry_pad _ _ _).1, h8]
    rfl
  · rw [playingBody_ballPosition_x, playingEntry_boxNodePosition, h11,
      (playingEntry_ball_x _ _ _).1, (playingEntry_ball_x _ _ _).2.2.1, h9, h10]
    norm_num [bounce, ballMinX, ballMaxX, boxDimensions, ballRadius, ballSpeed, movedCoordinate]
  · rw [playingBody_ballDirection_x, playingEntry_boxNodePosition, h11,
      (playingEntry_ball_x _ _ _).1, (playingEntry_ball_x _ _ _).2.2.1, h9, h10]
    norm_num [bounce, ballMinX, ballMaxX, boxDimensions, ballRadius, ballSpeed, movedCoordinate]

theorem tracePausedAndLost_scan :
    scannedKeyFrame crossingConfig (playingEntry crossingConfig ⟨3 / 4, false, false⟩
      traceHeld) = 1 := by
  obtain ⟨-, -, -, h4, h5, -⟩ := traceHeld_facts
  rw [scannedKeyFrame_playingEntry, h4, h5]
  norm_num [crossingConfig, scenarioTimeStamps]
  repeat (rw [scanKeyFrames]; norm_num)

theorem tracePausedAndLost_frame :
    updateFrame crossingConfig ⟨3 / 4, false, false⟩ traceHeld = .ok tracePausedAndLost := by
  obtain ⟨h1, h2, h3, -⟩ := traceHeld_facts
  refine (updateFrame_playing_eq_ok crossingConfig ⟨3 / 4, false, false⟩ traceHeld _
    ((phase_playing_iff _).mpr ⟨h1, h2, h3⟩)).mpr ⟨1, 2, .BOTTOM, .TOP, ?_, ?_, ?_, ?_, ?_⟩
  · rw [tracePausedAndLost_scan]; rfl
  · rw [tracePausedAndLost_scan]; rfl
  · rw [tracePausedAndLost_scan]; rfl
  · rw [tracePausedAndLost_scan]; rfl
  · rw [tracePausedAndLost_scan]; rfl

theorem tracePausedAndLost_facts :
    tracePausedAndLost.hasStarted = true ∧ tracePausedAndLost.hasLost = true ∧
    tracePausedAndLost.isPaused = true ∧ tracePausedAndLost.mouseLeftPressed = false := by
  obtain ⟨h1, h2, h3, h4, h5, h6, h7, h8, h9, h10, h11⟩ := traceHeld_facts
  have hu := playingBody_unchanged crossingConfig (3 / 4)
    (playingEntry crossingConfig ⟨3 / 4, false, false⟩ traceHeld) 1 1 2 .BOTTOM .TOP
  have hf := playingEntry_flags crossingConfig ⟨3 / 4, false, false⟩ traceHeld
  unfold tracePausedAndLost
  rw [(moveNodes_flags _).1, (moveNodes_flags _).2.1, (moveNodes_flags _).2.2,
    (moveNodes_unchanged _).2.2.2.1]
  refine ⟨?_, ?_, ?_, ?_⟩
  · rw [hu.1, hf.2.1, h1]
  · rw [playingBody_hasLost, hf.1, h2, hf.2.2.1, h6, playingEntry_boxNodePosition, h11]
    have hout : ballOutsidePad ⟨0, -10, -80⟩
        (playingBody crossingConfig (3 / 4)
          (playingEntry crossingConfig ⟨3 / 4, false, false⟩ traceHeld) 1 1 2
          .BOTTOM .TOP).ballPosition
        (playingBody crossingConfig (3 / 4)
          (playingEntry crossingConfig ⟨3 / 4, false, false⟩ traceHeld) 1 1 2
          .BOTTOM .TOP).padPositionX
        (playingBody crossingConfig (3 / 4)
          (playingEntry crossingConfig ⟨3 / 4, false, false⟩ traceHeld) 1 1 2
          .BOTTOM .TOP).padPositionZ = true := by
      rw [ballOutsidePad_iff]
      left
      rw [(playingBody_pad _ _ _ _ _ _ _ _).1, (playingEntry_pad _ _ _).1, h8,
        playingBody_ballPosition_x, playingEntry_boxNodePosition, h11,
        (playingEntry_ball_x _ _ _).1, (playingEntry_ball_x _ _ _).2.2.1, h9, h10]
      norm_num [crossingConfig, bounce, ballMinX, ballMaxX, padLeftX, boxDimensions,
        padDimensions, ballRadius, ballSpeed, movedCoordinate]
    rw [hout]
    rfl
  · rw [hu.2.1, hf.2.2.2, h3, h7]
    rfl
  · rw [hu.2.2.2.2.1, playingEntry_eq]

theorem lostFrame_flags (s : GameState) :
    (lostFrame s).hasStarted = (s.hasStarted && !s.mouseLeftReleased) ∧
    (lostFrame s).hasLost = (s.hasLost && !s.mouseLeftReleased) ∧
    (lostFrame s).isPaused = s.isPaused ∧
    (lostFrame s).mouseLeftPressed = s.mouseLeftPressed ∧
    (lostFrame s).currentKeyFrame = (if s.mouseLeftReleased then 0 else s.currentKeyFrame) ∧
    (lostFrame s).previousKeyFrame = (if s.mouseLeftReleased then 0 else s.previousKeyFrame) := by
  unfold lostFrame
  cases h : s.mouseLeftReleased <;> simp

theorem lost_entry_flags (dt : ℚ) (s : GameState) (inp : FrameInput) :
    (advanceTotal dt (sampleButtons s inp)).hasStarted = s.hasStarted ∧
    (advanceTotal dt (sampleButtons s inp)).hasLost = s.hasLost ∧
    (advanceTotal dt (sampleButtons s inp)).isPaused = s.isPaused ∧
    (advanceTotal dt (sampleButtons s inp)).mouseLeftPressed = inp.button1 ∧
    (advanceTotal dt (sampleButtons s inp)).mouseLeftReleased =
      (!inp.button1 && s.mouseLeftPressed) ∧
    (advanceTotal dt (sampleButtons s inp)).mouseRightReleased =
      (!inp.button2 && s.mouseRightPressed) ∧
    (advanceTotal dt (sampleButtons s inp)).currentKeyFrame = s.currentKeyFrame ∧
    (advanceTotal dt (sampleButtons s inp)).previousKeyFrame = s.previousKeyFrame := by
  rw [sampleButtons_eq]; exact ⟨rfl, rfl, rfl, rfl, rfl, rfl, rfl, rfl⟩

theorem traceLostHeld_facts :
    traceLostHeld.hasStarted = true ∧ traceLostHeld.hasLost = true ∧
    traceLostHeld.isPaused = true ∧ traceLostHeld.mouseLeftPressed = true := by
  obtain ⟨h1, h2, h3, h4⟩ := tracePausedAndLost_facts
  have hl := lostFrame_flags (advanceTotal 0 (sampleButtons tracePausedAndLost ⟨0, true, false⟩))
  have he := lost_entry_flags 0 tracePausedAndLost ⟨0, true, false⟩
  unfold traceLostHeld
  rw [(moveNodes_flags _).1, (moveNodes_flags _).2.1, (moveNodes_flags _).2.2,
    (moveNodes_unchanged _).2.2.2.1, hl.1, hl.2.1, hl.2.2.1, hl.2.2.2.1, he.1, he.2.1, he.2.2.1,
    he.2.2.2.1, he.2.2.2.2.1, h1, h2, h3, h4]
  exact ⟨rfl, rfl, rfl, rfl⟩

theorem traceRestart_facts :
    traceRestart.hasStarted = false ∧ traceRestart.hasLost = false ∧
    traceRestart.isPaused = true := by
  obtain ⟨h1, h2, h3, h4⟩ := traceLostHeld_facts
  have hl := lostFrame_flags (advanceTotal 0 (sampleButtons traceLostHeld ⟨0, false, false⟩))
  have he := lost_entry_flags 0 traceLostHeld ⟨0, false, false⟩
  unfold traceRestart
  rw [(moveNodes_flags _).1, (moveNodes_flags _).2.1, (moveNodes_flags _).2.2,
    hl.1, hl.2.1, hl.2.2.1, he.1, he.2.1, he.2.2.1, he.2.2.2.2.1, h1, h2, h3, h4]
  exact ⟨rfl, rfl, rfl⟩

theorem traceRestart_reachable : Reachable crossingConfig 1366 768 traceRestart := by
  have r1 := Reachable.frame _ _ _ (Reachable.init : Reachable crossingConfig 1366 768 _)
    traceStarted_frame
  have r2 := Reachable.frame _ _ _ r1 traceHeld_frame
  have r3 := Reachable.frame _ _ _ r2 tracePausedAndLost_frame
  have r4 : Reachable crossingConfig 1366 768 traceLostHeld :=
    Reachable.frame ⟨0, true, false⟩ _ _ r3
      (updateFrame_lost _ _ _ ((phase_lost_iff _).mpr
        ⟨tracePausedAndLost_facts.1, tracePausedAndLost_facts.2.1⟩))
  exact Reachable.frame ⟨0, false, false⟩ _ _ r4
    (updateFrame_lost _ _ _ ((phase_lost_iff _).mpr
      ⟨traceLostHeld_facts.1, traceLostHeld_facts.2.1⟩))

/-! ## Starting the game -/

theorem notStartedFrame_flags (cfg : Config) (s : GameState) :
    (notStartedFrame cfg s).hasStarted = (s.hasStarted || s.mouseLeftPressed) ∧
    (notStartedFrame cfg s).hasLost = s.hasLost ∧
    (notStartedFrame cfg s).isPaused = s.isPaused ∧
    (notStartedFrame cfg s).totalElapsedTime =
      (if s.mouseLeftPressed then debug_startTime else s.totalElapsedTime) ∧
    (notStartedFrame cfg s).gameElapsedTime =
      (if s.mouseLeftPressed then debug_startTime else s.gameElapsedTime) := by
  unfold notStartedFrame
  cases h : s.mouseLeftPressed <;> cases h2 : cfg.options.enableMusic <;> simp

theorem sampleButtons_flags (s : GameState) (inp : FrameInput) :
    (sampleButtons s inp).hasStarted = s.hasStarted ∧
    (sampleButtons s inp).hasLost = s.hasLost ∧
    (sampleButtons s inp).isPaused = s.isPaused ∧
    (sampleButtons s inp).mouseLeftPressed = inp.button1 := by
  rw [sampleButtons_eq]; exact ⟨rfl, rfl, rfl, rfl⟩

/-- A primary press in phase NotStarted sets `hasStarted` and resets both
clocks; the lost and pause flags are left as they were. -/
theorem notStarted_press (cfg : Config) (inp : FrameInput) (s : GameState)
    (hphase : phase s = .NotStarted) (hpress : inp.button1 = true) :
    ∃ s', updateFrame cfg inp s = .ok s' ∧ s'.hasStarted = true ∧ s'.hasLost = s.hasLost ∧
      s'.isPaused = s.isPaused ∧ s'.totalElapsedTime = debug_startTime ∧
      s'.gameElapsedTime = debug_startTime := by
  refine ⟨_, updateFrame_notStarted cfg inp s hphase, ?_, ?_, ?_, ?_, ?_⟩
  · rw [(moveNodes_flags _).2.1, (notStartedFrame_flags _ _).1, (sampleButtons_flags _ _).2.2.2,
      hpress]
    simp
  · rw [(moveNodes_flags _).1, (notStartedFrame_flags _ _).2.1, (sampleButtons_flags _ _).2.1]
  · rw [(moveNodes_flags _).2.2, (notStartedFrame_flags _ _).2.2.1,
      (sampleButtons_flags _ _).2.2.1]
  · rw [(moveNodes_unchanged _).2.1, (notStartedFrame_flags _ _).2.2.2.1,
      (sampleButtons_flags _ _).2.2.2, hpress]
    simp
  · rw [(moveNodes_unchanged _).1, (notStartedFrame_flags _ _).2.2.2.2,
      (sampleButtons_flags _ _).2.2.2, hpress]
    simp

theorem pausedFrame_flags (cfg : Config) (s : GameState) :
    (pausedFrame cfg s).hasStarted = s.hasStarted ∧
    (pausedFrame cfg s).hasLost = s.hasLost ∧
    (pausedFrame cfg s).isPaused = (s.isPaused && !s.mouseRightReleased) := by
  unfold pausedFrame
  cases h : s.mouseRightReleased <;> cases h2 : cfg.options.enableMusic <;> simp

theorem mouseCallback_flags (s : GameState) (x y : ℚ) (w h : Int) :
    (mouseCallback s x y w h).hasStarted = s.hasStarted ∧
      (mouseCallback s x y w h).hasLost = s.hasLost := ⟨rfl, rfl⟩

/-- In every state of a run that is not started the lost flag is clear. -/
theorem reachable_notStarted_not_lost (cfg : Config) (w h : Int) (s : GameState)
    (hr : Reachable cfg w h s) : s.hasStarted = false → s.hasLost = false := by
  induction hr with
  | init => intro _; rfl
  | mouse x y w' h' s _ ih =>
    rw [(mouseCallback_flags _ _ _ _ _).1, (mouseCallback_flags _ _ _ _ _).2]
    exact ih
  | frame inp s s' _ hok ih =>
    rcases phase_cases s with hp | hp | hp | hp
    · rw [updateFrame_notStarted cfg inp s hp] at hok
      injection hok with hok
      subst hok
      intro _
      rw [(moveNodes_flags _).1, (notStartedFrame_flags _ _).2.1, (sampleButtons_flags _ _).2.1]
      exact ih ((phase_notStarted_iff s).mp hp)
    · rw [updateFrame_lost cfg inp s hp] at hok
      injection hok with hok
      subst hok
      obtain ⟨hs, hl⟩ := (phase_lost_iff s).mp hp
      have hf := lostFrame_flags (advanceTotal inp.timeDelta (sampleButtons s inp))
      have he := lost_entry_flags inp.timeDelta s inp
      rw [(moveNodes_flags _).1, (moveNodes_flags _).2.1, hf.1, hf.2.1, he.1, he.2.1, hs, hl]
      cases (advanceTotal inp.timeDelta (sampleButtons s inp)).mouseLeftReleased <;> simp
    · rw [updateFrame_paused cfg inp s hp] at hok
      injection hok with hok
      subst hok
      obtain ⟨hs, -, -⟩ := (phase_paused_iff s).mp hp
      rw [(moveNodes_flags _).2.1, (pausedFrame_flags _ _).1,
        (lost_entry_flags _ _ _).1, hs]
      intro hcon
      exact absurd hcon (by decide)
    · obtain ⟨a, b, o, d, -, -, -, -, rfl⟩ := (updateFrame_playing_eq_ok cfg inp s s' hp).mp hok
      obtain ⟨hs, -, -⟩ := (phase_playing_iff s).mp hp
      rw [(moveNodes_flags _).2.1, (playingBody_unchanged _ _ _ _ _ _ _ _).1,
        (playingEntry_flags _ _ _).2.1, hs]
      intro hcon
      exact absurd hcon (by decide)

/-- A primary press in a NotStarted state of a run ends in phase Playing
exactly when the pause flag is clear. -/
theorem reachable_press_playing_iff (cfg : Config) (w h : Int) (inp : FrameInput)
    (s s' : GameState) (hr : Reachable cfg w h s) (hphase : phase s = .NotStarted)
    (hpress : inp.button1 = true) (hok : updateFrame cfg inp s = .ok s') :
    phase s' = .Playing ↔ s.isPaused = false := by
  obtain ⟨s2, hok2, hs, hl, hp, -, -⟩ := notStarted_press cfg inp s hphase hpress
  rw [hok] at hok2
  injection hok2 with hok2
  subst hok2
  have hnl := reachable_notStarted_not_lost cfg w h s hr ((phase_notStarted_iff s).mp hphase)
  rw [phase_playing_iff, hp, hl]
  exact ⟨fun h => h.2.2, fun h => ⟨hs, hnl, h⟩⟩

/-! ## C6: the start transition after a loss on the pause frame -/

/-- C6 (evaluation at the failing input): `traceRestart` is reached from the
initial state by five frames (start; hold the secondary button; release it on
the frame in which the ball misses the paddle; hold and release the primary
button). Its phase is NotStarted with the pause flag still set, and the frame
update with the primary button pressed ends in phase Paused, not Playing; both
clocks are reset to `debug_startTime`. -/
theorem start_press_after_paused_loss :
    Reachable crossingConfig 1366 768 traceRestart ∧
    phase traceRestart = .NotStarted ∧ traceRestart.isPaused = true ∧
    ∃ s', updateFrame crossingConfig ⟨0, true, false⟩ traceRestart = .ok s' ∧
      phase s' = .Paused ∧ phase s' ≠ .Playing ∧
      s'.totalElapsedTime = debug_startTime ∧ s'.gameElapsedTime = debug_startTime := by
  obtain ⟨h1, h2, h3⟩ := traceRestart_facts
  have hph : phase traceRestart = .NotStarted := (phase_notStarted_iff _).mpr h1
  obtain ⟨s', hok, hs, hl, hp, ht, hg⟩ :=
    notStarted_press crossingConfig ⟨0, true, false⟩ traceRestart hph rfl
  have hpaused : phase s' = .Paused :=
    (phase_paused_iff _).mpr ⟨hs, by rw [hl, h2], by rw [hp, h3]⟩
  refine ⟨traceRestart_reachable, hph, h3, s', hok, hpaused, ?_, ht, hg⟩
  rw [hpaused]
  decide

/-! ## C7: Lost to NotStarted -/

/-- C7: from every state in phase Lost the frame update returns; when a primary
release is detected (held at the previous frame, not held now) it ends in
phase NotStarted with `hasStarted`, `hasLost` cleared and
`currentKeyFrame = previousKeyFrame = 0`; otherwise it leaves the phase Lost and
both keyframe indices unchanged. -/
theorem lost_to_notStarted_on_primary_release (cfg : Config) (inp : FrameInput)
    (s : GameState) (hphase : phase s = .Lost) :
    ∃ s', updateFrame cfg inp s = .ok s' ∧
      ((s.mouseLeftPressed = true ∧ inp.button1 = false) →
        phase s' = .NotStarted ∧ s'.hasStarted = false ∧ s'.hasLost = false ∧
        s'.currentKeyFrame = 0 ∧ s'.previousKeyFrame = 0) ∧
      (¬ (s.mouseLeftPressed = true ∧ inp.button1 = false) →
        phase s' = .Lost ∧ s'.currentKeyFrame = s.currentKeyFrame ∧
        s'.previousKeyFrame = s.previousKeyFrame) := by
  obtain ⟨hs, hl⟩ := (phase_lost_iff s).mp hphase
  have hf := lostFrame_flags (advanceTotal inp.timeDelta (sampleButtons s inp))
  have he := lost_entry_flags inp.timeDelta s inp
  refine ⟨_, updateFrame_lost cfg inp s hphase, ?_, ?_⟩
  · rintro ⟨hp, hb⟩
    have hrel : (advanceTotal inp.timeDelta (sampleButtons s inp)).mouseLeftReleased = true := by
      rw [he.2.2.2.2.1, hp, hb]; rfl
    have h1 : (moveNodes (lostFrame (advanceTotal inp.timeDelta
        (sampleButtons s inp)))).hasStarted = false := by
      rw [(moveNodes_flags _).2.1, hf.1, hrel]; simp
    refine ⟨(phase_notStarted_iff _).mpr h1, h1, ?_, ?_, ?_⟩
    · rw [(moveNodes_flags _).1, hf.2.1, hrel]; simp
    · rw [moveNodes_currentKeyFrame, hf.2.2.2.2.1, hrel]; simp
    · rw [(moveNodes_unchanged _).2.2.1, hf.2.2.2.2.2, hrel]; simp
  · intro hno
    have hrel : (advanceTotal inp.timeDelta (sampleButtons s inp)).mouseLeftReleased
        = false := by
      rw [he.2.2.2.2.1]
      cases hb : inp.button1 <;> cases hp : s.mouseLeftPressed <;> simp_all
    refine ⟨(phase_lost_iff _).mpr ⟨?_, ?_⟩, ?_, ?_⟩
    · rw [(moveNodes_flags _).2.1, hf.1, hrel, he.1, hs]; rfl
    · rw [(moveNodes_flags _).1, hf.2.1, hrel, he.2.1, hl]; rfl
    · rw [moveNodes_currentKeyFrame, hf.2.2.2.2.1, hrel, he.2.2.2.2.2.2.1]; simp
    · rw [(moveNodes_unchanged _).2.2.1, hf.2.2.2.2.2, hrel, he.2.2.2.2.2.2.2]; simp

/-- C7 at the lost state `traceLostHeld` of the trace, whose primary button was
held: the frame with the button up returns a state in phase NotStarted with
both keyframe indices `0`. -/
theorem lost_to_notStarted_on_primary_release_witness :
    ∃ s', updateFrame crossingConfig ⟨0, false, false⟩ traceLostHeld = .ok s' ∧
      phase s' = .NotStarted ∧ s'.currentKeyFrame = 0 ∧ s'.previousKeyFrame = 0 := by
  obtain ⟨s', hok, h1, -⟩ :=
    lost_to_notStarted_on_primary_release crossingConfig ⟨0, false, false⟩ traceLostHeld
      ((phase_lost_iff _).mpr ⟨traceLostHeld_facts.1, traceLostHeld_facts.2.1⟩)
  obtain ⟨h2, -, -, h3, h4⟩ := h1 ⟨traceLostHeld_facts.2.2.2, rfl⟩
  exact ⟨s', hok, h2, h3, h4⟩

/-! ## C8: the pause toggle -/

/-- C8 (as stated, refuted): `traceHeld` is reached from the initial state, is
in phase Playing and had the secondary button held; the frame that detects the
release also crosses into a Bottom-to-Top interval with the ball off the
paddle, and ends in phase Lost, not Paused. -/
theorem pause_release_frame_can_end_lost :
    Reachable crossingConfig 1366 768 traceHeld ∧
    phase traceHeld = .Playing ∧ traceHeld.mouseRightPressed = true ∧
    updateFrame crossingConfig ⟨3 / 4, false, false⟩ traceHeld = .ok tracePausedAndLost ∧
    phase tracePausedAndLost = .Lost ∧ phase tracePausedAndLost ≠ .Paused := by
  obtain ⟨h1, h2, h3, -, -, -, h7, -⟩ := traceHeld_facts
  have hl : phase tracePausedAndLost = .Lost :=
    (phase_lost_iff _).mpr ⟨tracePausedAndLost_facts.1, tracePausedAndLost_facts.2.1⟩
  refine ⟨?_, (phase_playing_iff _).mpr ⟨h1, h2, h3⟩, h7, tracePausedAndLost_frame, hl, ?_⟩
  · exact Reachable.frame _ _ _
      (Reachable.frame _ _ _ (Reachable.init : Reachable crossingConfig 1366 768 _)
        traceStarted_frame) traceHeld_frame
  · rw [hl]; decide

/-- C8 (amended): a frame update from phase Playing that detects a secondary
release (held at the previous frame, not held now) and returns ends with the
game started and the pause flag set, in phase Paused unless this frame's miss
check set the lost flag; and from every state in phase Paused a frame update
that detects a secondary release returns a state in phase Playing. -/
theorem pause_toggle_on_secondary_release :
    (∀ (cfg : Config) (inp : FrameInput) (s s' : GameState),
      phase s = .Playing → s.mouseRightPressed = true → inp.button2 = false →
      updateFrame cfg inp s = .ok s' →
      s'.hasStarted = true ∧ s'.isPaused = true ∧ (phase s' = .Paused ↔ s'.hasLost = false)) ∧
    (∀ (cfg : Config) (inp : FrameInput) (s : GameState),
      phase s = .Paused → s.mouseRightPressed = true → inp.button2 = false →
      ∃ s', updateFrame cfg inp s = .ok s' ∧ phase s' = .Playing) := by
  constructor
  · intro cfg inp s s' hphase hheld hup hok
    obtain ⟨a, b, o, d, -, -, -, -, rfl⟩ := (updateFrame_playing_eq_ok cfg inp s s' hphase).mp hok
    obtain ⟨hs, -, -⟩ := (phase_playing_iff s).mp hphase
    have hu := playingBody_unchanged cfg inp.timeDelta (playingEntry cfg inp s)
      (scannedKeyFrame cfg (playingEntry cfg inp s)) a b o d
    have hf := playingEntry_flags cfg inp s
    have h1 : (moveNodes (playingBody cfg inp.timeDelta (playingEntry cfg inp s)
        (scannedKeyFrame cfg (playingEntry cfg inp s)) a b o d)).hasStarted = true := by
      rw [(moveNodes_flags _).2.1, hu.1, hf.2.1, hs]
    have h2 : (moveNodes (playingBody cfg inp.timeDelta (playingEntry cfg inp s)
        (scannedKeyFrame cfg (playingEntry cfg inp s)) a b o d)).isPaused = true := by
      rw [(moveNodes_flags _).2.2, hu.2.1, hf.2.2.2, hheld, hup]; simp
    refine ⟨h1, h2, ?_⟩
    rw [phase_paused_iff]
    constructor
    · intro h; exact h.2.1
    · intro h; exact ⟨h1, h, h2⟩
  · intro cfg inp s hphase hheld hup
    obtain ⟨hs, hl, hp⟩ := (phase_paused_iff s).mp hphase
    have hf := pausedFrame_flags cfg (advanceTotal inp.timeDelta (sampleButtons s inp))
    have he := lost_entry_flags inp.timeDelta s inp
    refine ⟨_, updateFrame_paused cfg inp s hphase, (phase_playing_iff _).mpr ⟨?_, ?_, ?_⟩⟩
    · rw [(moveNodes_flags _).2.1, hf.1, he.1, hs]
    · rw [(moveNodes_flags _).1, hf.2.1, he.2.1, hl]
    · rw [(moveNodes_flags _).2.2, hf.2.2, he.2.2.1, he.2.2.2.2.2.1, hp, hheld, hup]; rfl

theorem scenarioSecondaryHeld_scan :
    scannedKeyFrame scenarioConfig (playingEntry scenarioConfig ⟨1 / 2, false, false⟩
      scenarioSecondaryHeld) = 0 := by
  rw [playingEntry_eq]
  norm_num [scannedKeyFrame, scenarioConfig, scenarioSecondaryHeld, scenarioPlaying,
    initialState, scenarioTimeStamps, debug_startTime]
  repeat (rw [scanKeyFrames]; norm_num)

theorem scenarioSecondaryHeld_frame :
    updateFrame scenarioConfig ⟨1 / 2, false, false⟩ scenarioSecondaryHeld =
      .ok (moveNodes (playingBody scenarioConfig (1 / 2)
        (playingEntry scenarioConfig ⟨1 / 2, false, false⟩ scenarioSecondaryHeld) 0 0 1
        .BOTTOM .TOP)) := by
  refine (updateFrame_playing_eq_ok scenarioConfig ⟨1 / 2, false, false⟩
    scenarioSecondaryHeld _ rfl).mpr ⟨0, 1, .BOTTOM, .TOP, ?_, ?_, ?_, ?_, ?_⟩
  · rw [scenarioSecondaryHeld_scan]; rfl
  · rw [scenarioSecondaryHeld_scan]; rfl
  · rw [scenarioSecondaryHeld_scan]; rfl
  · rw [scenarioSecondaryHeld_scan]; rfl
  · rw [scenarioSecondaryHeld_scan]

/-- C8 (amended) at `scenarioSecondaryHeld` and `scenarioPaused`: the release
frame of the Playing state returns with the pause flag set and no loss, so in
phase Paused; the release frame of the Paused state ends in phase Playing. -/
theorem pause_toggle_on_secondary_release_witness :
    (∃ s', updateFrame scenarioConfig ⟨1 / 2, false, false⟩ scenarioSecondaryHeld = .ok s' ∧
      s'.isPaused = true ∧ phase s' = .Paused) ∧
    (∃ s', updateFrame scenarioConfig ⟨1 / 2, false, false⟩ scenarioPaused = .ok s' ∧
      phase s' = .Playing) := by
  have h := pause_toggle_on_secondary_release.1 scenarioConfig ⟨1 / 2, false, false⟩
    scenarioSecondaryHeld _ rfl rfl rfl scenarioSecondaryHeld_frame
  refine ⟨⟨_, scenarioSecondaryHeld_frame, h.2.1, h.2.2.mpr ?_⟩,
    pause_toggle_on_secondary_release.2 scenarioConfig ⟨1 / 2, false, false⟩
      scenarioPaused rfl rfl rfl⟩
  rw [(moveNodes_flags _).1, playingBody_hasLost, (playingEntry_flags _ _ _).1,
    (playingEntry_flags _ _ _).2.2.1]
  rfl

/-! ## C9: transform propagation -/

theorem updateChildren_lookup (trig : Trig) (w h : Int) (cs : List SceneNode) (M P : Mat4)
    (i : Nat) :
    (updateChildren trig w h cs M P)[i]? =
      (cs[i]?).map (fun c => updateNodeTransformations trig w h c M P) := by
  induction cs generalizing i with
  | nil => simp [updateChildren]
  | cons c cs ih => cases i <;> simp [updateChildren, ih]

theorem updateNodeTransformations_node (trig : Trig) (w h : Int) (d : NodeData)
    (cs : List SceneNode) (M P : Mat4) :
    updateNodeTransformations trig w h (.node d cs) M P =
      .node
        { d with
          currentModelMatrix := M * transformationMatrix trig d
          currentMVPMatrix :=
            if d.nodeType = .GEOMETRY_2D then windowOrtho w h * transformationMatrix trig d
            else P * transformationMatrix trig d }
        (updateChildren trig w h cs (M * transformationMatrix trig d)
          (if d.nodeType = .GEOMETRY_2D then windowOrtho w h * transformationMatrix trig d
            else P * transformationMatrix trig d)) := by
  rw [updateNodeTransformations]
  cases hd : d.nodeType <;> simp

theorem transformationMatrix_update (trig : Trig) (d : NodeData) (A B : Mat4) :
    transformationMatrix trig { d with currentModelMatrix := A, currentMVPMatrix := B } =
      transformationMatrix trig d := rfl

theorem propagation_along_path (trig : Trig) (w h : Int) (path : List Nat) :
    ∀ (n : SceneNode) (M P : Mat4) (ns : List NodeData), pathData n path = some ns →
      ∃ n', nodeAt (updateNodeTransformations trig w h n M P) path = some n' ∧
        n'.data.currentModelMatrix = M * (ns.map (transformationMatrix trig)).prod ∧
        ((∀ x ∈ ns, x.nodeType ≠ .GEOMETRY_2D) →
          n'.data.currentMVPMatrix = P * (ns.map (transformationMatrix trig)).prod) ∧
        (∀ (pre : List NodeData) (nj : NodeData) (post : List NodeData),
          ns = pre ++ nj :: post → nj.nodeType = .GEOMETRY_2D →
          (∀ x ∈ post, x.nodeType ≠ .GEOMETRY_2D) →
          n'.data.currentMVPMatrix =
            windowOrtho w h *
              (transformationMatrix trig nj * (post.map (transformationMatrix trig)).prod)) := by
  induction path with
  | nil =>
    rintro ⟨d, cs⟩ M P ns hns
    simp only [pathData, SceneNode.data, Option.some.injEq] at hns
    subst hns
    refine ⟨_, rfl, ?_, ?_, ?_⟩
    · rw [updateNodeTransformations_node]
      simp [SceneNode.data]
    · intro hno
      have hd : d.nodeType ≠ .GEOMETRY_2D := hno d (by simp)
      rw [updateNodeTransformations_node]
      simp [SceneNode.data, hd]
    · intro pre nj post hsplit h2d _
      have hpre : pre = [] ∧ nj = d ∧ post = [] := by
        cases pre with
        | nil =>
          simp only [List.nil_append, List.cons.injEq] at hsplit
          exact ⟨rfl, hsplit.1.symm, hsplit.2.symm⟩
        | cons p ps =>
          simp at hsplit
      obtain ⟨-, rfl, rfl⟩ := hpre
      rw [updateNodeTransformations_node]
      simp [SceneNode.data, h2d]
  | cons i path ih =>
    rintro ⟨d, cs⟩ M P ns hns
    simp only [pathData, SceneNode.children, SceneNode.data] at hns
    cases hc : cs[i]? with
    | none => simp [hc] at hns
    | some c =>
      rw [hc] at hns
      cases hrest : pathData c path with
      | none => simp [hrest] at hns
      | some rest =>
        simp only [hrest, Option.some.injEq] at hns
        subst hns
        obtain ⟨n', hn', hmodel, hmvp1, hmvp2⟩ :=
          ih c (M * transformationMatrix trig d)
            (if d.nodeType = .GEOMETRY_2D then windowOrtho w h * transformationMatrix trig d
              else P * transformationMatrix trig d) rest hrest
        refine ⟨n', ?_, ?_, ?_, ?_⟩
        · rw [updateNodeTransformations_node]
          simp only [nodeAt, SceneNode.children, updateChildren_lookup, hc, Option.map_some']
          exact hn'
        · rw [hmodel]
          simp [mul_assoc]
        · intro hno
          have hd : d.nodeType ≠ .GEOMETRY_2D := hno d (by simp)
          rw [hmvp1 (fun x hx => hno x (by simp [hx])), if_neg hd]
          simp [mul_assoc]
        · intro pre nj post hsplit h2d hpost
          cases pre with
          | nil =>
            simp only [List.nil_append, List.cons.injEq] at hsplit
            obtain ⟨rfl, rfl⟩ := hsplit
            rw [hmvp1 hpost, if_pos h2d, mul_assoc]
          | cons p ps =>
            simp only [List.cons_append, List.cons.injEq] at hsplit
            exact hmvp2 ps nj post hsplit.2 h2d hpost

theorem pathData_of_nodeAt_update (trig : Trig) (w h : Int) (path : List Nat) :
    ∀ (n : SceneNode) (M P : Mat4) (n' : SceneNode),
      nodeAt (updateNodeTransformations trig w h n M P) path = some n' →
      ∃ ns, pathData n path = some ns := by
  induction path with
  | nil => intro n M P n' _; exact ⟨[n.data], rfl⟩
  | cons i path ih =>
    rintro ⟨d, cs⟩ M P n' hn
    rw [updateNodeTransformations_node] at hn
    simp only [nodeAt, SceneNode.children, updateChildren_lookup] at hn
    cases hc : cs[i]? with
    | none => simp [hc] at hn
    | some c =>
      simp only [hc, Option.map_some'] at hn
      obtain ⟨ns, hns⟩ := ih c _ _ n' hn
      exact ⟨d :: ns, by simp [pathData, SceneNode.children, SceneNode.data, hc, hns]⟩

/-- C9: after `updateNodeTransformations (root, M, P)` on a finite tree, the
node at the end of any root path `n0, ..., nk` has
`currentModelMatrix = M * L(n0) * ... * L(nk)`; its `currentMVPMatrix` is
`P * L(n0) * ... * L(nk)` when no node of the path is `GEOMETRY_2D`, and
`Ortho(0, windowWidth, 0, windowHeight) * L(nj) * ... * L(nk)` when `nj` is the
deepest `GEOMETRY_2D` node of the path. Every node of the updated tree is at
such a path of the tree before the call. -/
theorem transform_propagation_along_path (trig : Trig) (windowWidth windowHeight : Int)
    (root : SceneNode) (M P : Mat4) (path : List Nat) :
    (∀ ns : List NodeData, pathData root path = some ns →
      ∃ n', nodeAt (updateNodeTransformations trig windowWidth windowHeight root M P) path
          = some n' ∧
        n'.data.currentModelMatrix = M * (ns.map (transformationMatrix trig)).prod ∧
        ((∀ x ∈ ns, x.nodeType ≠ .GEOMETRY_2D) →
          n'.data.currentMVPMatrix = P * (ns.map (transformationMatrix trig)).prod) ∧
        (∀ (pre : List NodeData) (nj : NodeData) (post : List NodeData),
          ns = pre ++ nj :: post → nj.nodeType = .GEOMETRY_2D →
          (∀ x ∈ post, x.nodeType ≠ .GEOMETRY_2D) →
          n'.data.currentMVPMatrix =
            windowOrtho windowWidth windowHeight *
              (transformationMatrix trig nj *
                (post.map (transformationMatrix trig)).prod))) ∧
    (∀ n', nodeAt (updateNodeTransformations trig windowWidth windowHeight root M P) path
        = some n' → ∃ ns, pathData root path = some ns) :=
  ⟨propagation_along_path trig windowWidth windowHeight path root M P,
    pathData_of_nodeAt_update trig windowWidth windowHeight path root M P⟩

/-- C9 at `sampleScene`, path `[1, 0]` (root, text node, its child), with the
identity as inherited model matrix and a translation as inherited projection:
the child's model matrix is `L(root) * L(text) * L(child)` and its MVP matrix
is `Ortho * L(text) * L(child)`. -/
theorem transform_propagation_along_path_witness :
    ∃ n', nodeAt (updateNodeTransformations zeroAngleTrig 1366 768 sampleScene 1
        (translate ⟨0, -2, 20⟩)) [1, 0] = some n' ∧
      n'.data.currentModelMatrix =
        1 * ([freshNode .GEOMETRY ⟨0, 0, 0⟩, freshNode .GEOMETRY_2D ⟨0, 729, 0⟩,
          freshNode .GEOMETRY ⟨5, 0, 0⟩].map (transformationMatrix zeroAngleTrig)).prod ∧
      n'.data.currentMVPMatrix =
        windowOrtho 1366 768 *
          (transformationMatrix zeroAngleTrig (freshNode .GEOMETRY_2D ⟨0, 729, 0⟩) *
            ([freshNode .GEOMETRY ⟨5, 0, 0⟩].map (transformationMatrix zeroAngleTrig)).prod) := by
  obtain ⟨n', h1, h2, -, h4⟩ :=
    (transform_propagation_along_path zeroAngleTrig 1366 768 sampleScene 1
      (translate ⟨0, -2, 20⟩) [1, 0]).1
      [freshNode .GEOMETRY ⟨0, 0, 0⟩, freshNode .GEOMETRY_2D ⟨0, 729, 0⟩,
        freshNode .GEOMETRY ⟨5, 0, 0⟩] rfl
  exact ⟨n', h1, h2,
    h4 [freshNode .GEOMETRY ⟨0, 0, 0⟩] (freshNode .GEOMETRY_2D ⟨0, 729, 0⟩)
      [freshNode .GEOMETRY ⟨5, 0, 0⟩] rfl rfl (by simp [freshNode])⟩

/-! ## C10: autoplay -/

theorem autoplay_footprint_contains (box : Vec3) (x z : ℚ)
    (hx : ballMinX box ≤ x ∧ x ≤ ballMaxX box) (hz : ballMinZ box ≤ z ∧ z ≤ ballMaxZ box) :
    (padLeftX box (1 - (x - ballMinX box) / (ballMaxX box - ballMinX box)) ≤ x ∧
      x ≤ padLeftX box (1 - (x - ballMinX box) / (ballMaxX box - ballMinX box)) + 30) ∧
    (padFrontZ box
        (1 - (z - ballMinZ box) / ((ballMaxZ box + cameraWallOffset) - ballMinZ box)) ≤ z ∧
      z ≤ padFrontZ box
        (1 - (z - ballMinZ box) / ((ballMaxZ box + cameraWallOffset) - ballMinZ box)) + 40) := by
  obtain ⟨hx1, hx2⟩ := hx
  obtain ⟨hz1, hz2⟩ := hz
  have dx : ballMaxX box - ballMinX box = 174 := by
    unfold ballMaxX ballMinX boxDimensions ballRadius; ring
  have dz : (ballMaxZ box + cameraWallOffset) - ballMinZ box = 84 := by
    unfold ballMaxZ ballMinZ boxDimensions ballRadius cameraWallOffset; ring
  have dz2 : ballMaxZ box - ballMinZ box = 54 := by
    unfold ballMaxZ ballMinZ boxDimensions ballRadius cameraWallOffset; ring
  have mx : ballMinX box = box.x - 87 := by
    unfold ballMinX boxDimensions ballRadius; ring
  have mz : ballMinZ box = box.z - 42 := by
    unfold ballMinZ boxDimensions ballRadius; ring
  rw [dx, dz, (pad_footprint_eq box _ 0).1, (pad_footprint_eq box 0 _).2.2.1]
  have ex : (1 - (1 - (x - ballMinX box) / 174)) * 150 = (x - ballMinX box) * (150 / 174) := by
    ring
  have ez : (1 - (1 - (z - ballMinZ box) / 84)) * 50 = (z - ballMinZ box) * (50 / 84) := by
    ring
  rw [ex, ez]
  refine ⟨⟨?_, ?_⟩, ⟨?_, ?_⟩⟩ <;> linarith

/-- C10: with `enableAutoplay` set, after every Playing frame (any box
position, prior ball position and direction, prior accumulators and time
delta) the paddle footprint recomputed from the accumulators the frame leaves
contains the ball, `padLeftX ≤ ball.x ≤ padLeftX + 30` and
`padFrontZ ≤ ball.z ≤ padFrontZ + 40`, and the frame does not set the lost
flag. -/
theorem autoplay_never_misses (cfg : Config) (inp : FrameInput) (s s' : GameState)
    (hauto : cfg.options.enableAutoplay = true) (hphase : phase s = .Playing)
    (hok : updateFrame cfg inp s = .ok s') :
    (padLeftX s.boxNodePosition s'.padPositionX ≤ s'.ballPosition.x ∧
      s'.ballPosition.x ≤ padLeftX s.boxNodePosition s'.padPositionX + 30) ∧
    (padFrontZ s.boxNodePosition s'.padPositionZ ≤ s'.ballPosition.z ∧
      s'.ballPosition.z ≤ padFrontZ s.boxNodePosition s'.padPositionZ + 40) ∧
    s'.hasLost = false := by
  obtain ⟨a, b, o, d, -, -, -, -, rfl⟩ := (updateFrame_playing_eq_ok cfg inp s s' hphase).mp hok
  have hb := playingBody_ball_bounds cfg inp.timeDelta (playingEntry cfg inp s)
    (scannedKeyFrame cfg (playingEntry cfg inp s)) a b o d
  have hp := playingBody_pad cfg inp.timeDelta (playingEntry cfg inp s)
    (scannedKeyFrame cfg (playingEntry cfg inp s)) a b o d
  rw [if_pos hauto, if_pos hauto] at hp
  have hfoot := autoplay_footprint_contains (playingEntry cfg inp s).boxNodePosition _ _
    ⟨hb.1, hb.2.1⟩ ⟨hb.2.2.1, hb.2.2.2⟩
  rw [← hp.1, ← hp.2, playingEntry_boxNodePosition] at hfoot
  rw [(moveNodes_pad _).1, (moveNodes_pad _).2, moveNodes_ballPosition, (moveNodes_flags _).1]
  refine ⟨hfoot.1, hfoot.2, ?_⟩
  have hout : ballOutsidePad s.boxNodePosition
      (playingBody cfg inp.timeDelta (playingEntry cfg inp s)
        (scannedKeyFrame cfg (playingEntry cfg inp s)) a b o d).ballPosition
      (playingBody cfg inp.timeDelta (playingEntry cfg inp s)
        (scannedKeyFrame cfg (playingEntry cfg inp s)) a b o d).padPositionX
      (playingBody cfg inp.timeDelta (playingEntry cfg inp s)
        (scannedKeyFrame cfg (playingEntry cfg inp s)) a b o d).padPositionZ = false := by
    rw [Bool.eq_false_iff]
    intro h
    rw [ballOutsidePad_iff] at h
    have e := pad_footprint_eq s.boxNodePosition
      (playingBody cfg inp.timeDelta (playingEntry cfg inp s)
        (scannedKeyFrame cfg (playingEntry cfg inp s)) a b o d).padPositionX
      (playingBody cfg inp.timeDelta (playingEntry cfg inp s)
        (scannedKeyFrame cfg (playingEntry cfg inp s)) a b o d).padPositionZ
    rw [e.2.1, e.2.2.2, ← e.1, ← e.2.2.1] at h
    rcases h with h | h | h | h
    · linarith [hfoot.1.1]
    · linarith [hfoot.1.2]
    · linarith [hfoot.2.1]
    · linarith [hfoot.2.2]
  rw [playingBody_hasLost, (playingEntry_flags _ _ _).1, ((phase_playing_iff s).mp hphase).2.1,
    playingEntry_boxNodePosition, hout]
  simp

theorem autoplay_scan :
    scannedKeyFrame autoplayConfig (playingEntry autoplayConfig ⟨1 / 2, false, false⟩
      crossingPlaying) = 1 := by
  rw [playingEntry_eq]
  norm_num [scannedKeyFrame, autoplayConfig, crossingConfig, crossingPlaying, scenarioPlaying,
    initialState, scenarioTimeStamps]
  repeat (rw [scanKeyFrames]; norm_num)

theorem autoplay_frame :
    updateFrame autoplayConfig ⟨1 / 2, false, false⟩ crossingPlaying =
      .ok (moveNodes (playingBody autoplayConfig (1 / 2)
        (playingEntry autoplayConfig ⟨1 / 2, false, false⟩ crossingPlaying) 1 1 2
        .BOTTOM .TOP)) := by
  refine (updateFrame_playing_eq_ok autoplayConfig ⟨1 / 2, false, false⟩ crossingPlaying _
    rfl).mpr ⟨1, 2, .BOTTOM, .TOP, ?_, ?_, ?_, ?_, ?_⟩
  · rw [autoplay_scan]; rfl
  · rw [autoplay_scan]; rfl
  · rw [autoplay_scan]; rfl
  · rw [autoplay_scan]; rfl
  · rw [autoplay_scan]

/-- C10 at `crossingPlaying` with autoplay on: the frame that loses without
autoplay (a fresh Bottom-to-Top crossing) returns with the ball inside the
recomputed footprint and the lost flag clear. -/
theorem autoplay_never_misses_witness :
    ∃ s', updateFrame autoplayConfig ⟨1 / 2, false, false⟩ crossingPlaying = .ok s' ∧
      padLeftX crossingPlaying.boxNodePosition s'.padPositionX ≤ s'.ballPosition.x ∧
      s'.ballPosition.x ≤ padLeftX crossingPlaying.boxNodePosition s'.padPositionX + 30 ∧
      s'.hasLost = false :=
  ⟨_, autoplay_frame,
    (autoplay_never_misses autoplayConfig ⟨1 / 2, false, false⟩ crossingPlaying _ rfl rfl
      autoplay_frame).1.1,
    (autoplay_never_misses autoplayConfig ⟨1 / 2, false, false⟩ crossingPlaying _ rfl rfl
      autoplay_frame).1.2,
    (autoplay_never_misses autoplayConfig ⟨1 / 2, false, false⟩ crossingPlaying _ rfl rfl
      autoplay_frame).2.2⟩

/-! ## C11: the ball before play -/

theorem notStartedFrame_ballPosition (cfg : Config) (s : GameState) :
    (notStartedFrame cfg s).ballPosition =
      ⟨ballMinX s.boxNodePosition +
          (1 - s.padPositionX) * (ballMaxX s.boxNodePosition - ballMinX s.boxNodePosition),
       ballBottomY s.boxNodePosition,
       ballMinZ s.boxNodePosition +
          (1 - s.padPositionZ) *
            ((ballMaxZ s.boxNodePosition + cameraWallOffset) - ballMinZ s.boxNodePosition)⟩ := by
  unfold notStartedFrame; simp only; split_ifs <;> rfl

theorem sampleButtons_boxNodePosition (s : GameState) (inp : FrameInput) :
    (sampleButtons s inp).boxNodePosition = s.boxNodePosition := by
  rw [sampleButtons_eq]

theorem moveNodes_nodes (s : GameState) :
    (moveNodes s).ballNodePosition = s.ballPosition ∧
    (moveNodes s).padNodePosition =
      ⟨-75 + (1 - s.padPositionX) * 150, -107 / 2, -105 + (1 - s.padPositionZ) * 50⟩ := by
  refine ⟨rfl, ?_⟩
  unfold moveNodes boxDimensions padDimensions
  simp only [Vec3.mk.injEq]
  refine ⟨?_, ?_, ?_⟩ <;> norm_num

/-- The positions a NotStarted frame gives the ball and pad nodes, from the
box position `box` it read and the accumulators. -/
theorem notStarted_frame_nodes (cfg : Config) (inp : FrameInput) (s : GameState)
    (hphase : phase s = .NotStarted) :
    ∃ s', updateFrame cfg inp s = .ok s' ∧
      s'.ballNodePosition =
        ⟨s.boxNodePosition.x - 87 + (1 - s.padPositionX) * 174,
         s.boxNodePosition.y - 39,
         s.boxNodePosition.z - 42 + (1 - s.padPositionZ) * 84⟩ ∧
      s'.padNodePosition =
        ⟨-75 + (1 - s.padPositionX) * 150, -107 / 2, -105 + (1 - s.padPositionZ) * 50⟩ ∧
      s'.padPositionX = s.padPositionX ∧ s'.padPositionZ = s.padPositionZ := by
  refine ⟨_, updateFrame_notStarted cfg inp s hphase, ?_, ?_, ?_, ?_⟩
  · rw [(moveNodes_nodes _).1, notStartedFrame_ballPosition, sampleButtons_boxNodePosition,
      (sampleButtons_pad _ _).1, (sampleButtons_pad _ _).2]
    unfold ballMinX ballMaxX ballMinZ ballMaxZ ballBottomY boxDimensions padDimensions ballRadius
      cameraWallOffset
    simp only [Vec3.mk.injEq]
    refine ⟨?_, ?_, ?_⟩ <;> ring
  · rw [(moveNodes_nodes _).2, (notStartedFrame_pad _ _).1, (notStartedFrame_pad _ _).2,
      (sampleButtons_pad _ _).1, (sampleButtons_pad _ _).2]
  · rw [(moveNodes_pad _).1, (notStartedFrame_pad _ _).1, (sampleButtons_pad _ _).1]
  · rw [(moveNodes_pad _).2, (notStartedFrame_pad _ _).2, (sampleButtons_pad _ _).2]

/-- Once the box node is at `(0, -10, -80)`, where every frame puts it, a
NotStarted frame with accumulators in `[0, 1]` rests the ball on the paddle. -/
theorem ball_rests_on_paddle_when_box_placed (cfg : Config) (inp : FrameInput) (s : GameState)
    (hphase : phase s = .NotStarted) (hpad : padInUnit s)
    (hbox : s.boxNodePosition = ⟨0, -10, -80⟩) :
    ∃ s', updateFrame cfg inp s = .ok s' ∧
      s'.ballNodePosition.y = s'.padNodePosition.y + padDimensions.y / 2 + ballRadius ∧
      |s'.ballNodePosition.x - s'.padNodePosition.x| ≤ 15 ∧
      |s'.ballNodePosition.z - s'.padNodePosition.z| ≤ 20 ∧
      s'.ballNodePosition.x = ballMinX s.boxNodePosition +
        (1 - s.padPositionX) * (ballMaxX s.boxNodePosition - ballMinX s.boxNodePosition) := by
  obtain ⟨s', hok, hb, hp, -, -⟩ := notStarted_frame_nodes cfg inp s hphase
  obtain ⟨⟨hx0, hx1⟩, ⟨hz0, hz1⟩⟩ := hpad
  refine ⟨s', hok, ?_, ?_, ?_, ?_⟩
  · rw [hb, hp, hbox]; norm_num [padDimensions, ballRadius]
  · rw [hb, hp, hbox, abs_le]; constructor <;> norm_num <;> linarith
  · rw [hb, hp, hbox, abs_le]; constructor <;> norm_num <;> linarith
  · rw [hb, hbox]; norm_num [ballMinX, ballMaxX, boxDimensions, ballRadius]

/-- Every frame leaves the box node at `(0, -10, -80)`. -/
theorem updateFrame_boxNodePosition (cfg : Config) (inp : FrameInput) (s s' : GameState)
    (hok : updateFrame cfg inp s = .ok s') : s'.boxNodePosition = ⟨0, -10, -80⟩ := by
  unfold updateFrame at hok
  simp only at hok
  split at hok
  · injection hok with hok; subst hok; rfl
  · exact absurd hok (by simp)

/-- C11 (evaluation at the failing input): the first frame, run on the initial
state with no button held, reads the box node where it was created, at the
origin, and moves it to `(0, -10, -80)` only afterwards. The ball node ends at
`y = -39` and `z = 42`, the pad node at `y = -107/2` and `z = -55`: the ball is
10 units above the paddle's top surface plus the ball radius and 97 units
behind the paddle's centre. Only `x` is as claimed. -/
theorem first_frame_ball_off_paddle :
    phase (initialState 1366 768) = .NotStarted ∧ padInUnit (initialState 1366 768) ∧
    ∃ s', updateFrame scenarioConfig ⟨0, false, false⟩ (initialState 1366 768) = .ok s' ∧
      s'.ballNodePosition = ⟨87, -39, 42⟩ ∧ s'.padNodePosition = ⟨75, -107 / 2, -55⟩ ∧
      s'.ballNodePosition.y ≠ s'.padNodePosition.y + padDimensions.y / 2 + ballRadius ∧
      ¬ (|s'.ballNodePosition.z - s'.padNodePosition.z| ≤ 20) ∧
      |s'.ballNodePosition.x - s'.padNodePosition.x| ≤ 15 := by
  obtain ⟨s', hok, hb, hp, -, -⟩ :=
    notStarted_frame_nodes scenarioConfig ⟨0, false, false⟩ (initialState 1366 768) rfl
  have hb' : s'.ballNodePosition = ⟨87, -39, 42⟩ := by
    rw [hb]; simp only [initialState, Vec3.mk.injEq]; refine ⟨?_, ?_, ?_⟩ <;> norm_num
  have hp' : s'.padNodePosition = ⟨75, -107 / 2, -55⟩ := by
    rw [hp]; simp only [initialState, Vec3.mk.injEq]; refine ⟨?_, ?_, ?_⟩ <;> norm_num
  refine ⟨rfl, by simp [padInUnit, initialState], s', hok, hb', hp', ?_, ?_, ?_⟩
  · rw [hb', hp']; norm_num [padDimensions, ballRadius]
  · rw [hb', hp']; norm_num [abs_le]
  · rw [hb', hp']; norm_num [abs_le]

/-! ## C12: paused frames -/

theorem pausedFrame_unchanged (cfg : Config) (s : GameState) :
    (pausedFrame cfg s).ballPosition = s.ballPosition ∧
    (pausedFrame cfg s).ballDirection = s.ballDirection ∧
    (pausedFrame cfg s).currentKeyFrame = s.currentKeyFrame ∧
    (pausedFrame cfg s).previousKeyFrame = s.previousKeyFrame ∧
    (pausedFrame cfg s).gameElapsedTime = s.gameElapsedTime ∧
    (pausedFrame cfg s).totalElapsedTime = s.totalElapsedTime := by
  unfold pausedFrame; simp only; split_ifs <;> exact ⟨rfl, rfl, rfl, rfl, rfl, rfl⟩

theorem started_entry_unchanged (dt : ℚ) (s : GameState) (inp : FrameInput) :
    (advanceTotal dt (sampleButtons s inp)).ballPosition = s.ballPosition ∧
    (advanceTotal dt (sampleButtons s inp)).ballDirection = s.ballDirection ∧
    (advanceTotal dt (sampleButtons s inp)).gameElapsedTime = s.gameElapsedTime ∧
    (advanceTotal dt (sampleButtons s inp)).totalElapsedTime = s.totalElapsedTime + dt ∧
    (advanceTotal dt (sampleButtons s inp)).soundAlive = s.soundAlive ∧
    (advanceTotal dt (sampleButtons s inp)).audioLog = s.audioLog := by
  rw [sampleButtons_eq]; exact ⟨rfl, rfl, rfl, rfl, rfl, rfl⟩

/-- The two `if` statements `mouseCallback` applies to an accumulator. -/
theorem clamp_monotone (a b : ℚ) (hab : a ≤ b) :
    (if (if a > 1 then 1 else a) < 0 then 0 else (if a > 1 then 1 else a)) ≤
      (if (if b > 1 then 1 else b) < 0 then 0 else (if b > 1 then 1 else b)) := by
  split_ifs <;> linarith

theorem clamp_id (a : ℚ) (h0 : 0 ≤ a) (h1 : a ≤ 1) :
    (if (if a > 1 then 1 else a) < 0 then 0 else (if a > 1 then 1 else a)) = a := by
  split_ifs <;> linarith

theorem mouseCallback_pad (s : GameState) (x y : ℚ) (w h : Int) :
    (mouseCallback s x y w h).padPositionX =
      (if (if s.padPositionX - s.mouseSensitivity * (x - s.lastMouseX) / (w : ℚ) > 1 then 1
            else s.padPositionX - s.mouseSensitivity * (x - s.lastMouseX) / (w : ℚ)) < 0 then 0
        else (if s.padPositionX - s.mouseSensitivity * (x - s.lastMouseX) / (w : ℚ) > 1 then 1
            else s.padPositionX - s.mouseSensitivity * (x - s.lastMouseX) / (w : ℚ))) ∧
    (mouseCallback s x y w h).padPositionZ =
      (if (if s.padPositionZ - s.mouseSensitivity * (y - s.lastMouseY) / (h : ℚ) > 1 then 1
            else s.padPositionZ - s.mouseSensitivity * (y - s.lastMouseY) / (h : ℚ)) < 0 then 0
        else (if s.padPositionZ - s.mouseSensitivity * (y - s.lastMouseY) / (h : ℚ) > 1 then 1
            else s.padPositionZ - s.mouseSensitivity * (y - s.lastMouseY) / (h : ℚ))) :=
  ⟨rfl, rfl⟩

theorem raw_accumulator_antitone (p k l a b : ℚ) (w : Int) (hk : 0 < k) (hw : 0 < w)
    (hab : a ≤ b) : p - k * (b - l) / (w : ℚ) ≤ p - k * (a - l) / (w : ℚ) := by
  have hw' : (0 : ℚ) < (w : ℚ) := by exact_mod_cast hw
  have h1 : k * (a - l) ≤ k * (b - l) := by
    apply mul_le_mul_of_nonneg_left _ (le_of_lt hk); linarith
  have h2 : k * (a - l) / (w : ℚ) ≤ k * (b - l) / (w : ℚ) :=
    div_le_div_of_nonneg_right h1 (le_of_lt hw')
  linarith

theorem bounce_snd (lo hi p d : ℚ) :
    (bounce lo hi p d).2 = if p < lo ∨ p > hi then d * (-1) else d := by
  unfold bounce
  by_cases h1 : p < lo
  · simp [h1]
  · by_cases h2 : p > hi
    · simp [h1, h2]
    · simp [h1, h2]

theorem notStartedFrame_ballDirection (cfg : Config) (s : GameState) :
    (notStartedFrame cfg s).ballDirection = s.ballDirection := by
  unfold notStartedFrame; simp only; split_ifs <;> rfl

theorem lostFrame_ballDirection (s : GameState) :
    (lostFrame s).ballDirection = s.ballDirection := by
  unfold lostFrame; split_ifs <;> rfl

theorem playingEntry_ball (cfg : Config) (inp : FrameInput) (s : GameState) :
    (playingEntry cfg inp s).ballPosition = s.ballPosition ∧
      (playingEntry cfg inp s).ballDirection = s.ballDirection := by
  rw [playingEntry_eq]; exact ⟨rfl, rfl⟩

/-- The direction a Playing frame stores. -/
theorem playing_frame_direction (cfg : Config) (inp : FrameInput) (s s' : GameState)
    (hphase : phase s = .Playing) (hok : updateFrame cfg inp s = .ok s') :
    s'.ballDirection.x =
      (if xClamped s inp.timeDelta = true then s.ballDirection.x * (-1)
        else s.ballDirection.x) ∧
    s'.ballDirection.z =
      (if zClamped s inp.timeDelta = true then s.ballDirection.z * (-1)
        else s.ballDirection.z) ∧
    s'.ballDirection.y = s.ballDirection.y := by
  obtain ⟨a, b, o, d, -, -, -, -, rfl⟩ := (updateFrame_playing_eq_ok cfg inp s s' hphase).mp hok
  rw [(moveNodes_unchanged _).2.2.2.2.2.1, playingBody_ballDirection,
    playingEntry_boxNodePosition, (playingEntry_ball _ _ _).1, (playingEntry_ball _ _ _).2]
  refine ⟨?_, ?_, rfl⟩
  · simp only [bounce_snd, xClamped, Bool.or_eq_true, decide_eq_true_eq]
  · simp only [bounce_snd, zClamped, Bool.or_eq_true, decide_eq_true_eq]

/-- A frame outside phase Playing leaves the direction as it is. -/
theorem other_frame_direction (cfg : Config) (inp : FrameInput) (s s' : GameState)
    (hphase : phase s ≠ .Playing) (hok : updateFrame cfg inp s = .ok s') :
    s'.ballDirection = s.ballDirection := by
  rcases phase_cases s with hp | hp | hp | hp
  · rw [updateFrame_notStarted cfg inp s hp] at hok
    injection hok with hok
    subst hok
    rw [(moveNodes_unchanged _).2.2.2.2.2.1, notStartedFrame_ballDirection, sampleButtons_eq]
  · rw [updateFrame_lost cfg inp s hp] at hok
    injection hok with hok
    subst hok
    rw [(moveNodes_unchanged _).2.2.2.2.2.1, lostFrame_ballDirection,
      (started_entry_unchanged _ _ _).2.1]
  · rw [updateFrame_paused cfg inp s hp] at hok
    injection hok with hok
    subst hok
    rw [(moveNodes_unchanged _).2.2.2.2.2.1, (pausedFrame_unchanged _ _).2.1,
      (started_entry_unchanged _ _ _).2.1]
  · exact absurd hp hphase

theorem run_direction_x (cfg : Config) (inps : List FrameInput) :
    ∀ (s s' : GameState), runFrames cfg inps s = .ok s' →
      s'.ballDirection.x = s.ballDirection.x * (-1) ^ xClampCount cfg inps s := by
  induction inps with
  | nil =>
    intro s s' h
    simp only [runFrames, Except.ok.injEq] at h
    subst h
    simp [xClampCount]
  | cons inp rest ih =>
    intro s s' h
    cases hstep : updateFrame cfg inp s with
    | error e => simp [runFrames, hstep] at h
    | ok s1 =>
      simp only [runFrames, hstep] at h
      rw [ih s1 s' h]
      simp only [xClampCount, hstep]
      by_cases hp : phase s = .Playing
      · rw [(playing_frame_direction cfg inp s s1 hp hstep).1]
        by_cases hc : xClamped s inp.timeDelta = true
        · simp [hp, hc, pow_add]
        · simp [hp, hc]
      · rw [other_frame_direction cfg inp s s1 hp hstep]
        simp [hp]

theorem run_direction_z (cfg : Config) (inps : List FrameInput) :
    ∀ (s s' : GameState), runFrames cfg inps s = .ok s' →
      s'.ballDirection.z = s.ballDirection.z * (-1) ^ zClampCount cfg inps s := by
  induction inps with
  | nil =>
    intro s s' h
    simp only [runFrames, Except.ok.injEq] at h
    subst h
    simp [zClampCount]
  | cons inp rest ih =>
    intro s s' h
    cases hstep : updateFrame cfg inp s with
    | error e => simp [runFrames, hstep] at h
    | ok s1 =>
      simp only [runFrames, hstep] at h
      rw [ih s1 s' h]
      simp only [zClampCount, hstep]
      by_cases hp : phase s = .Playing
      · rw [(playing_frame_direction cfg inp s s1 hp hstep).2.1]
        by_cases hc : zClamped s inp.timeDelta = true
        · simp [hp, hc, pow_add]
        · simp [hp, hc]
      · rw [other_frame_direction cfg inp s s1 hp hstep]
        simp [hp]

theorem run_direction_y (cfg : Config) (inps : List FrameInput) :
    ∀ (s s' : GameState), runFrames cfg inps s = .ok s' →
      s'.ballDirection.y = s.ballDirection.y := by
  induction inps with
  | nil =>
    intro s s' h
    simp only [runFrames, Except.ok.injEq] at h
    subst h
    rfl
  | cons inp rest ih =>
    intro s s' h
    cases hstep : updateFrame cfg inp s with
    | error e => simp [runFrames, hstep] at h
    | ok s1 =>
      simp only [runFrames, hstep] at h
      rw [ih s1 s' h]
      by_cases hp : phase s = .Playing
      · exact (playing_frame_direction cfg inp s s1 hp hstep).2.2
      · rw [other_frame_direction cfg inp s s1 hp hstep]

theorem bounce_fst (lo hi p d : ℚ) :
    (bounce lo hi p d).1 = if p < lo then lo else if p > hi then hi else p := by
  unfold bounce
  by_cases h1 : p < lo
  · simp [h1]
  · by_cases h2 : p > hi
    · simp [h1, h2]
    · simp [h1, h2]

theorem bouncedOnce_scan :
    scannedKeyFrame scenarioConfig (playingEntry scenarioConfig ⟨2, false, false⟩
      scenarioPlaying) = 2 := by
  rw [playingEntry_eq]
  norm_num [scannedKeyFrame, scenarioConfig, scenarioPlaying, initialState, scenarioTimeStamps,
    debug_startTime]
  repeat (rw [scanKeyFrames]; norm_num)

theorem bouncedOnce_frame :
    updateFrame scenarioConfig ⟨2, false, false⟩ scenarioPlaying = .ok bouncedOnce := by
  refine (updateFrame_playing_eq_ok scenarioConfig ⟨2, false, false⟩ scenarioPlaying _
    rfl).mpr ⟨2, 1000000000, .BOTTOM, .BOTTOM, ?_, ?_, ?_, ?_, ?_⟩
  · rw [bouncedOnce_scan]; rfl
  · rw [bouncedOnce_scan]; rfl
  · rw [bouncedOnce_scan]; rfl
  · rw [bouncedOnce_scan]; rfl
  · rw [bouncedOnce_scan]; rfl

theorem bouncedOnce_facts :
    phase bouncedOnce = .Playing ∧ bouncedOnce.gameElapsedTime = 2 ∧
    bouncedOnce.currentKeyFrame = 2 ∧ bouncedOnce.ballPosition.x = 87 ∧
    bouncedOnce.ballDirection.x = -1 ∧ bouncedOnce.boxNodePosition = ⟨0, -10, -80⟩ := by
  have hu := playingBody_unchanged scenarioConfig 2
    (playingEntry scenarioConfig ⟨2, false, false⟩ scenarioPlaying) 2 2 1000000000
    .BOTTOM .BOTTOM
  have hf := playingEntry_flags scenarioConfig ⟨2, false, false⟩ scenarioPlaying
  have hk := playingBody_currentKeyFrame scenarioConfig 2
    (playingEntry scenarioConfig ⟨2, false, false⟩ scenarioPlaying) 2 2 1000000000
    .BOTTOM .BOTTOM
  have hd := (playing_frame_direction scenarioConfig ⟨2, false, false⟩ scenarioPlaying _ rfl
    bouncedOnce_frame).1
  refine ⟨(phase_playing_iff _).mpr ⟨?_, ?_, ?_⟩, ?_, ?_, ?_, ?_, rfl⟩
  · unfold bouncedOnce
    rw [(moveNodes_flags _).2.1, hu.1, hf.2.1]; rfl
  · unfold bouncedOnce
    rw [(moveNodes_flags _).1, playingBody_hasLost, hf.1]; rfl
  · unfold bouncedOnce
    rw [(moveNodes_flags _).2.2, hu.2.1, hf.2.2.2]; rfl
  · unfold bouncedOnce
    rw [(moveNodes_unchanged _).1, hu.2.2.1, playingEntry_gameElapsedTime]
    norm_num [scenarioPlaying, initialState, debug_startTime]
  · unfold bouncedOnce
    rw [moveNodes_currentKeyFrame, hk.1]
  · unfold bouncedOnce
    rw [moveNodes_ballPosition, playingBody_ballPosition, playingEntry_boxNodePosition,
      (playingEntry_ball _ _ _).1, (playingEntry_ball _ _ _).2, bounce_fst]
    norm_num [scenarioPlaying, initialState, ballMinX, ballMaxX, boxDimensions, ballRadius,
      ballSpeed, movedCoordinate]
  · rw [hd]
    norm_num [xClamped, scenarioPlaying, initialState, ballMinX, ballMaxX, boxDimensions,
      ballRadius, ballSpeed, movedCoordinate]

theorem bouncedTwice_scan :
    scannedKeyFrame scenarioConfig (playingEntry scenarioConfig ⟨4, false, false⟩
      bouncedOnce) = 2 := by
  obtain ⟨-, h2, h3, -⟩ := bouncedOnce_facts
  rw [scannedKeyFrame_playingEntry, h2, h3]
  norm_num [scenarioConfig, scenarioTimeStamps]
  repeat (rw [scanKeyFrames]; norm_num)

theorem bouncedTwice_frame :
    updateFrame scenarioConfig ⟨4, false, false⟩ bouncedOnce = .ok bouncedTwice := by
  refine (updateFrame_playing_eq_ok scenarioConfig ⟨4, false, false⟩ bouncedOnce _
    bouncedOnce_facts.1).mpr ⟨2, 1000000000, .BOTTOM, .BOTTOM, ?_, ?_, ?_, ?_, ?_⟩
  · rw [bouncedTwice_scan]; rfl
  · rw [bouncedTwice_scan]; rfl
  · rw [bouncedTwice_scan]; rfl
  · rw [bouncedTwice_scan]; rfl
  · rw [bouncedTwice_scan]; rfl

theorem runFrames_cons_ok (cfg : Config) (inp : FrameInput) (rest : List FrameInput)
    (s s' : GameState) (h : updateFrame cfg inp s = .ok s') :
    runFrames cfg (inp :: rest) s = runFrames cfg rest s' := by
  simp only [runFrames, h]

theorem xClampCount_cons_ok (cfg : Config) (inp : FrameInput) (rest : List FrameInput)
    (s s' : GameState) (h : updateFrame cfg inp s = .ok s') :
    xClampCount cfg (inp :: rest) s =
      (if phase s = .Playing ∧ xClamped s inp.timeDelta = true then 1 else 0) +
        xClampCount cfg rest s' := by
  simp only [xClampCount, h]

theorem two_bounce_run :
    runFrames scenarioConfig [⟨2, false, false⟩, ⟨4, false, false⟩] scenarioPlaying
      = .ok bouncedTwice ∧
    xClampCount scenarioConfig [⟨2, false, false⟩, ⟨4, false, false⟩] scenarioPlaying = 2 := by
  obtain ⟨hp, -, -, hx, hd, hb⟩ := bouncedOnce_facts
  have c1 : xClamped scenarioPlaying 2 = true := by
    norm_num [xClamped, scenarioPlaying, initialState, ballMinX, ballMaxX, boxDimensions,
      ballRadius, ballSpeed, movedCoordinate]
  have c2 : xClamped bouncedOnce 4 = true := by
    unfold xClamped
    rw [hx, hd, hb]
    norm_num [ballMinX, ballMaxX, boxDimensions, ballRadius, ballSpeed, movedCoordinate]
  have p0 : phase scenarioPlaying = .Playing := rfl
  constructor
  · rw [runFrames_cons_ok _ _ _ _ _ bouncedOnce_frame,
      runFrames_cons_ok _ _ _ _ _ bouncedTwice_frame]
    simp only [runFrames]
  · rw [xClampCount_cons_ok _ _ _ _ _ bouncedOnce_frame,
      xClampCount_cons_ok _ _ _ _ _ bouncedTwice_frame, if_pos ⟨p0, c1⟩, if_pos ⟨hp, c2⟩]
    simp only [xClampCount]

/-! ### A move that ends within rounding distance of the wall -/

/-- From `x = 57` with direction `1` a frame of `1/2 + 2 ^ (-53)` seconds has
the exact sum `x + timeDelta * ballSpeed * direction` above `ballMaxX = 87`;
the product is the `double` `30 + 2 ^ (-47)`, the `double` sum is the tie
`87 + 2 ^ (-47)` rounded to `87`, and the `float` stored is `87`. -/
theorem movedCoordinate_wall :
    ballMaxX ⟨0, -10, -80⟩ < 57 + wallDelta * ballSpeed * 1 ∧
    movedCoordinate 57 wallDelta 1 = 87 := by
  have h1 : roundDouble (67553994410557455 / 2251799813685248) =
      4222124650659841 / 140737488355328 := by
    have := roundBinary_of_near 53 (-1074) (x := 67553994410557455 / 2251799813685248) 4
      (-48) (30 * 2 ^ 48 + 2) (by norm_num) (by norm_num) (by decide) (by norm_num)
      (by norm_num)
    rw [roundDouble, this]; norm_num
  have h2 : roundDouble (4222124650659841 / 140737488355328) =
      4222124650659841 / 140737488355328 := by
    have := roundDouble_of_representable 4222124650659841 47 (by norm_num) (by norm_num)
    norm_num at this ⊢
    exact this
  have h3 : roundDouble (12244161486913537 / 140737488355328) = 87 := by
    have := roundBinary_of_tie 53 (-1074) (x := 12244161486913537 / 140737488355328) 6
      (-46) (87 * 2 ^ 46) (by norm_num) (by norm_num) (by decide) (by decide)
      (Or.inl (by norm_num))
    rw [roundDouble, this]; norm_num
  constructor
  · norm_num [ballMaxX, boxDimensions, ballRadius, wallDelta, ballSpeed]
  · unfold movedCoordinate wallDelta ballSpeed
    norm_num [h1, h2, h3]

theorem wall_scan :
    scannedKeyFrame scenarioConfig (playingEntry scenarioConfig ⟨wallDelta, false, false⟩
      wallPlaying) = 0 := by
  rw [playingEntry_eq]
  norm_num [scannedKeyFrame, scenarioConfig, wallPlaying, scenarioPlaying, initialState,
    scenarioTimeStamps, debug_startTime, wallDelta]
  repeat (rw [scanKeyFrames]; norm_num)

theorem wall_frame :
    updateFrame scenarioConfig ⟨wallDelta, false, false⟩ wallPlaying =
      .ok (moveNodes (playingBody scenarioConfig wallDelta
        (playingEntry scenarioConfig ⟨wallDelta, false, false⟩ wallPlaying) 0 0 1
        .BOTTOM .TOP)) := by
  refine (updateFrame_playing_eq_ok scenarioConfig ⟨wallDelta, false, false⟩ wallPlaying _
    rfl).mpr ⟨0, 1, .BOTTOM, .TOP, ?_, ?_, ?_, ?_, ?_⟩
  · rw [wall_scan]; rfl
  · rw [wall_scan]; rfl
  · rw [wall_scan]; rfl
  · rw [wall_scan]; rfl
  · rw [wall_scan]

theorem wall_not_clamped : xClamped wallPlaying wallDelta = false := by
  have h := movedCoordinate_wall.2
  have e1 : wallPlaying.ballPosition.x = 57 := rfl
  have e2 : wallPlaying.ballDirection.x = 1 := rfl
  have e3 : wallPlaying.boxNodePosition = ⟨0, -10, -80⟩ := rfl
  unfold xClamped
  rw [e1, e2, e3, h]
  norm_num [ballMinX, ballMaxX, boxDimensions, ballRadius]

mutual
theorem updateNodeTransformations_idem (trig : Trig) (w h : Int) :
    ∀ (n : SceneNode) (M P : Mat4),
      updateNodeTransformations trig w h (updateNodeTransformations trig w h n M P) M P =
        updateNodeTransformations trig w h n M P
  | .node d cs, M, P => by
    rw [updateNodeTransformations_node, updateNodeTransformations_node]
    simp only [transformationMatrix_update]
    rw [updateChildren_idem trig w h cs]
theorem updateChildren_idem (trig : Trig) (w h : Int) :
    ∀ (cs : List SceneNode) (M P : Mat4),
      updateChildren trig w h (updateChildren trig w h cs M P) M P =
        updateChildren trig w h cs M P
  | [], M, P => by simp [updateChildren]
  | c :: cs, M, P => by
    simp only [updateChildren]
    rw [updateNodeTransformations_idem trig w h c, updateChildren_idem trig w h cs]
end

mutual
theorem eraseMatrices_update (trig : Trig) (w h : Int) :
    ∀ (n : SceneNode) (M P : Mat4),
      eraseMatrices (updateNodeTransformations trig w h n M P) = eraseMatrices n
  | .node d cs, M, P => by
    rw [updateNodeTransformations_node]
    simp only [eraseMatrices]
    rw [eraseMatricesList_update trig w h cs]
theorem eraseMatricesList_update (trig : Trig) (w h : Int) :
    ∀ (cs : List SceneNode) (M P : Mat4),
      eraseMatricesList (updateChildren trig w h cs M P) = eraseMatricesList cs
  | [], M, P => by simp [updateChildren, eraseMatricesList]
  | c :: cs, M, P => by
    simp only [updateChildren, eraseMatricesList]
    rw [eraseMatrices_update trig w h c, eraseMatricesList_update trig w h cs]
end

/-- C15: for every scene tree and inherited matrices `M`, `P`, running
`updateNodeTransformations (root, M, P)` a second time right after the first
gives the same tree, so every node has the same `currentModelMatrix` and
`currentMVPMatrix` after both calls; and one call leaves the shape of the tree
and every node field other than these two matrices as they were. -/
theorem transform_propagation_idempotent (trig : Trig) (windowWidth windowHeight : Int)
    (root : SceneNode) (M P : Mat4) :
    updateNodeTransformations trig windowWidth windowHeight
        (updateNodeTransformations trig windowWidth windowHeight root M P) M P =
      updateNodeTransformations trig windowWidth windowHeight root M P ∧
    eraseMatrices (updateNodeTransformations trig windowWidth windowHeight root M P) =
      eraseMatrices root :=
  ⟨updateNodeTransformations_idem trig windowWidth windowHeight root M P,
    eraseMatrices_update trig windowWidth windowHeight root M P⟩

/-! ## C19: the pivot -/

theorem translate_mulVec (v : Vec3) (a b c : ℚ) :
    Matrix.mulVec (translate v) ![a, b, c, 1] = ![v.x + a, v.y + b, v.z + c, 1] := by
  unfold translate
  ext i
  fin_cases i <;> simp [Matrix.mulVec, Matrix.dotProduct, Fin.sum_univ_four] <;> ring

theorem scale_mulVec_origin (v : Vec3) :
    Matrix.mulVec (scale v) ![0, 0, 0, 1] = ![0, 0, 0, 1] := by
  unfold scale
  ext i
  fin_cases i <;> simp [Matrix.mulVec, Matrix.dotProduct, Fin.sum_univ_four]

theorem rotateX_mulVec_origin (trig : Trig) (a : ℚ) :
    Matrix.mulVec (rotateX trig a) ![0, 0, 0, 1] = ![0, 0, 0, 1] := by
  unfold rotateX
  ext i
  fin_cases i <;> simp [Matrix.mulVec, Matrix.dotProduct, Fin.sum_univ_four]

theorem rotateY_mulVec_origin (trig : Trig) (a : ℚ) :
    Matrix.mulVec (rotateY trig a) ![0, 0, 0, 1] = ![0, 0, 0, 1] := by
  unfold rotateY
  ext i
  fin_cases i <;> simp [Matrix.mulVec, Matrix.dotProduct, Fin.sum_univ_four]

theorem rotateZ_mulVec_origin (trig : Trig) (a : ℚ) :
    Matrix.mulVec (rotateZ trig a) ![0, 0, 0, 1] = ![0, 0, 0, 1] := by
  unfold rotateZ
  ext i
  fin_cases i <;> simp [Matrix.mulVec, Matrix.dotProduct, Fin.sum_univ_four]

/-- C19: for every node (position `p`, reference point `r`, any rotation
angles, any scale, any cosine and sine) the local transform
`T(p) * T(r) * Ry * Rx * Rz * S * T(-r)` of `updateNodeTransformations` maps the
homogeneous point `(r, 1)` to `(p + r, 1)`. -/
theorem reference_point_is_pivot (trig : Trig) (d : NodeData) :
    Matrix.mulVec (transformationMatrix trig d)
        ![d.referencePoint.x, d.referencePoint.y, d.referencePoint.z, 1] =
      ![d.position.x + d.referencePoint.x, d.position.y + d.referencePoint.y,
        d.position.z + d.referencePoint.z, 1] := by
  unfold transformationMatrix
  simp only [← Matrix.mulVec_mulVec]
  rw [translate_mulVec]
  have h0 : (![d.referencePoint.neg.x + d.referencePoint.x,
      d.referencePoint.neg.y + d.referencePoint.y,
      d.referencePoint.neg.z + d.referencePoint.z, 1] : Fin 4 → ℚ) = ![0, 0, 0, 1] := by
    simp [Vec3.neg]
  rw [h0, scale_mulVec_origin, rotateZ_mulVec_origin, rotateX_mulVec_origin,
    rotateY_mulVec_origin, translate_mulVec, translate_mulVec]
  simp

/-! ## C16: render order and shading flags -/

theorem issuedDraws_append (a b : List GLCall) :
    ∀ st : GLState, issuedDraws st (a ++ b) = issuedDraws st a ++ issuedDraws (a.foldl glStep st) b := by
  induction a with
  | nil => intro st; simp [issuedDraws]
  | cons c cs ih =>
    intro st
    cases c <;> simp [issuedDraws, ih, glStep]

theorem renderNode_node (d : NodeData) (cs : List SceneNode) :
    renderNode (.node d cs) =
      ([.uniformMatrix4fv 3 d.currentMVPMatrix,
        .uniformMatrix4fv 4 d.currentModelMatrix,
        .uniformMatrix3fv 5 (normalTransform d.currentModelMatrix)] ++
      (match d.nodeType with
        | .GEOMETRY =>
          [.uniform1ui 8 ShaderFlags.PhongLighting] ++ drawIfPresent d
        | .POINT_LIGHT => []
        | .SPOT_LIGHT => []
        | .GEOMETRY_2D =>
          [.bindTextureUnit 0 d.texId, .uniform1ui 8 ShaderFlags.Text] ++ drawIfPresent d
        | .GEOMETRY_NORMAL_MAP =>
          [.bindTextureUnit 0 d.texId, .bindTextureUnit 1 d.normalMapTexId,
           .uniform1ui 8
             (ShaderFlags.or (ShaderFlags.or ShaderFlags.PhongLighting ShaderFlags.DiffuseMap)
               ShaderFlags.NormalMap)] ++ drawIfPresent d)) ++
      renderChildren cs := by
  rw [renderNode]

theorem shaderFlags_values :
    ShaderFlags.PhongLighting = 1 ∧ ShaderFlags.Text = 2 ∧
    ShaderFlags.or (ShaderFlags.or ShaderFlags.PhongLighting ShaderFlags.DiffuseMap)
      ShaderFlags.NormalMap = 13 := by
  decide

/-- The draws of a node's own calls, from any state. -/
theorem own_draws (d : NodeData) (st : GLState) :
    issuedDraws st
      ([.uniformMatrix4fv 3 d.currentMVPMatrix,
        .uniformMatrix4fv 4 d.currentModelMatrix,
        .uniformMatrix3fv 5 (normalTransform d.currentModelMatrix)] ++
      (match d.nodeType with
        | .GEOMETRY =>
          [.uniform1ui 8 ShaderFlags.PhongLighting] ++ drawIfPresent d
        | .POINT_LIGHT => []
        | .SPOT_LIGHT => []
        | .GEOMETRY_2D =>
          [.bindTextureUnit 0 d.texId, .uniform1ui 8 ShaderFlags.Text] ++ drawIfPresent d
        | .GEOMETRY_NORMAL_MAP =>
          [.bindTextureUnit 0 d.texId, .bindTextureUnit 1 d.normalMapTexId,
           .uniform1ui 8
             (ShaderFlags.or (ShaderFlags.or ShaderFlags.PhongLighting ShaderFlags.DiffuseMap)
               ShaderFlags.NormalMap)] ++ drawIfPresent d)) =
      if isDrawn d = true then [contractDraw d] else [] := by
  obtain ⟨f1, f2, f3⟩ := shaderFlags_values
  rw [f3, f1, f2]
  by_cases hv : d.vertexArrayObjectID = -1 <;> cases hk : d.nodeType <;>
    simp [issuedDraws, glStep, drawIfPresent, isDrawn, contractDraw, contractFlags, hv, hk]

mutual
theorem renderNode_draws :
    ∀ (n : SceneNode) (st : GLState),
      issuedDraws st (renderNode n) = ((preorder n).filter isDrawn).map contractDraw
  | .node d cs, st => by
    rw [renderNode_node, issuedDraws_append, own_draws, renderChildren_draws cs]
    simp only [preorder, List.filter_cons]
    by_cases hd : isDrawn d = true
    · simp [hd]
    · simp [hd]
theorem renderChildren_draws :
    ∀ (cs : List SceneNode) (st : GLState),
      issuedDraws st (renderChildren cs) = ((preorderList cs).filter isDrawn).map contractDraw
  | [], st => by simp [renderChildren, preorderList, issuedDraws]
  | c :: cs, st => by
    simp only [renderChildren, preorderList]
    rw [issuedDraws_append, renderNode_draws c, renderChildren_draws cs]
    simp
end

/-- C16: for every finite scene tree and whatever the OpenGL state before the
call, the indexed draws issued by `renderNode (root)` are, in order, one draw
for each node of the pre-order traversal (parent before children, siblings in
insertion order) that has a drawable (`vertexArrayObjectID != -1`) and is not
a light; each draw is issued with that node's vertex array bound, with its
index count, and with the flag uniform at the value of its kind: `GEOMETRY`
`PhongLighting` (1), `GEOMETRY_2D` `Text` (2), `GEOMETRY_NORMAL_MAP`
`PhongLighting | DiffuseMap | NormalMap` (13). -/
theorem render_order_and_flags (root : SceneNode) (st : GLState) :
    issuedDraws st (renderNode root) = ((preorder root).filter isDrawn).map contractDraw ∧
    (∀ d : NodeData, isDrawn d = true ↔
      (d.vertexArrayObjectID ≠ -1 ∧ d.nodeType ≠ .POINT_LIGHT ∧ d.nodeType ≠ .SPOT_LIGHT)) ∧
    (∀ d : NodeData, (contractDraw d).array = d.vertexArrayObjectID ∧
      (contractDraw d).count = d.VAOIndexCount ∧
      (d.nodeType = .GEOMETRY → (contractDraw d).flags = ShaderFlags.PhongLighting) ∧
      (d.nodeType = .GEOMETRY_2D → (contractDraw d).flags = ShaderFlags.Text) ∧
      (d.nodeType = .GEOMETRY_NORMAL_MAP → (contractDraw d).flags =
        ShaderFlags.or (ShaderFlags.or ShaderFlags.PhongLighting ShaderFlags.DiffuseMap)
          ShaderFlags.NormalMap)) ∧
    ShaderFlags.PhongLighting = 1 ∧ ShaderFlags.Text = 2 ∧
    ShaderFlags.or (ShaderFlags.or ShaderFlags.PhongLighting ShaderFlags.DiffuseMap)
      ShaderFlags.NormalMap = 13 := by
  obtain ⟨f1, f2, f3⟩ := shaderFlags_values
  refine ⟨renderNode_draws root st, ?_, ?_, f1, f2, f3⟩
  · intro d
    simp [isDrawn, and_assoc]
  · intro d
    refine ⟨rfl, rfl, ?_, ?_, ?_⟩
    · intro h; simp [contractDraw, contractFlags, h, f1]
    · intro h; simp [contractDraw, contractFlags, h, f2]
    · intro h; simp [contractDraw, contractFlags, h, f3]

/-! ## C17: the start transition -/

theorem notStartedFrame_buttons (cfg : Config) (s : GameState) :
    (notStartedFrame cfg s).mouseLeftPressed = s.mouseLeftPressed ∧
      (notStartedFrame cfg s).mouseRightPressed = s.mouseRightPressed := by
  unfold notStartedFrame; simp only; split_ifs <;> exact ⟨rfl, rfl⟩

theorem pausedFrame_buttons (cfg : Config) (s : GameState) :
    (pausedFrame cfg s).mouseLeftPressed = s.mouseLeftPressed ∧
      (pausedFrame cfg s).mouseRightPressed = s.mouseRightPressed := by
  unfold pausedFrame; simp only; split_ifs <;> exact ⟨rfl, rfl⟩

/-- After a frame, `mouseLeftPressed` is that frame's raw sample of the primary
button. -/
theorem updateFrame_mouseLeftPressed (cfg : Config) (inp : FrameInput) (s s' : GameState)
    (hok : updateFrame cfg inp s = .ok s') : s'.mouseLeftPressed = inp.button1 := by
  rcases phase_cases s with hp | hp | hp | hp
  · rw [updateFrame_notStarted cfg inp s hp] at hok
    injection hok with hok
    subst hok
    rw [(moveNodes_unchanged _).2.2.2.1, (notStartedFrame_buttons _ _).1,
      (sampleButtons_flags _ _).2.2.2]
  · rw [updateFrame_lost cfg inp s hp] at hok
    injection hok with hok
    subst hok
    rw [(moveNodes_unchanged _).2.2.2.1, (lostFrame_flags _).2.2.2.1,
      (lost_entry_flags _ _ _).2.2.2.1]
  · rw [updateFrame_paused cfg inp s hp] at hok
    injection hok with hok
    subst hok
    rw [(moveNodes_unchanged _).2.2.2.1, (pausedFrame_buttons _ _).1,
      (lost_entry_flags _ _ _).2.2.2.1]
  · obtain ⟨a, b, o, d, -, -, -, -, rfl⟩ := (updateFrame_playing_eq_ok cfg inp s s' hp).mp hok
    rw [(moveNodes_unchanged _).2.2.2.1, (playingBody_unchanged _ _ _ _ _ _ _ _).2.2.2.2.1,
      playingEntry_eq]

/-- In every state of a run that is not started, the primary button was not
held at the last sample. -/
theorem reachable_notStarted_button_up (cfg : Config) (w h : Int) (s : GameState)
    (hr : Reachable cfg w h s) : s.hasStarted = false → s.mouseLeftPressed = false := by
  induction hr with
  | init => intro _; rfl
  | mouse x y w' h' s _ ih => exact ih
  | frame inp s s' _ hok ih =>
    intro hns
    rw [updateFrame_mouseLeftPressed cfg inp s s' hok]
    rcases phase_cases s with hp | hp | hp | hp
    · rw [updateFrame_notStarted cfg inp s hp] at hok
      injection hok with hok
      subst hok
      rw [(moveNodes_flags _).2.1, (notStartedFrame_flags _ _).1, (sampleButtons_flags _ _).1,
        (sampleButtons_flags _ _).2.2.2] at hns
      cases hb : inp.button1
      · rfl
      · rw [hb] at hns; simp at hns
    · rw [updateFrame_lost cfg inp s hp] at hok
      injection hok with hok
      subst hok
      obtain ⟨hs, -⟩ := (phase_lost_iff s).mp hp
      rw [(moveNodes_flags _).2.1, (lostFrame_flags _).1, (lost_entry_flags _ _ _).1,
        (lost_entry_flags _ _ _).2.2.2.2.1, hs] at hns
      cases hb : inp.button1
      · rfl
      · rw [hb] at hns; simp at hns
    · rw [updateFrame_paused cfg inp s hp] at hok
      injection hok with hok
      subst hok
      obtain ⟨hs, -, -⟩ := (phase_paused_iff s).mp hp
      rw [(moveNodes_flags _).2.1, (pausedFrame_flags _ _).1, (lost_entry_flags _ _ _).1, hs]
        at hns
      exact absurd hns (by decide)
    · obtain ⟨a, b, o, d, -, -, -, -, rfl⟩ := (updateFrame_playing_eq_ok cfg inp s s' hp).mp hok
      obtain ⟨hs, -, -⟩ := (phase_playing_iff s).mp hp
      rw [(moveNodes_flags _).2.1, (playingBody_unchanged _ _ _ _ _ _ _ _).1,
        (playingEntry_flags _ _ _).2.1, hs] at hns
      exact absurd hns (by decide)

/-- A frame that takes a state from not started to started has the primary
button held. -/
theorem start_needs_button (cfg : Config) (inp : FrameInput) (s s' : GameState)
    (hns : s.hasStarted = false) (hok : updateFrame cfg inp s = .ok s')
    (hst : s'.hasStarted = true) : inp.button1 = true := by
  rw [updateFrame_notStarted cfg inp s ((phase_notStarted_iff s).mpr hns)] at hok
  injection hok with hok
  subst hok
  rw [(moveNodes_flags _).2.1, (notStartedFrame_flags _ _).1, (sampleButtons_flags _ _).1,
    (sampleButtons_flags _ _).2.2.2, hns] at hst
  simpa using hst

theorem runFrames_append (cfg : Config) (xs ys : List FrameInput) :
    ∀ s : GameState, runFrames cfg (xs ++ ys) s =
      match runFrames cfg xs s with
      | .ok s1 => runFrames cfg ys s1
      | .error e => .error e := by
  induction xs with
  | nil => intro s; rfl
  | cons x xs ih =>
    intro s
    simp only [List.cons_append, runFrames]
    cases hstep : updateFrame cfg x s with
    | error e => rfl
    | ok s1 => exact ih s1

theorem reachable_of_run (cfg : Config) (w h : Int) (inps : List FrameInput) :
    ∀ s s' : GameState, Reachable cfg w h s → runFrames cfg inps s = .ok s' →
      Reachable cfg w h s' := by
  induction inps with
  | nil =>
    intro s s' hr hrun
    simp only [runFrames, Except.ok.injEq] at hrun
    subst hrun
    exact hr
  | cons x xs ih =>
    intro s s' hr hrun
    cases hstep : updateFrame cfg x s with
    | error e => simp [runFrames, hstep] at hrun
    | ok s1 =>
      simp only [runFrames, hstep] at hrun
      exact ih s1 s' (Reachable.frame x s s1 hr hstep) hrun

/-- C17: in every run from the initial state (frame updates with any button
samples and time deltas, pointer callbacks in between), a frame that takes the
game from not started to started has the primary button held now, and the
button was not held at the previous sample: the stored `mouseLeftPressed` is
`false`, and it is the previous frame's raw sample. In a run of frames, the
frame before the starting frame sampled the button up. -/
theorem start_transition_is_edge_triggered (cfg : Config) (windowWidth windowHeight : Int) :
    (∀ (inp : FrameInput) (s s' : GameState), Reachable cfg windowWidth windowHeight s →
      s.hasStarted = false → updateFrame cfg inp s = .ok s' → s'.hasStarted = true →
      inp.button1 = true ∧ s.mouseLeftPressed = false) ∧
    (∀ (inp : FrameInput) (s s' : GameState), updateFrame cfg inp s = .ok s' →
      s'.mouseLeftPressed = inp.button1) ∧
    (∀ (s : GameState) (x y : ℚ) (w h : Int),
      (mouseCallback s x y w h).mouseLeftPressed = s.mouseLeftPressed) ∧
    (∀ (inps : List FrameInput) (prev cur : FrameInput) (s s' : GameState),
      runFrames cfg (inps ++ [prev]) (initialState windowWidth windowHeight) = .ok s →
      s.hasStarted = false → updateFrame cfg cur s = .ok s' → s'.hasStarted = true →
      cur.button1 = true ∧ prev.button1 = false) := by
  refine ⟨?_, updateFrame_mouseLeftPressed cfg, fun _ _ _ _ _ => rfl, ?_⟩
  · intro inp s s' hr hns hok hst
    exact ⟨start_needs_button cfg inp s s' hns hok hst,
      reachable_notStarted_button_up cfg windowWidth windowHeight s hr hns⟩
  · intro inps prev cur s s' hrun hns hok hst
    have hr : Reachable cfg windowWidth windowHeight s :=
      reachable_of_run cfg windowWidth windowHeight _ _ _ Reachable.init hrun
    refine ⟨start_needs_button cfg cur s s' hns hok hst, ?_⟩
    rw [runFrames_append] at hrun
    cases hpre : runFrames cfg inps (initialState windowWidth windowHeight) with
    | error e => simp [hpre] at hrun
    | ok s0 =>
      simp only [hpre, runFrames] at hrun
      cases hstep : updateFrame cfg prev s0 with
      | error e => simp [hstep] at hrun
      | ok s1 =>
        simp only [hstep, Except.ok.injEq] at hrun
        subst hrun
        rw [← updateFrame_mouseLeftPressed cfg prev s0 s1 hstep]
        exact reachable_notStarted_button_up cfg windowWidth windowHeight s1 hr hns

theorem idleOnce_run :
    runFrames scenarioConfig ([] ++ [⟨0, false, false⟩]) (initialState 1366 768)
      = .ok idleOnce := by
  have h : updateFrame scenarioConfig ⟨0, false, false⟩ (initialState 1366 768) = .ok idleOnce :=
    updateFrame_notStarted _ _ _ rfl
  simp only [List.nil_append, runFrames, h]

/-- C17 on the run "one idle frame, then a frame with the primary button
held": the second frame starts the game, its sample is held, the sample of
the frame before was up and the stored flag was clear. -/
theorem start_transition_is_edge_triggered_witness :
    ∃ s', updateFrame scenarioConfig ⟨0, true, false⟩ idleOnce = .ok s' ∧
      s'.hasStarted = true ∧ idleOnce.hasStarted = false ∧
      idleOnce.mouseLeftPressed = false ∧
      (⟨0, true, false⟩ : FrameInput).button1 = true ∧
      (⟨0, false, false⟩ : FrameInput).button1 = false := by
  have hns : idleOnce.hasStarted = false := rfl
  obtain ⟨s', hok, hst, -⟩ :=
    notStarted_press scenarioConfig ⟨0, true, false⟩ idleOnce
      ((phase_notStarted_iff _).mpr hns) rfl
  have hthm := start_transition_is_edge_triggered scenarioConfig 1366 768
  have h1 := hthm.1 ⟨0, true, false⟩ idleOnce s'
    (reachable_of_run scenarioConfig 1366 768 _ _ _ Reachable.init idleOnce_run) hns hok hst
  have h4 := hthm.2.2.2 [] ⟨0, false, false⟩ ⟨0, true, false⟩ idleOnce s' idleOnce_run hns hok hst
  exact ⟨s', hok, hst, hns, h1.2, h4.1, h4.2⟩

/-! ## C18: keyframe exhaustion -/

theorem scanKeyFrames_out_of_table (ts : List ℚ) (t : ℚ) (p : Nat) (hp : ts.length ≤ p) :
    scanKeyFrames ts t p p = p := by
  rw [scanKeyFrames, dif_neg (by omega)]

theorem lookup_some_iff {α : Type} (l : List α) (i : Nat) : (∃ a, l[i]? = some a) ↔ i < l.length := by
  constructor
  · rintro ⟨a, h⟩
    by_contra hcon
    rw [List.getElem?_eq_none (by omega)] at h
    exact absurd h (by simp)
  · intro h
    exact ⟨l[i], List.getElem?_eq_getElem h⟩

theorem lookup_none_iff {α : Type} (l : List α) (i : Nat) : l[i]? = none ↔ l.length ≤ i := by
  constructor
  · intro h
    by_contra hcon
    rw [List.getElem?_eq_getElem (by omega)] at h
    exact absurd h (by simp)
  · intro h
    exact List.getElem?_eq_none h

/-- A Playing frame either returns or raises `out_of_range`, and it raises
exactly when one of its four lookups is out of the table. -/
theorem updateFrame_playing_error_iff (cfg : Config) (inp : FrameInput) (s : GameState)
    (hphase : phase s = .Playing) :
    updateFrame cfg inp s = .error .out_of_range ↔
      ¬ (scannedKeyFrame cfg (playingEntry cfg inp s) < cfg.keyFrameTimeStamps.length ∧
        nextKeyFrame (scannedKeyFrame cfg (playingEntry cfg inp s))
          < cfg.keyFrameTimeStamps.length ∧
        scannedKeyFrame cfg (playingEntry cfg inp s) < cfg.keyFrameDirections.length ∧
        nextKeyFrame (scannedKeyFrame cfg (playingEntry cfg inp s))
          < cfg.keyFrameDirections.length) := by
  constructor
  · intro herr ⟨h1, h2, h3, h4⟩
    obtain ⟨a, ha⟩ := (lookup_some_iff _ _).mpr h1
    obtain ⟨b, hb⟩ := (lookup_some_iff _ _).mpr h2
    obtain ⟨o, ho⟩ := (lookup_some_iff _ _).mpr h3
    obtain ⟨d, hd⟩ := (lookup_some_iff _ _).mpr h4
    have hok := (updateFrame_playing_eq_ok cfg inp s _ hphase).mpr ⟨a, b, o, d, ha, hb, ho, hd, rfl⟩
    rw [herr] at hok
    exact absurd hok (by simp)
  · intro hno
    cases hres : updateFrame cfg inp s with
    | error e => cases e; rfl
    | ok s' =>
      obtain ⟨a, b, o, d, ha, hb, ho, hd, -⟩ :=
        (updateFrame_playing_eq_ok cfg inp s s' hphase).mp hres
      exact absurd ⟨(lookup_some_iff _ _).mp ⟨a, ha⟩, (lookup_some_iff _ _).mp ⟨b, hb⟩,
        (lookup_some_iff _ _).mp ⟨o, ho⟩, (lookup_some_iff _ _).mp ⟨d, hd⟩⟩ hno

theorem replayAudio_append (log cmds : List AudioCmd) :
    replayAudio (log ++ cmds) = cmds.foldl audioStep (replayAudio log) := by
  unfold replayAudio
  rw [List.foldl_append]

theorem notStartedFrame_audio (cfg : Config) (s : GameState) :
    (notStartedFrame cfg s).soundAlive =
      (if s.mouseLeftPressed = true ∧ cfg.options.enableMusic = true then true
        else s.soundAlive) ∧
    (notStartedFrame cfg s).audioLog =
      (if s.mouseLeftPressed = true ∧ cfg.options.enableMusic = true then
        s.audioLog ++ [.create, .setBuffer, .setPlayingOffset debug_startTime, .play]
        else s.audioLog) := by
  unfold notStartedFrame
  cases h : s.mouseLeftPressed <;> cases h2 : cfg.options.enableMusic <;> simp

theorem lostFrame_audio (s : GameState) :
    (lostFrame s).soundAlive = s.soundAlive ∧ (lostFrame s).audioLog = s.audioLog := by
  unfold lostFrame; split_ifs <;> exact ⟨rfl, rfl⟩

theorem pausedFrame_audio (cfg : Config) (s : GameState) :
    (pausedFrame cfg s).soundAlive = s.soundAlive ∧
    (pausedFrame cfg s).audioLog =
      (if s.mouseRightReleased = true ∧ cfg.options.enableMusic = true then
        s.audioLog ++ [.play] else s.audioLog) := by
  unfold pausedFrame
  cases h : s.mouseRightReleased <;> cases h2 : cfg.options.enableMusic <;> simp

theorem playingEntry_audio (cfg : Config) (inp : FrameInput) (s : GameState) :
    (playingEntry cfg inp s).soundAlive = s.soundAlive ∧
    (playingEntry cfg inp s).audioLog =
      (if (!inp.button2 && s.mouseRightPressed) && cfg.options.enableMusic then
        s.audioLog ++ [.pause] else s.audioLog) := by
  rw [playingEntry_eq]; exact ⟨rfl, rfl⟩

/-- The sound object after the frame body of a state that was not lost: stopped
and deleted exactly when the frame sets the lost flag and music is enabled. -/
theorem playingBody_audio (cfg : Config) (dt : ℚ) (s : GameState) (ckf : Nat)
    (a b : ℚ) (o d : KeyFrameAction) (hnl : s.hasLost = false) :
    (playingBody cfg dt s ckf a b o d).soundAlive =
      (if (playingBody cfg dt s ckf a b o d).hasLost = true ∧ cfg.options.enableMusic = true
        then false else s.soundAlive) ∧
    (playingBody cfg dt s ckf a b o d).audioLog =
      (if (playingBody cfg dt s ckf a b o d).hasLost = true ∧ cfg.options.enableMusic = true
        then s.audioLog ++ [.stop, .destroy] else s.audioLog) := by
  unfold playingBody
  simp only
  split_ifs <;> simp_all

theorem moveNodes_audio (s : GameState) :
    (moveNodes s).soundAlive = s.soundAlive ∧ (moveNodes s).audioLog = s.audioLog :=
  ⟨rfl, rfl⟩

theorem mouseCallback_audio (s : GameState) (x y : ℚ) (w h : Int) :
    (mouseCallback s x y w h).soundAlive = s.soundAlive ∧
    (mouseCallback s x y w h).audioLog = s.audioLog ∧
    (mouseCallback s x y w h).hasStarted = s.hasStarted ∧
    (mouseCallback s x y w h).hasLost = s.hasLost := ⟨rfl, rfl, rfl, rfl⟩

/-- With music enabled, in every state of a run the sound object is alive
exactly when the game is started and not lost, and the commands issued so far
replay without a fault to that same liveness. -/
theorem reachable_sound (cfg : Config) (w h : Int) (hmusic : cfg.options.enableMusic = true)
    (s : GameState) (hr : Reachable cfg w h s) :
    s.soundAlive = (s.hasStarted && !s.hasLost) ∧ replayAudio s.audioLog = some s.soundAlive := by
  induction hr with
  | init => exact ⟨rfl, rfl⟩
  | mouse x y w' h' s _ ih => exact ih
  | frame inp s s' hr0 hok ih =>
    obtain ⟨ih1, ih2⟩ := ih
    rcases phase_cases s with hp | hp | hp | hp
    · rw [updateFrame_notStarted cfg inp s hp] at hok
      injection hok with hok
      subst hok
      have hs := (phase_notStarted_iff s).mp hp
      have hl : s.hasLost = false := reachable_notStarted_not_lost cfg w h s hr0 hs
      rw [hs] at ih1
      simp only [Bool.false_and] at ih1
      rw [ih1] at ih2
      rw [(moveNodes_audio _).1, (moveNodes_audio _).2, (moveNodes_flags _).1,
        (moveNodes_flags _).2.1, (notStartedFrame_audio _ _).1, (notStartedFrame_audio _ _).2,
        (notStartedFrame_flags _ _).1, (notStartedFrame_flags _ _).2.1, sampleButtons_eq]
      simp only [hmusic, and_true, hs, Bool.false_or]
      cases hb : inp.button1
      · simp [ih1, ih2]
      · simp [hl, replayAudio_append, ih2, audioStep]
    · rw [updateFrame_lost cfg inp s hp] at hok
      injection hok with hok
      subst hok
      obtain ⟨hs, hl⟩ := (phase_lost_iff s).mp hp
      rw [hs, hl] at ih1
      have ih1' : s.soundAlive = false := by simpa using ih1
      rw [(moveNodes_audio _).1, (moveNodes_audio _).2, (moveNodes_flags _).1,
        (moveNodes_flags _).2.1, (lostFrame_audio _).1, (lostFrame_audio _).2,
        (lostFrame_flags _).1, (lostFrame_flags _).2.1, (lost_entry_flags _ _ _).1,
        (lost_entry_flags _ _ _).2.1, (started_entry_unchanged _ _ _).2.2.2.2.1,
        (started_entry_unchanged _ _ _).2.2.2.2.2, hs, hl]
      refine ⟨?_, ih2⟩
      rw [ih1']
      cases (advanceTotal inp.timeDelta (sampleButtons s inp)).mouseLeftReleased <;> rfl
    · rw [updateFrame_paused cfg inp s hp] at hok
      injection hok with hok
      subst hok
      obtain ⟨hs, hl, -⟩ := (phase_paused_iff s).mp hp
      rw [hs, hl] at ih1
      have ih1' : s.soundAlive = true := by simpa using ih1
      rw [ih1'] at ih2
      rw [(moveNodes_audio _).1, (moveNodes_audio _).2, (moveNodes_flags _).1,
        (moveNodes_flags _).2.1, (pausedFrame_audio _ _).1, (pausedFrame_audio _ _).2,
        (pausedFrame_flags _ _).1, (pausedFrame_flags _ _).2.1, (lost_entry_flags _ _ _).1,
        (lost_entry_flags _ _ _).2.1, (started_entry_unchanged _ _ _).2.2.2.2.1,
        (started_entry_unchanged _ _ _).2.2.2.2.2, hs, hl, ih1']
      refine ⟨rfl, ?_⟩
      split_ifs
      · rw [replayAudio_append, ih2]; rfl
      · exact ih2
    · obtain ⟨a, b, o, d, -, -, -, -, rfl⟩ := (updateFrame_playing_eq_ok cfg inp s s' hp).mp hok
      obtain ⟨hs, hl, -⟩ := (phase_playing_iff s).mp hp
      rw [hs, hl] at ih1
      have ih1' : s.soundAlive = true := by simpa using ih1
      rw [ih1'] at ih2
      have hentry : replayAudio (playingEntry cfg inp s).audioLog = some true := by
        rw [(playingEntry_audio _ _ _).2]
        split_ifs
        · rw [replayAudio_append, ih2]; rfl
        · exact ih2
      have hnl : (playingEntry cfg inp s).hasLost = false := by
        rw [(playingEntry_flags _ _ _).1, hl]
      have hb := playingBody_audio cfg inp.timeDelta (playingEntry cfg inp s)
        (scannedKeyFrame cfg (playingEntry cfg inp s)) a b o d hnl
      rw [(moveNodes_audio _).1, (moveNodes_audio _).2, (moveNodes_flags _).1,
        (moveNodes_flags _).2.1, hb.1, hb.2, (playingBody_unchanged _ _ _ _ _ _ _ _).1,
        (playingEntry_flags _ _ _).2.1, (playingEntry_audio _ _ _).1, hs, ih1']
      simp only [hmusic, and_true]
      cases hlost : (playingBody cfg inp.timeDelta (playingEntry cfg inp s)
          (scannedKeyFrame cfg (playingEntry cfg inp s)) a b o d).hasLost
      · simp [hentry]
      · simp [replayAudio_append, hentry, audioStep]

/-- C20: with `enableMusic` set, in every state reachable from the initial
state by frame updates (and pointer callbacks) the sound object is alive
whenever the game is started and not lost, in fact exactly then; and the whole
sequence of commands `updateFrame` has issued (create, set buffer, set offset,
play, pause, stop, delete) replays from "no object" without any command on an
absent object and without a second delete, ending in the state of the flag. -/
theorem sound_alive_when_used (cfg : Config) (windowWidth windowHeight : Int) (s : GameState)
    (hmusic : cfg.options.enableMusic = true)
    (hr : Reachable cfg windowWidth windowHeight s) :
    (s.hasStarted = true → s.hasLost = false → s.soundAlive = true) ∧
    (s.soundAlive = true ↔ (s.hasStarted = true ∧ s.hasLost = false)) ∧
    replayAudio s.audioLog = some s.soundAlive := by
  obtain ⟨h1, h2⟩ := reachable_sound cfg windowWidth windowHeight hmusic s hr
  refine ⟨?_, ?_, h2⟩
  · intro hs hl; rw [h1, hs, hl]; rfl
  · rw [h1]; simp

theorem musicStarted_reachable : Reachable musicConfig 1366 768 musicStarted :=
  Reachable.frame ⟨0, true, false⟩ _ _ Reachable.init (updateFrame_notStarted _ _ _ rfl)

/-- C20 at the state after the starting frame of a run with music: the game is
started and not lost, the four start commands have been issued, the object is
alive and the commands replay to "alive". -/
theorem sound_alive_when_used_witness :
    musicStarted.hasStarted = true ∧ musicStarted.hasLost = false ∧
    musicStarted.audioLog = [.create, .setBuffer, .setPlayingOffset debug_startTime, .play] ∧
    musicStarted.soundAlive = true ∧ replayAudio musicStarted.audioLog = some true := by
  have h := sound_alive_when_used musicConfig 1366 768 musicStarted rfl musicStarted_reachable
  have ha : musicStarted.soundAlive = true := h.1 rfl rfl
  refine ⟨rfl, rfl, rfl, ha, ?_⟩
  rw [h.2.2, ha]

/-- The calls `renderNode` makes on `gameScene`, evaluated: four draws, for the
box, the pad, the ball and the text, each with its flags and vertex array. -/
theorem gameScene_draws :
    issuedDraws ⟨0, 0⟩ (renderNode gameScene) =
      [⟨13, 2, 36⟩, ⟨1, 3, 36⟩, ⟨1, 1, 9360⟩, ⟨2, 4, 258⟩] := by
  simp [gameScene, renderNode, renderChildren, drawIfPresent, issuedDraws, glStep, freshNode,
    ShaderFlags.PhongLighting, ShaderFlags.Text, ShaderFlags.DiffuseMap, ShaderFlags.NormalMap,
    ShaderFlags.or]

/-! ## C5: Playing to Lost -/

theorem ballOutsidePadDouble_iff (box ball : Vec3) (px pz : ℚ) :
    ballOutsidePadDouble box ball px pz = true ↔
      (ball.x < padLeftXDouble box px ∨ ball.x > padRightXDouble box px ∨
        ball.z < padFrontZDouble box pz ∨ ball.z > padBackZDouble box pz) := by
  unfold ballOutsidePadDouble
  simp [or_assoc]

/-- The computed edges with the constants of the game filled in. -/
theorem pad_footprint_double_eq (box : Vec3) (px pz : ℚ) :
    padLeftXDouble box px =
      roundDouble (roundFloat (box.x - 90) + roundDouble (roundDouble (1 - px) * 150)) ∧
    padRightXDouble box px = roundDouble (padLeftXDouble box px + 30) ∧
    padFrontZDouble box pz =
      roundDouble (roundFloat (box.z - 45) + roundDouble (roundDouble (1 - pz) * 50)) ∧
    padBackZDouble box pz = roundDouble (padFrontZDouble box pz + 40) := by
  unfold padRightXDouble padBackZDouble padLeftXDouble padFrontZDouble boxDimensions
    padDimensions
  norm_num

theorem playingBodyDouble_fields (cfg : Config) (dt : ℚ) (s : GameState) (ckf : Nat)
    (a b : ℚ) (o d : KeyFrameAction) :
    (playingBodyDouble cfg dt s ckf a b o d).currentKeyFrame = ckf ∧
    (playingBodyDouble cfg dt s ckf a b o d).previousKeyFrame = ckf ∧
    (playingBodyDouble cfg dt s ckf a b o d).ballPosition =
      (playingBody cfg dt s ckf a b o d).ballPosition ∧
    (playingBodyDouble cfg dt s ckf a b o d).ballDirection =
      (playingBody cfg dt s ckf a b o d).ballDirection ∧
    (playingBodyDouble cfg dt s ckf a b o d).padPositionX =
      (playingBody cfg dt s ckf a b o d).padPositionX ∧
    (playingBodyDouble cfg dt s ckf a b o d).padPositionZ =
      (playingBody cfg dt s ckf a b o d).padPositionZ := by
  unfold playingBodyDouble playingBody
  simp only
  split_ifs <;> exact ⟨rfl, rfl, rfl, rfl, rfl, rfl⟩

/-- The lost flag after the frame body with the computed edges. -/
theorem playingBodyDouble_hasLost (cfg : Config) (dt : ℚ) (s : GameState) (ckf : Nat)
    (a b : ℚ) (o d : KeyFrameAction) :
    (playingBodyDouble cfg dt s ckf a b o d).hasLost =
      (s.hasLost ||
        ((ckf != s.previousKeyFrame) && decide (o = .BOTTOM) && decide (d = .TOP) &&
          ballOutsidePadDouble s.boxNodePosition
            (playingBodyDouble cfg dt s ckf a b o d).ballPosition
            (playingBodyDouble cfg dt s ckf a b o d).padPositionX
            (playingBodyDouble cfg dt s ckf a b o d).padPositionZ)) := by
  rw [(playingBodyDouble_fields _ _ _ _ _ _ _ _).2.2.1,
    (playingBodyDouble_fields _ _ _ _ _ _ _ _).2.2.2.2.1,
    (playingBodyDouble_fields _ _ _ _ _ _ _ _).2.2.2.2.2,
    playingBody_ballPosition, (playingBody_pad _ _ _ _ _ _ _ _).1,
    (playingBody_pad _ _ _ _ _ _ _ _).2, playingBody_ballPosition]
  unfold playingBodyDouble
  simp only
  split_ifs <;> simp_all

theorem playingFrameDouble_eq_ok_iff (cfg : Config) (dt : ℚ) (s s' : GameState) :
    playingFrameDouble cfg dt s = .ok s' ↔
      ∃ a b o d,
        cfg.keyFrameTimeStamps[scannedKeyFrame cfg (playingClock cfg dt s)]? = some a ∧
        cfg.keyFrameTimeStamps[nextKeyFrame (scannedKeyFrame cfg (playingClock cfg dt s))]?
          = some b ∧
        cfg.keyFrameDirections[scannedKeyFrame cfg (playingClock cfg dt s)]? = some o ∧
        cfg.keyFrameDirections[nextKeyFrame (scannedKeyFrame cfg (playingClock cfg dt s))]?
          = some d ∧
        s' = playingBodyDouble cfg dt (playingClock cfg dt s)
          (scannedKeyFrame cfg (playingClock cfg dt s)) a b o d := by
  unfold playingFrameDouble
  simp only
  cases h1 : cfg.keyFrameTimeStamps[scannedKeyFrame cfg (playingClock cfg dt s)]? with
  | none => simp
  | some a =>
    cases h2 : cfg.keyFrameTimeStamps[nextKeyFrame
        (scannedKeyFrame cfg (playingClock cfg dt s))]? with
    | none => simp
    | some b =>
      cases h3 : cfg.keyFrameDirections[scannedKeyFrame cfg (playingClock cfg dt s)]? with
      | none => simp
      | some o =>
        cases h4 : cfg.keyFrameDirections[nextKeyFrame
            (scannedKeyFrame cfg (playingClock cfg dt s))]? with
        | none => simp
        | some d =>
          simp only [Except.ok.injEq, Option.some.injEq]
          constructor
          · intro h; exact ⟨a, b, o, d, rfl, rfl, rfl, rfl, h.symm⟩
          · rintro ⟨a', b', o', d', rfl, rfl, rfl, rfl, h⟩; exact h.symm

/-- A Playing frame with the computed edges returns exactly when its four
table lookups succeed, and then the new state is the frame body followed by
the node moves. -/
theorem updateFrameDouble_playing_eq_ok (cfg : Config) (inp : FrameInput) (s s' : GameState)
    (hphase : phase s = .Playing) :
    updateFrameDouble cfg inp s = .ok s' ↔
      ∃ a b o d,
        cfg.keyFrameTimeStamps[scannedKeyFrame cfg (playingEntry cfg inp s)]? = some a ∧
        cfg.keyFrameTimeStamps[nextKeyFrame (scannedKeyFrame cfg (playingEntry cfg inp s))]?
          = some b ∧
        cfg.keyFrameDirections[scannedKeyFrame cfg (playingEntry cfg inp s)]? = some o ∧
        cfg.keyFrameDirections[nextKeyFrame (scannedKeyFrame cfg (playingEntry cfg inp s))]?
          = some d ∧
        s' = moveNodes (playingBodyDouble cfg inp.timeDelta (playingEntry cfg inp s)
          (scannedKeyFrame cfg (playingEntry cfg inp s)) a b o d) := by
  have h := (phase_playing_iff s).mp hphase
  have hu : updateFrameDouble cfg inp s =
      match playingFrameDouble cfg inp.timeDelta
          (advanceTotal inp.timeDelta (sampleButtons s inp)) with
      | .ok s1 => .ok (moveNodes s1)
      | .error e => .error e := by
    unfold updateFrameDouble startedFrameDouble
    simp [sampleButtons_eq, advanceTotal, h.1, h.2.1, h.2.2]
  rw [hu]
  constructor
  · intro h1
    cases hp : playingFrameDouble cfg inp.timeDelta
        (advanceTotal inp.timeDelta (sampleButtons s inp)) with
    | error e => rw [hp] at h1; cases h1
    | ok s1 =>
      rw [hp] at h1
      injection h1 with h1
      obtain ⟨a, b, o, d, ha, hb, ho, hd, rfl⟩ := (playingFrameDouble_eq_ok_iff _ _ _ _).mp hp
      exact ⟨a, b, o, d, ha, hb, ho, hd, h1.symm⟩
  · rintro ⟨a, b, o, d, ha, hb, ho, hd, rfl⟩
    have hp := (playingFrameDouble_eq_ok_iff cfg inp.timeDelta
      (advanceTotal inp.timeDelta (sampleButtons s inp)) _).mpr
      ⟨a, b, o, d, ha, hb, ho, hd, rfl⟩
    rw [hp]
    rfl

/-- C5, amended: a frame update from phase Playing sets the lost flag if and
only if (a) the keyframe index it stores differs from the previous frame's
index, (b) the active interval goes from a Bottom to a Top boundary, and (c)
the ball, after this frame's move and clamp, has `x` outside
`[padLeftX, padRightX]` or `z` outside `[padFrontZ, padBackZ]`, the four edges
being the `double` values the frame computes:
`padLeftX = rd (rf (box.x - 90) + rd (rd (1 - padPositionX) * 150))`,
`padRightX = rd (padLeftX + 30)`,
`padFrontZ = rd (rf (box.z - 45) + rd (rd (1 - padPositionZ) * 50))`,
`padBackZ = rd (padFrontZ + 40)`, with `rd`, `rf` the roundings to `double` and
`float`, at the box position the frame read and the accumulators the frame
leaves. In particular a fresh Bottom-to-Top crossing with the ball 5 units
left of the computed `padLeftX` loses. -/
theorem lost_iff_outside_computed_footprint (cfg : Config) (inp : FrameInput)
    (s s' : GameState) (hphase : phase s = .Playing)
    (hok : updateFrameDouble cfg inp s = .ok s') :
    (s'.hasLost = true ↔
      (s'.currentKeyFrame ≠ s.previousKeyFrame ∧
        cfg.keyFrameDirections[s'.currentKeyFrame]? = some .BOTTOM ∧
        cfg.keyFrameDirections[nextKeyFrame s'.currentKeyFrame]? = some .TOP ∧
        (¬ (padLeftXDouble s.boxNodePosition s'.padPositionX ≤ s'.ballPosition.x ∧
            s'.ballPosition.x ≤ padRightXDouble s.boxNodePosition s'.padPositionX) ∨
          ¬ (padFrontZDouble s.boxNodePosition s'.padPositionZ ≤ s'.ballPosition.z ∧
            s'.ballPosition.z ≤ padBackZDouble s.boxNodePosition s'.padPositionZ)))) ∧
    (padLeftXDouble s.boxNodePosition s'.padPositionX =
        roundDouble (roundFloat (s.boxNodePosition.x - 90) +
          roundDouble (roundDouble (1 - s'.padPositionX) * 150)) ∧
      padRightXDouble s.boxNodePosition s'.padPositionX =
        roundDouble (padLeftXDouble s.boxNodePosition s'.padPositionX + 30) ∧
      padFrontZDouble s.boxNodePosition s'.padPositionZ =
        roundDouble (roundFloat (s.boxNodePosition.z - 45) +
          roundDouble (roundDouble (1 - s'.padPositionZ) * 50)) ∧
      padBackZDouble s.boxNodePosition s'.padPositionZ =
        roundDouble (padFrontZDouble s.boxNodePosition s'.padPositionZ + 40)) ∧
    (s'.currentKeyFrame ≠ s.previousKeyFrame →
      cfg.keyFrameDirections[s'.currentKeyFrame]? = some .BOTTOM →
      cfg.keyFrameDirections[nextKeyFrame s'.currentKeyFrame]? = some .TOP →
      s'.ballPosition.x = padLeftXDouble s.boxNodePosition s'.padPositionX - 5 →
      s'.hasLost = true) := by
  obtain ⟨a, b, o, d, ha, hb, ho, hd, rfl⟩ :=
    (updateFrameDouble_playing_eq_ok cfg inp s s' hphase).mp hok
  have hfl := (phase_playing_iff s).mp hphase
  have main : (moveNodes (playingBodyDouble cfg inp.timeDelta (playingEntry cfg inp s)
      (scannedKeyFrame cfg (playingEntry cfg inp s)) a b o d)).hasLost = true ↔
      ((moveNodes (playingBodyDouble cfg inp.timeDelta (playingEntry cfg inp s)
          (scannedKeyFrame cfg (playingEntry cfg inp s)) a b o d)).currentKeyFrame
          ≠ s.previousKeyFrame ∧
        cfg.keyFrameDirections[(moveNodes (playingBodyDouble cfg inp.timeDelta
          (playingEntry cfg inp s) (scannedKeyFrame cfg (playingEntry cfg inp s))
          a b o d)).currentKeyFrame]? = some .BOTTOM ∧
        cfg.keyFrameDirections[nextKeyFrame (moveNodes (playingBodyDouble cfg inp.timeDelta
          (playingEntry cfg inp s) (scannedKeyFrame cfg (playingEntry cfg inp s))
          a b o d)).currentKeyFrame]? = some .TOP ∧
        ballOutsidePadDouble s.boxNodePosition
          (playingBodyDouble cfg inp.timeDelta (playingEntry cfg inp s)
            (scannedKeyFrame cfg (playingEntry cfg inp s)) a b o d).ballPosition
          (playingBodyDouble cfg inp.timeDelta (playingEntry cfg inp s)
            (scannedKeyFrame cfg (playingEntry cfg inp s)) a b o d).padPositionX
          (playingBodyDouble cfg inp.timeDelta (playingEntry cfg inp s)
            (scannedKeyFrame cfg (playingEntry cfg inp s)) a b o d).padPositionZ = true) := by
    rw [(moveNodes_flags _).1, playingBodyDouble_hasLost, (playingEntry_flags _ _ _).1,
      (playingEntry_flags _ _ _).2.2.1, playingEntry_boxNodePosition, hfl.2.1,
      moveNodes_currentKeyFrame, (playingBodyDouble_fields _ _ _ _ _ _ _ _).1, ho, hd]
    simp [and_assoc]
  refine ⟨?_, pad_footprint_double_eq _ _ _, ?_⟩
  · rw [main, ballOutsidePadDouble_iff, (moveNodes_pad _).1, (moveNodes_pad _).2,
      moveNodes_ballPosition]
    constructor
    · rintro ⟨h1, h2, h3, h4⟩
      refine ⟨h1, h2, h3, ?_⟩
      rcases h4 with h | h | h | h
      · left; intro hh; linarith [hh.1]
      · left; intro hh; linarith [hh.2]
      · right; intro hh; linarith [hh.1]
      · right; intro hh; linarith [hh.2]
    · rintro ⟨h1, h2, h3, h4⟩
      refine ⟨h1, h2, h3, ?_⟩
      rcases h4 with h | h
      · rw [not_and_or, not_le, not_le] at h
        rcases h with h | h
        · exact Or.inl h
        · exact Or.inr (Or.inl h)
      · rw [not_and_or, not_le, not_le] at h
        rcases h with h | h
        · exact Or.inr (Or.inr (Or.inl h))
        · exact Or.inr (Or.inr (Or.inr h))
  · intro h1 h2 h3 h4
    rw [main]
    refine ⟨h1, h2, h3, ?_⟩
    rw [ballOutsidePadDouble_iff]
    left
    rw [(moveNodes_pad _).1, moveNodes_ballPosition] at h4
    rw [h4]
    linarith

theorem crossing_frame_double :
    updateFrameDouble crossingConfig ⟨1 / 2, false, false⟩ crossingPlaying =
      .ok (moveNodes (playingBodyDouble crossingConfig (1 / 2)
        (playingEntry crossingConfig ⟨1 / 2, false, false⟩ crossingPlaying) 1 1 2
        .BOTTOM .TOP)) := by
  refine (updateFrameDouble_playing_eq_ok crossingConfig ⟨1 / 2, false, false⟩ crossingPlaying _
    rfl).mpr ⟨1, 2, .BOTTOM, .TOP, ?_, ?_, ?_, ?_, ?_⟩
  · rw [crossing_scan]; rfl
  · rw [crossing_scan]; rfl
  · rw [crossing_scan]; rfl
  · rw [crossing_scan]; rfl
  · rw [crossing_scan]

theorem crossing_frame_double_ball_x :
    (moveNodes (playingBodyDouble crossingConfig (1 / 2)
        (playingEntry crossingConfig ⟨1 / 2, false, false⟩ crossingPlaying) 1 1 2
        .BOTTOM .TOP)).ballPosition.x =
      padLeftXDouble crossingPlaying.boxNodePosition
        (moveNodes (playingBodyDouble crossingConfig (1 / 2)
          (playingEntry crossingConfig ⟨1 / 2, false, false⟩ crossingPlaying) 1 1 2
          .BOTTOM .TOP)).padPositionX - 5 := by
  rw [moveNodes_ballPosition, (moveNodes_pad _).1,
    (playingBodyDouble_fields _ _ _ _ _ _ _ _).2.2.1,
    (playingBodyDouble_fields _ _ _ _ _ _ _ _).2.2.2.2.1,
    (playingBody_pad _ _ _ _ _ _ _ _).1, playingBody_ballPosition_x,
    playingEntry_boxNodePosition, (playingEntry_ball_x _ _ _).1,
    (playingEntry_ball_x _ _ _).2.2.1, (playingEntry_pad _ _ _).1]
  norm_num [crossingConfig, crossingPlaying, scenarioPlaying, initialState, bounce, ballMinX,
    ballMaxX, padLeftXDouble, boxDimensions, padDimensions, ballRadius, ballSpeed,
    movedCoordinate]

/-- C5 (amended) at the state `crossingPlaying`: the half-second frame crosses
into the Bottom-to-Top interval `1` with the ball at `x = 55`, 5 units left of
the computed `padLeftX = 60`, and the lost flag is set. -/
theorem lost_iff_outside_computed_footprint_witness :
    ∃ s', updateFrameDouble crossingConfig ⟨1 / 2, false, false⟩ crossingPlaying = .ok s' ∧
      s'.ballPosition.x =
        padLeftXDouble crossingPlaying.boxNodePosition s'.padPositionX - 5 ∧
      s'.hasLost = true :=
  ⟨_, crossing_frame_double, crossing_frame_double_ball_x,
    (lost_iff_outside_computed_footprint crossingConfig ⟨1 / 2, false, false⟩ crossingPlaying _
      rfl crossing_frame_double).2.2
      (by rw [moveNodes_currentKeyFrame, (playingBodyDouble_fields _ _ _ _ _ _ _ _).1]
          decide)
      (by rw [moveNodes_currentKeyFrame, (playingBodyDouble_fields _ _ _ _ _ _ _ _).1]
          rfl)
      (by rw [moveNodes_currentKeyFrame, (playingBodyDouble_fields _ _ _ _ _ _ _ _).1]
          rfl)
      crossing_frame_double_ball_x⟩

/-! ### The ball on the computed right edge -/

theorem grazing_scan :
    scannedKeyFrame crossingConfig (playingEntry crossingConfig ⟨1 / 2, false, false⟩
      grazingPlaying) = 1 := by
  rw [playingEntry_eq]
  norm_num [scannedKeyFrame, crossingConfig, grazingPlaying, scenarioPlaying, initialState,
    scenarioTimeStamps]
  repeat (rw [scanKeyFrames]; norm_num)

theorem grazing_frame :
    updateFrameDouble crossingConfig ⟨1 / 2, false, false⟩ grazingPlaying =
      .ok (moveNodes (playingBodyDouble crossingConfig (1 / 2)
        (playingEntry crossingConfig ⟨1 / 2, false, false⟩ grazingPlaying) 1 1 2
        .BOTTOM .TOP)) := by
  refine (updateFrameDouble_playing_eq_ok crossingConfig ⟨1 / 2, false, false⟩ grazingPlaying _
    rfl).mpr ⟨1, 2, .BOTTOM, .TOP, ?_, ?_, ?_, ?_, ?_⟩
  · rw [grazing_scan]; rfl
  · rw [grazing_scan]; rfl
  · rw [grazing_scan]; rfl
  · rw [grazing_scan]; rfl
  · rw [grazing_scan]

/-- The computed edges at the accumulators `(0.38, 0)` and the box position
`(0, -10, -80)`: the product `(1 - 0.38) * 150` rounds to `93`. -/
theorem grazing_footprint :
    padLeftXDouble ⟨0, -10, -80⟩ padNearEdge = 3 ∧
    padRightXDouble ⟨0, -10, -80⟩ padNearEdge = 33 ∧
    padFrontZDouble ⟨0, -10, -80⟩ 0 = -75 ∧
    padBackZDouble ⟨0, -10, -80⟩ 0 = -35 := by
  have h1 : roundDouble (5584463537939415 / 9007199254740992) =
      5584463537939415 / 9007199254740992 := by
    have := roundDouble_of_representable 5584463537939415 53 (by norm_num) (by norm_num)
    norm_num at this ⊢
    exact this
  have h2 : roundDouble (418834765345456125 / 4503599627370496) = 93 := by
    have := roundBinary_of_near 53 (-1074) (x := 418834765345456125 / 4503599627370496) 6
      (-46) (93 * 2 ^ 46) (by norm_num) (by norm_num) (by decide) (by norm_num)
      (by norm_num)
    rw [roundDouble, this]; norm_num
  have hl : padLeftXDouble ⟨0, -10, -80⟩ padNearEdge = 3 := by
    unfold padLeftXDouble boxDimensions padDimensions padNearEdge
    norm_num [h1, h2]
  have hf : padFrontZDouble ⟨0, -10, -80⟩ 0 = -75 := by
    unfold padFrontZDouble boxDimensions padDimensions
    norm_num
  refine ⟨hl, ?_, hf, ?_⟩
  · unfold padRightXDouble
    rw [hl]; norm_num [padDimensions]
  · unfold padBackZDouble
    rw [hf]; norm_num [padDimensions]

theorem grazing_ball :
    (playingBody crossingConfig (1 / 2)
        (playingEntry crossingConfig ⟨1 / 2, false, false⟩ grazingPlaying) 1 1 2
        .BOTTOM .TOP).ballPosition.x = 33 ∧
    (playingBody crossingConfig (1 / 2)
        (playingEntry crossingConfig ⟨1 / 2, false, false⟩ grazingPlaying) 1 1 2
        .BOTTOM .TOP).ballPosition.z = -70 ∧
    (playingBody crossingConfig (1 / 2)
        (playingEntry crossingConfig ⟨1 / 2, false, false⟩ grazingPlaying) 1 1 2
        .BOTTOM .TOP).padPositionX = padNearEdge ∧
    (playingBody crossingConfig (1 / 2)
        (playingEntry crossingConfig ⟨1 / 2, false, false⟩ grazingPlaying) 1 1 2
        .BOTTOM .TOP).padPositionZ = 0 := by
  have z1 : roundDouble (201326595 / 33554432) = 201326595 / 33554432 := by
    have := roundDouble_of_representable 201326595 25 (by norm_num) (by norm_num)
    norm_num at this ⊢
    exact this
  have z2 : roundDouble (2348810237 / 33554432) = 2348810237 / 33554432 := by
    have := roundDouble_of_representable 2348810237 25 (by norm_num) (by norm_num)
    norm_num at this ⊢
    exact this
  have z3 : roundFloat (2348810237 / 33554432) = 70 := by
    have := roundBinary_of_near 24 (-149) (x := 2348810237 / 33554432) 6 (-17) (70 * 2 ^ 17)
      (by norm_num) (by norm_num) (by decide) (by norm_num) (by norm_num)
    rw [roundFloat, this]; norm_num
  rw [(playingBody_pad _ _ _ _ _ _ _ _).1, (playingBody_pad _ _ _ _ _ _ _ _).2,
    playingBody_ballPosition_x, playingBody_ballPosition_z, playingEntry_boxNodePosition,
    (playingEntry_ball_x _ _ _).1, (playingEntry_ball_x _ _ _).2.1,
    (playingEntry_ball_x _ _ _).2.2.1, (playingEntry_ball_x _ _ _).2.2.2,
    (playingEntry_pad _ _ _).1, (playingEntry_pad _ _ _).2]
  norm_num [crossingConfig, grazingPlaying, scenarioPlaying, initialState, bounce, ballMinX,
    ballMaxX, ballMinZ, ballMaxZ, cameraWallOffset, boxDimensions, padDimensions, ballRadius,
    ballSpeed, movedCoordinate, z1, z2, z3]

/-- C5 fails as stated: from the Playing state `grazingPlaying` (accumulator
`x` at the `double` `0.38`, box at `(0, -10, -80)`) the half-second frame
enters the Bottom-to-Top interval `1`, a keyframe change, and leaves the ball
at `x = 33`, which is outside `[padLeftX, padLeftX + 30]` for
`padLeftX = box.x - 90 + (1 - padPositionX) * 150`; the frame computes the
right edge `33` and does not set the lost flag. -/
theorem miss_by_exact_edge_not_lost :
    phase grazingPlaying = .Playing ∧
    ∃ s', updateFrameDouble crossingConfig ⟨1 / 2, false, false⟩ grazingPlaying = .ok s' ∧
      s'.currentKeyFrame ≠ grazingPlaying.previousKeyFrame ∧
      crossingConfig.keyFrameDirections[s'.currentKeyFrame]? = some .BOTTOM ∧
      crossingConfig.keyFrameDirections[nextKeyFrame s'.currentKeyFrame]? = some .TOP ∧
      s'.ballPosition.x = 33 ∧
      ¬ (grazingPlaying.boxNodePosition.x - 90 + (1 - s'.padPositionX) * 150
            ≤ s'.ballPosition.x ∧
          s'.ballPosition.x ≤
            grazingPlaying.boxNodePosition.x - 90 + (1 - s'.padPositionX) * 150 + 30) ∧
      padRightXDouble grazingPlaying.boxNodePosition s'.padPositionX = 33 ∧
      s'.hasLost = false := by
  obtain ⟨bx, bz, px, pz⟩ := grazing_ball
  obtain ⟨fl, fr, ff, fb⟩ := grazing_footprint
  have hbox : grazingPlaying.boxNodePosition = ⟨0, -10, -80⟩ := rfl
  refine ⟨rfl, _, grazing_frame, ?_, ?_, ?_, ?_, ?_, ?_, ?_⟩
  · rw [moveNodes_currentKeyFrame, (playingBodyDouble_fields _ _ _ _ _ _ _ _).1]
    decide
  · rw [moveNodes_currentKeyFrame, (playingBodyDouble_fields _ _ _ _ _ _ _ _).1]
    rfl
  · rw [moveNodes_currentKeyFrame, (playingBodyDouble_fields _ _ _ _ _ _ _ _).1]
    rfl
  · rw [moveNodes_ballPosition, (playingBodyDouble_fields _ _ _ _ _ _ _ _).2.2.1, bx]
  · rw [moveNodes_ballPosition, (moveNodes_pad _).1,
      (playingBodyDouble_fields _ _ _ _ _ _ _ _).2.2.1,
      (playingBodyDouble_fields _ _ _ _ _ _ _ _).2.2.2.2.1, bx, px, hbox]
    norm_num [padNearEdge]
  · rw [(moveNodes_pad _).1, (playingBodyDouble_fields _ _ _ _ _ _ _ _).2.2.2.2.1, px, hbox, fr]
  · rw [(moveNodes_flags _).1, playingBodyDouble_hasLost,
      (playingBodyDouble_fields _ _ _ _ _ _ _ _).2.2.1,
      (playingBodyDouble_fields _ _ _ _ _ _ _ _).2.2.2.2.1,
      (playingBodyDouble_fields _ _ _ _ _ _ _ _).2.2.2.2.2, playingEntry_boxNodePosition, hbox]
    have hout : ballOutsidePadDouble ⟨0, -10, -80⟩
        (playingBody crossingConfig (1 / 2)
          (playingEntry crossingConfig ⟨1 / 2, false, false⟩ grazingPlaying) 1 1 2
          .BOTTOM .TOP).ballPosition padNearEdge 0 = false := by
      rw [Bool.eq_false_iff]
      intro h
      rw [ballOutsidePadDouble_iff, bx, bz, fl, fr, ff, fb] at h
      norm_num at h
    rw [px, pz, hout, (playingEntry_flags _ _ _).1]
    rfl

/-! ### The two miss tests -/

/-- The two frame bodies differ only through the outcome of the miss test:
when the test on the computed edges and the test on the exact edges agree at
the ball position and accumulators the body leaves, the bodies return the
same state. -/
theorem playingBodyDouble_eq_playingBody (cfg : Config) (dt : ℚ) (s : GameState) (ckf : Nat)
    (a b : ℚ) (o d : KeyFrameAction)
    (h : ballOutsidePadDouble s.boxNodePosition (playingBody cfg dt s ckf a b o d).ballPosition
          (playingBody cfg dt s ckf a b o d).padPositionX
          (playingBody cfg dt s ckf a b o d).padPositionZ =
        ballOutsidePad s.boxNodePosition (playingBody cfg dt s ckf a b o d).ballPosition
          (playingBody cfg dt s ckf a b o d).padPositionX
          (playingBody cfg dt s ckf a b o d).padPositionZ) :
    playingBodyDouble cfg dt s ckf a b o d = playingBody cfg dt s ckf a b o d := by
  rw [playingBody_ballPosition, (playingBody_pad _ _ _ _ _ _ _ _).1,
    (playingBody_pad _ _ _ _ _ _ _ _).2, playingBody_ballPosition] at h
  unfold playingBodyDouble playingBody
  simp only
  by_cases hauto : cfg.options.enableAutoplay = true
  · simp only [hauto, if_true] at h ⊢
    rw [h]
  · have hf : cfg.options.enableAutoplay = false := by simpa using hauto
    simp only [hf, Bool.false_eq_true, if_false] at h ⊢
    rw [h]

/-- A Playing frame with the computed edges returns the state of `updateFrame`
whenever the two miss tests agree at the ball position and accumulators of
that state. -/
theorem updateFrameDouble_eq_updateFrame (cfg : Config) (inp : FrameInput) (s s' : GameState)
    (hphase : phase s = .Playing) (hok : updateFrame cfg inp s = .ok s')
    (h : ballOutsidePadDouble s.boxNodePosition s'.ballPosition s'.padPositionX
          s'.padPositionZ =
        ballOutsidePad s.boxNodePosition s'.ballPosition s'.padPositionX s'.padPositionZ) :
    updateFrameDouble cfg inp s = .ok s' := by
  obtain ⟨a, b, o, d, ha, hb, ho, hd, rfl⟩ :=
    (updateFrame_playing_eq_ok cfg inp s s' hphase).mp hok
  rw [moveNodes_ballPosition, (moveNodes_pad _).1, (moveNodes_pad _).2,
    ← playingEntry_boxNodePosition cfg inp s] at h
  refine (updateFrameDouble_playing_eq_ok cfg inp s _ hphase).mpr
    ⟨a, b, o, d, ha, hb, ho, hd, ?_⟩
  rw [playingBodyDouble_eq_playingBody _ _ _ _ _ _ _ _ h]

end GameLogic
